import Mathlib

/-!
# BOOKPULSE: catalog proxy and response normalisation

A shallow embedding of the request/response shaping code of the repository
(`backend/services/openLibraryService.js`, `backend/routes/bookRoutes.js`,
`frontend/services/bookService.js`, `frontend/screens/HomeScreen.js`) and the
properties proved about it.

Modelling conventions.

* JavaScript values are the type `JsVal`. Numbers are integers (`NaN`, infinities
  and fractions are not represented); functions are not values of the type.
* An `async` function that talks to the outside world is a state-passing function
  `σ → Except Thrown α × σ`, where `σ` is the state of the outside world; a rejected
  promise or a `throw` is `Except.error`.
* Observable effects of the retry helper (invocations of the callback, sleeps) are
  recorded in an explicit trace.
-/

namespace BookPulse

/-! ## JavaScript values -/

/-- JavaScript values, as far as the program handles them. -/
inductive JsVal where
  | undefined : JsVal
  | null : JsVal
  | bool (b : Bool) : JsVal
  | num (n : Int) : JsVal
  | str (s : String) : JsVal
  | arr (xs : List JsVal) : JsVal
  | obj (fields : List (String × JsVal)) : JsVal

instance : Inhabited JsVal := ⟨JsVal.undefined⟩

/-! Decidable equality of values, so that concrete evaluations can be checked by `decide`. -/

mutual
/-- Decidable equality on values. -/
def JsVal.decEq : (a b : JsVal) → Decidable (a = b)
  | .undefined, b => by cases b <;> first | exact isTrue rfl | exact isFalse JsVal.noConfusion
  | .null, b => by cases b <;> first | exact isTrue rfl | exact isFalse JsVal.noConfusion
  | .bool x, .bool y => if h : x = y then isTrue (congrArg _ h) else isFalse (fun h' => h (JsVal.bool.inj h'))
  | .bool _, .undefined | .bool _, .null | .bool _, .num _ | .bool _, .str _ | .bool _, .arr _
  | .bool _, .obj _ => isFalse JsVal.noConfusion
  | .num x, .num y => if h : x = y then isTrue (congrArg _ h) else isFalse (fun h' => h (JsVal.num.inj h'))
  | .num _, .undefined | .num _, .null | .num _, .bool _ | .num _, .str _ | .num _, .arr _
  | .num _, .obj _ => isFalse JsVal.noConfusion
  | .str x, .str y => if h : x = y then isTrue (congrArg _ h) else isFalse (fun h' => h (JsVal.str.inj h'))
  | .str _, .undefined | .str _, .null | .str _, .bool _ | .str _, .num _ | .str _, .arr _
  | .str _, .obj _ => isFalse JsVal.noConfusion
  | .arr x, .arr y =>
    match JsVal.decEqList x y with
    | isTrue h => isTrue (congrArg _ h)
    | isFalse h => isFalse (fun h' => h (JsVal.arr.inj h'))
  | .arr _, .undefined | .arr _, .null | .arr _, .bool _ | .arr _, .num _ | .arr _, .str _
  | .arr _, .obj _ => isFalse JsVal.noConfusion
  | .obj x, .obj y =>
    match JsVal.decEqFields x y with
    | isTrue h => isTrue (congrArg _ h)
    | isFalse h => isFalse (fun h' => h (JsVal.obj.inj h'))
  | .obj _, .undefined | .obj _, .null | .obj _, .bool _ | .obj _, .num _ | .obj _, .str _
  | .obj _, .arr _ => isFalse JsVal.noConfusion
/-- Decidable equality on lists of values. -/
def JsVal.decEqList : (a b : List JsVal) → Decidable (a = b)
  | [], [] => isTrue rfl
  | [], _ :: _ => isFalse List.noConfusion
  | _ :: _, [] => isFalse List.noConfusion
  | x :: xs, y :: ys =>
    match JsVal.decEq x y, JsVal.decEqList xs ys with
    | isTrue h, isTrue h' => isTrue (by rw [h, h'])
    | isFalse h, _ => isFalse (fun e => h (List.cons.inj e).1)
    | _, isFalse h => isFalse (fun e => h (List.cons.inj e).2)
/-- Decidable equality on field lists. -/
def JsVal.decEqFields : (a b : List (String × JsVal)) → Decidable (a = b)
  | [], [] => isTrue rfl
  | [], _ :: _ => isFalse List.noConfusion
  | _ :: _, [] => isFalse List.noConfusion
  | (k, x) :: xs, (k', y) :: ys =>
    if hk : k = k' then
      match JsVal.decEq x y, JsVal.decEqFields xs ys with
      | isTrue h, isTrue h' => isTrue (by rw [hk, h, h'])
      | isFalse h, _ => isFalse (fun e => h (Prod.mk.inj (List.cons.inj e).1).2)
      | _, isFalse h => isFalse (fun e => h (List.cons.inj e).2)
    else isFalse (fun e => hk (Prod.mk.inj (List.cons.inj e).1).1)
end

instance : DecidableEq JsVal := JsVal.decEq


/-- A thrown value (the rejection reason of a promise). `status` is the HTTP status of
`error.response` when the error comes from an answered HTTP request. -/
structure Thrown where
  name : String
  message : String
  status : Option Nat := none
deriving DecidableEq, Repr

deriving instance DecidableEq for Except

/-- JavaScript truthiness (`ToBoolean`). -/
def truthy : JsVal → Bool
  | .undefined => false
  | .null => false
  | .bool b => b
  | .num n => n != 0
  | .str s => s != ""
  | .arr _ => true
  | .obj _ => true

/-- The operator `a || b` on values whose evaluation cannot throw. -/
def jsOr (a b : JsVal) : JsVal := if truthy a then a else b

/-- Own-property lookup in an object's field list (first binding of the key). -/
def lookupField (k : String) : List (String × JsVal) → JsVal
  | [] => .undefined
  | (k', v) :: rest => if k' = k then v else lookupField k rest

/-- The `TypeError` of a property read on `undefined` or `null`. -/
def propTypeError (k : String) : Thrown :=
  { name := "TypeError", message := "Cannot read properties of undefined or null (reading " ++ k ++ ")" }

/-- Property read `v.k` for a data property name `k` (none of the names the program reads
is a built-in of `String`, `Number`, `Boolean` or `Array`): it throws on `undefined` and
`null`, looks the key up in an object and is `undefined` on every other value. -/
def getProp (v : JsVal) (k : String) : Except Thrown JsVal :=
  match v with
  | .undefined => .error (propTypeError k)
  | .null => .error (propTypeError k)
  | .obj fields => .ok (lookupField k fields)
  | _ => .ok .undefined

/-! ## `retryRequest` (backend/services/openLibraryService.js, lines 16-25) -/

/-- Observable effects of `retryRequest`: an invocation of `fn`, or a sleep of `ms`
milliseconds (`setTimeout(resolve, ms)` awaited). -/
inductive Event where
  | invoke : Event
  | sleep (ms : Int) : Event
deriving DecidableEq, Repr

/-- The outcome of a run of `retryRequest`: its result (`none` is the value `undefined`
obtained by falling off the end of the loop), the final state of the world and the trace of
effects, oldest first. -/
structure RetryRun (σ ε α : Type) where
  result : Except ε (Option α)
  state : σ
  trace : List Event

/-- The loop `for (let i = 0; i < retries; i++)` of `retryRequest`, with `remaining`
iterations left to run (`remaining = retries - i` whenever the loop test holds). -/
def retryLoop {σ ε α : Type} (fn : σ → Except ε α × σ) (retries : Int) :
    Nat → Int → σ → List Event → RetryRun σ ε α
  | 0, _, s, tr => { result := .ok none, state := s, trace := tr }
  | remaining + 1, i, s, tr =>
    match fn s with
    | (.ok v, s') => { result := .ok (some v), state := s', trace := tr ++ [Event.invoke] }
    | (.error e, s') =>
      if i = retries - 1 then
        { result := .error e, state := s', trace := tr ++ [Event.invoke] }
      else
        retryLoop fn retries remaining (i + 1) s'
          (tr ++ [Event.invoke, Event.sleep (1000 * (i + 1))])

/-- `retryRequest(fn, retries)`. -/
def retryRequest {σ ε α : Type} (fn : σ → Except ε α × σ) (retries : Int) (s : σ) :
    RetryRun σ ε α :=
  retryLoop fn retries retries.toNat 0 s []

/-- Number of invocations of `fn` recorded in a trace. -/
def invocations (tr : List Event) : Nat := tr.count Event.invoke

/-- The sleeps recorded in a trace, in order. -/
def waits : List Event → List Int
  | [] => []
  | Event.invoke :: tr => waits tr
  | Event.sleep ms :: tr => ms :: waits tr

/-- State of the world after `n` invocations of `fn` starting from `s`. -/
def stateAfter {σ ε α : Type} (fn : σ → Except ε α × σ) (s : σ) : Nat → σ
  | 0 => s
  | n + 1 => (fn (stateAfter fn s n)).2

/-- Outcome of the `n`-th invocation of `fn` (counted from 0) starting from `s`. -/
def outcomeAt {σ ε α : Type} (fn : σ → Except ε α × σ) (s : σ) (n : Nat) : Except ε α :=
  (fn (stateAfter fn s n)).1

/-- A callback driven by a script: the state is the list of outcomes still to come;
an exhausted script fails with `dflt`. -/
def scripted {ε α : Type} (dflt : ε) : List (Except ε α) → Except ε α × List (Except ε α)
  | [] => (.error dflt, [])
  | r :: rest => (r, rest)

/-- The trace left by `m` consecutive failed attempts that are each followed by a sleep,
the first of them made with loop counter `i`. -/
def failTrace : Nat → Int → List Event
  | 0, _ => []
  | m + 1, i => Event.invoke :: Event.sleep (1000 * (i + 1)) :: failTrace m (i + 1)

/-! ## `getRecentBooks` (backend/services/openLibraryService.js, lines 61-106) -/

/-- An upstream HTTP GET: path and query parameters. -/
structure Request where
  path : String
  params : List (String × JsVal)
deriving DecidableEq

/-- The request `this.api.get('/search.json', { params: ... })` of `getRecentBooks`. -/
def recentRequest (limit : JsVal) : Request :=
  { path := "/search.json",
    params := [("q", .str "first_publish_year:[2020 TO 2025]"), ("sort", .str "new"),
      ("limit", limit),
      ("fields", .str "key,title,author_name,cover_i,first_publish_year,subject")] }

/-- `Array.prototype.filter` with a callback that may throw: the callback is run on the
elements in order and the first throw aborts the call. -/
def filterE {α ε : Type} (p : α → Except ε Bool) : List α → Except ε (List α)
  | [] => .ok []
  | x :: xs =>
    match p x with
    | .error e => .error e
    | .ok keep =>
      match filterE p xs with
      | .error e => .error e
      | .ok rest => .ok (if keep then x :: rest else rest)

/-- `Array.prototype.map` with a callback that may throw. -/
def mapE {α β ε : Type} (f : α → Except ε β) : List α → Except ε (List β)
  | [] => .ok []
  | x :: xs =>
    match f x with
    | .error e => .error e
    | .ok y =>
      match mapE f xs with
      | .error e => .error e
      | .ok rest => .ok (y :: rest)

/-- `chars.split(sep)` for a one-character separator, on the list of characters. -/
def splitOnChar (sep : Char) : List Char → List (List Char)
  | [] => [[]]
  | c :: cs =>
    if c = sep then [] :: splitOnChar sep cs
    else
      match splitOnChar sep cs with
      | [] => [[c]]
      | seg :: rest => (c :: seg) :: rest

/-- `s.split('/').pop()` for a string `s`. -/
def splitPop (s : String) : JsVal :=
  match (splitOnChar '/' s.data).getLast? with
  | some seg => .str (String.mk seg)
  | none => .undefined

/-- `key.split('/').pop()` for an arbitrary value `key`: only a string has a `split`
method. -/
def keySplitPop : JsVal → Except Thrown JsVal
  | .str s => .ok (splitPop s)
  | .undefined => .error (propTypeError "split")
  | .null => .error (propTypeError "split")
  | _ => .error { name := "TypeError", message := "book.key.split is not a function" }

/-- The filter callback `book => book.title && (book.cover_i || book.author_name)`,
as the boolean `filter` makes of its result. -/
def recentKeep (book : JsVal) : Except Thrown Bool :=
  match getProp book "title" with
  | .error e => .error e
  | .ok title =>
    if truthy title then
      match getProp book "cover_i" with
      | .error e => .error e
      | .ok cover =>
        if truthy cover then .ok true
        else
          match getProp book "author_name" with
          | .error e => .error e
          | .ok names => .ok (truthy names)
    else .ok false

/-- The book object built by the `map` callback of `getRecentBooks`. -/
structure Book where
  id : JsVal
  title : JsVal
  authors : JsVal
  cover_id : JsVal
  year : JsVal
  subjects : JsVal
deriving DecidableEq

/-- The `map` callback of `getRecentBooks` (lines 84-91). -/
def toBook (book : JsVal) : Except Thrown Book := do
  let key ← getProp book "key"
  let id ← keySplitPop key
  let title ← getProp book "title"
  let names ← getProp book "author_name"
  let cover ← getProp book "cover_i"
  let year ← getProp book "first_publish_year"
  let subject ← getProp book "subject"
  pure { id := id, title := title,
         authors := jsOr names (.arr [.str "Unknown Author"]),
         cover_id := cover, year := year,
         subjects := jsOr subject (.arr []) }

/-- The object `{ docs, numFound, total }` returned by `getRecentBooks`. -/
structure RecentResult where
  docs : List Book
  numFound : Nat
  total : JsVal
deriving DecidableEq

/-- The error thrown on a response without a `docs` array. -/
def invalidFormatError : Thrown :=
  { name := "Error", message := "Invalid response format from Open Library API" }

/-- Lines 74-97: what the callback of `getRecentBooks` does with `response.data`. -/
def transformRecent (data : JsVal) : Except Thrown RecentResult :=
  if truthy data then
    match getProp data "docs" with
    | .ok (.arr docs) => do
      let kept ← filterE recentKeep docs
      let books ← mapE toBook kept
      let total ← getProp data "numFound"
      pure { docs := books, numFound := books.length, total := total }
    | _ => .error invalidFormatError
  else .error invalidFormatError

/-- The callback passed to `retryRequest` by `getRecentBooks`: one upstream request, then
`transformRecent`; the `catch` block logs and rethrows. -/
def recentAttempt {σ : Type} (upstream : Request → σ → Except Thrown JsVal × σ) (limit : JsVal)
    (s : σ) : Except Thrown RecentResult × σ :=
  match upstream (recentRequest limit) s with
  | (.ok data, s') => (transformRecent data, s')
  | (.error e, s') => (.error e, s')

/-- `getRecentBooks(limit)`. -/
def getRecentBooks {σ : Type} (upstream : Request → σ → Except Thrown JsVal × σ) (limit : JsVal)
    (s : σ) : RetryRun σ Thrown RecentResult :=
  retryRequest (recentAttempt upstream limit) 3 s

/-- Total property read used in statements: the field of an object, `undefined` for every
other value. -/
def fieldOf (v : JsVal) (k : String) : JsVal :=
  match v with
  | .obj fields => lookupField k fields
  | _ => .undefined

/-- An upstream that always answers with the same body. -/
def constUpstream (data : JsVal) (_ : Request) (n : Nat) : Except Thrown JsVal × Nat :=
  (.ok data, n + 1)

/-- The condition under which the filter of `getRecentBooks` keeps a record, as a total
predicate on records (used in statements). -/
def keptByRecent (b : JsVal) : Bool :=
  truthy (fieldOf b "title") && (truthy (fieldOf b "cover_i") || truthy (fieldOf b "author_name"))

/-- An upstream record with a title and an `author_name` list that holds no name, and no
cover id. -/
def titledNoAuthorNames : JsVal :=
  .obj [("key", .str "/works/OL1W"), ("title", .str "X"), ("author_name", .arr [])]

/-- An upstream record with a key and a cover id but no title. -/
def untitledRecord : JsVal :=
  .obj [("key", .str "/works/OL2W"), ("cover_i", .num 12), ("author_name", .arr [.str "A"])]

/-- An upstream record with a title and an author. -/
def completeRecord : JsVal :=
  .obj [("key", .str "/works/OL5W"), ("title", .str "Dune"),
    ("author_name", .arr [.str "Frank Herbert"]), ("first_publish_year", .num 2021)]

/-! ## The listing mapping of `HomeScreen` (frontend/screens/HomeScreen.js, lines 156-170
and 196-210) -/

/-- The constant `categories` (line 23). -/
def categories : List String := ["All", "Novel", "Science", "Romance", "Horror", "Comedy"]

/-- `s.toLowerCase()`. The letters A-Z are mapped to a-z and every other character is left
as it is; the labels of `categories` are made of such letters only. -/
def toLowerCase (s : String) : String := String.mk (s.data.map Char.toLower)

/-- Whether `needle` occurs in `hay` as a contiguous block. -/
def isInfixChars (needle : List Char) : List Char → Bool
  | [] => needle.isPrefixOf []
  | c :: cs => needle.isPrefixOf (c :: cs) || isInfixChars needle cs

/-- `s.includes(t)`. -/
def includes (s t : String) : Bool := isInfixChars t.data s.data

/-- The test `categories.slice(1).some(cat => subject.toLowerCase().includes(cat.toLowerCase()))`
for a string `subject`. -/
def subjectMatches (subject : String) : Bool :=
  (categories.drop 1).any (fun cat => includes (toLowerCase subject) (toLowerCase cat))

/-- The callback given to `find`: only a string has a `toLowerCase` method. -/
def subjectCallback : JsVal → Except Thrown Bool
  | .str subject => .ok (subjectMatches subject)
  | .undefined => .error (propTypeError "toLowerCase")
  | .null => .error (propTypeError "toLowerCase")
  | _ => .error { name := "TypeError", message := "subject.toLowerCase is not a function" }

/-- `Array.prototype.find` with a callback that may throw. -/
def findE {α ε : Type} (p : α → Except ε Bool) : List α → Except ε (Option α)
  | [] => .ok none
  | x :: xs =>
    match p x with
    | .error e => .error e
    | .ok true => .ok (some x)
    | .ok false => findE p xs

/-- The expression of the `category` field (lines 163-169 and 203-209), given the value of
`book.subject_key`. Only an array has a `find` method. -/
def categoryOfSubjects (subjectKey : JsVal) : Except Thrown JsVal :=
  if truthy subjectKey then
    match subjectKey with
    | .arr subjects =>
      match findE subjectCallback subjects with
      | .error e => .error e
      | .ok found => .ok (jsOr (found.getD .undefined) (.str "Novel"))
    | _ => .error { name := "TypeError", message := "book.subject_key.find is not a function" }
  else .ok (.str "Novel")

/-- The object built for a record by the `map` callbacks of `handleSearch` and
`fetchBooks`. -/
structure ListedBook where
  id : JsVal
  title : JsVal
  authors : JsVal
  first_publish_year : JsVal
  publish_year : JsVal
  cover_id : JsVal
  category : JsVal
deriving DecidableEq

/-- The `map` callback of `handleSearch` and `fetchBooks`; `rnd` is the string that
`Math.random().toString()` would give. -/
def toListedBook (rnd : String) (book : JsVal) : Except Thrown ListedBook := do
  let key ← getProp book "key"
  let title ← getProp book "title"
  let names ← getProp book "author_name"
  let year ← getProp book "first_publish_year"
  let publishYear ← getProp book "publish_year"
  let cover ← getProp book "cover_i"
  let subjectKey ← getProp book "subject_key"
  let category ← categoryOfSubjects subjectKey
  pure { id := jsOr key (.str rnd), title := title,
         authors := jsOr names (.arr [.str "Unknown Author"]),
         first_publish_year := year, publish_year := publishYear, cover_id := cover,
         category := category }

/-! ## The merge of `getBookDetails` (frontend/services/bookService.js, lines 84-92) -/

/-- Assignment of a property in a field list: an existing key keeps its place and gets the
new value, a new key is appended. -/
def setField (k : String) (v : JsVal) : List (String × JsVal) → List (String × JsVal)
  | [] => [(k, v)]
  | (k', v') :: rest => if k' = k then (k', v) :: rest else (k', v') :: setField k v rest

/-- The own enumerable properties that an object spread `...v` copies: the fields of an
object, the elements of an array under their indices, the characters of a string under
their indices, nothing for any other value. -/
def ownEntries : JsVal → List (String × JsVal)
  | .obj fields => fields
  | .arr xs => xs.enum.map (fun p => (toString p.1, p.2))
  | .str s => s.data.enum.map (fun p => (toString p.1, JsVal.str (String.singleton p.2)))
  | _ => []

/-- The effect of `...source` in an object literal whose fields so far are `target`. -/
def spreadInto (target : List (String × JsVal)) (source : JsVal) : List (String × JsVal) :=
  (ownEntries source).foldl (fun acc p => setField p.1 p.2 acc) target

/-- The expression `work.wk || edition.ek`: the second property is read only when the first
is falsy. -/
def orProps (work edition : JsVal) (wk ek : String) : Except Thrown JsVal :=
  match getProp work wk with
  | .error e => .error e
  | .ok w => if truthy w then .ok w else getProp edition ek

/-- The object literal returned by `getBookDetails` (lines 85-92), for the work record
`workResponse.data` and the edition record `editionDetails`. -/
def mergeDetails (work edition : JsVal) : Except Thrown JsVal := do
  let base := spreadInto (spreadInto [] work) edition
  let description ← orProps work edition "description" "description"
  let authors ← orProps work edition "authors" "authors"
  let subjects ← orProps work edition "subjects" "subjects"
  let firstPublishDate ← orProps work edition "first_publish_date" "publish_date"
  pure (.obj
    (setField "first_publish_date" firstPublishDate
      (setField "subjects" (jsOr subjects (.arr []))
        (setField "authors" (jsOr authors (.arr []))
          (setField "description" (jsOr description (.str "No description available."))
            base)))))

/-! ## `searchBooks` and the route `/search` (backend/services/openLibraryService.js,
lines 34-54; backend/routes/bookRoutes.js, lines 6-29) -/

/-- A parameter default `x = d`: the default is taken when the value is `undefined`. -/
def defaultTo (v d : JsVal) : JsVal :=
  match v with
  | .undefined => d
  | _ => v

/-- The request `this.api.get('/search.json', { params: ... })` of `searchBooks`. -/
def searchRequest (query page limit : JsVal) : Request :=
  { path := "/search.json",
    params := [("q", query), ("page", page), ("limit", limit),
      ("fields", .str "key,title,author_name,cover_i,first_publish_year,subject")] }

/-- `searchBooks(query, page = 1, limit = 10)`: one upstream request whose body is returned;
the `catch` block logs and rethrows. -/
def searchBooks {σ : Type} (upstream : Request → σ → Except Thrown JsVal × σ)
    (query page limit : JsVal) (s : σ) : Except Thrown JsVal × σ :=
  upstream (searchRequest query (defaultTo page (.num 1)) (defaultTo limit (.num 10))) s

/-- What a route handler sends: the status (200 unless `res.status` is called) and the
fields of the JSON body. -/
structure HttpResponse where
  status : Nat
  success : Bool
  error : Option String := none
  message : Option String := none
  data : Option JsVal := none
deriving DecidableEq

/-- A run of the `/search` handler: the response sent, the state of the world afterwards
and the calls made to `openLibraryService.searchBooks` (their arguments), oldest first. -/
structure SearchRun (σ : Type) where
  response : HttpResponse
  state : σ
  searchCalls : List (JsVal × JsVal × JsVal)

/-- The handler of `GET /search` for the parsed query string `req.query` (an object, given
by its fields). `parseInt` is the JavaScript built-in. -/
def searchRoute {σ : Type} (parseInt : JsVal → JsVal)
    (upstream : Request → σ → Except Thrown JsVal × σ)
    (reqQuery : List (String × JsVal)) (s : σ) : SearchRun σ :=
  let query := lookupField "query" reqQuery
  let page := defaultTo (lookupField "page" reqQuery) (.num 1)
  let limit := defaultTo (lookupField "limit" reqQuery) (.num 20)
  if truthy query then
    match searchBooks upstream query (parseInt page) (parseInt limit) s with
    | (.ok results, s') =>
      { response := { status := 200, success := true, data := some results },
        state := s', searchCalls := [(query, parseInt page, parseInt limit)] }
    | (.error e, s') =>
      { response := { status := 500, success := false, error := some "Failed to search books",
                      message := some e.message },
        state := s', searchCalls := [(query, parseInt page, parseInt limit)] }
  else
    { response := { status := 400, success := false,
                    error := some "Query parameter is required" },
      state := s, searchCalls := [] }

/-! ## `getBookDetails` and the route `/details/:olid` (backend/services/openLibraryService.js,
lines 113-126; backend/routes/bookRoutes.js, lines 55-71) -/

/-- The request `this.api.get('/works/' + olid + '.json')` of `getBookDetails`. -/
def detailsRequest (olid : String) : Request :=
  { path := "/works/" ++ olid ++ ".json", params := [] }

/-- `getBookDetails(olid)` of the backend service: one upstream request whose body is
returned; the `catch` block logs and rethrows. -/
def getBookDetails {σ : Type} (upstream : Request → σ → Except Thrown JsVal × σ)
    (olid : String) (s : σ) : Except Thrown JsVal × σ :=
  upstream (detailsRequest olid) s

/-- The handler of `GET /details/:olid`: the response sent and the state of the world
afterwards. -/
def detailsRoute {σ : Type} (upstream : Request → σ → Except Thrown JsVal × σ)
    (olid : String) (s : σ) : HttpResponse × σ :=
  match getBookDetails upstream olid s with
  | (.ok book, s') => ({ status := 200, success := true, data := some book }, s')
  | (.error e, s') =>
    ({ status := 500, success := false, error := some "Failed to fetch book details",
       message := some e.message }, s')

/-- An upstream that fails every request with the same error. -/
def failingUpstream (e : Thrown) (_ : Request) (n : Nat) : Except Thrown JsVal × Nat :=
  (.error e, n + 1)

/-- The error of a request answered with HTTP status `code`. -/
def httpError (code : Nat) : Thrown :=
  { name := "AxiosError", message := "Request failed with status code " ++ toString code,
    status := some code }

/-- The error of a request that got no answer within the timeout of the backend client. -/
def timeoutError : Thrown :=
  { name := "AxiosError", message := "timeout of 15000ms exceeded" }

/-- An upstream that records every request it receives, oldest first, next to the state of
the upstream it wraps. -/
def logged {σ : Type} (upstream : Request → σ → Except Thrown JsVal × σ) (req : Request)
    (s : σ × List Request) : Except Thrown JsVal × (σ × List Request) :=
  ((upstream req s.1).1, ((upstream req s.1).2, s.2 ++ [req]))

/-! ## `bookService` of the frontend and the lists of `HomeScreen`
(frontend/services/bookService.js, lines 16-59; frontend/screens/HomeScreen.js,
lines 145-228) -/

/-- The error thrown by `bookService` on a body without `docs`. -/
def invalidResponseError : Thrown :=
  { name := "Error", message := "Invalid response from Open Library API" }

/-- The test `if (!response.data || !response.data.docs) throw ...; return response.data`
of `bookService.getRecentBooks` and `bookService.searchBooks`. -/
def bookService.checkDocs (data : JsVal) : Except Thrown JsVal :=
  if truthy data then
    match getProp data "docs" with
    | .error e => .error e
    | .ok docs => if truthy docs then .ok data else .error invalidResponseError
  else .error invalidResponseError

/-- The request of `bookService.getRecentBooks(limit)` in the calendar year `currentYear`. -/
def bookService.recentRequest (currentYear : Int) (limit : JsVal) : Request :=
  { path := "/search.json",
    params := [("q", .str ("publish_year:[" ++ toString (currentYear - 1) ++ " TO " ++
        toString (currentYear + 1) ++ "]")),
      ("fields", .str "key,title,author_name,first_publish_year,publish_year,cover_i,subject_key"),
      ("limit", limit), ("sort", .str "new")] }

/-- `bookService.getRecentBooks(limit = 100)`. -/
def bookService.getRecentBooks {σ : Type} (upstream : Request → σ → Except Thrown JsVal × σ)
    (currentYear : Int) (limit : JsVal) (s : σ) : Except Thrown JsVal × σ :=
  match upstream (bookService.recentRequest currentYear (defaultTo limit (.num 100))) s with
  | (.ok data, s') => (bookService.checkDocs data, s')
  | (.error e, s') => (.error e, s')

/-- The request of `bookService.searchBooks(query, limit)`. -/
def bookService.searchRequest (query limit : JsVal) : Request :=
  { path := "/search.json",
    params := [("q", query),
      ("fields", .str "key,title,author_name,first_publish_year,publish_year,cover_i,subject_key"),
      ("limit", limit)] }

/-- `bookService.searchBooks(query, limit = 20)`. -/
def bookService.searchBooks {σ : Type} (upstream : Request → σ → Except Thrown JsVal × σ)
    (query limit : JsVal) (s : σ) : Except Thrown JsVal × σ :=
  match upstream (bookService.searchRequest query (defaultTo limit (.num 20))) s with
  | (.ok data, s') => (bookService.checkDocs data, s')
  | (.error e, s') => (.error e, s')

/-- `docs.map(book => ({ ... }))` with the callback of `handleSearch` and `fetchBooks`;
`rnd i` is the string that `Math.random().toString()` would give for the record of index
`i`. -/
def mapListed (rnd : Nat → String) : Nat → List JsVal → Except Thrown (List ListedBook)
  | _, [] => .ok []
  | i, b :: bs =>
    match toListedBook (rnd i) b with
    | .error e => .error e
    | .ok x =>
      match mapListed rnd (i + 1) bs with
      | .error e => .error e
      | .ok xs => .ok (x :: xs)

/-- The statements `if (!response.docs) throw noDocs; response.docs.map(...)` of
`handleSearch` and `fetchBooks`. Only an array has a `map` method. -/
def listedDocs (rnd : Nat → String) (noDocs : Thrown) (response : JsVal) :
    Except Thrown (List ListedBook) :=
  match getProp response "docs" with
  | .error e => .error e
  | .ok docs =>
    if truthy docs then
      match docs with
      | .arr records => mapListed rnd 0 records
      | _ => .error { name := "TypeError", message := "response.docs.map is not a function" }
    else .error noDocs

/-- The conversion `ToNumber` on the values whose result is fixed by their kind; `other`
is the conversion on strings, arrays and objects; `none` is `NaN`. -/
def toNumber (other : JsVal → Option Int) : JsVal → Option Int
  | .undefined => none
  | .null => some 0
  | .bool b => some (if b then 1 else 0)
  | .num n => some n
  | v => other v

/-- The comparison `v >= n` for a number `n`. -/
def geNumber (other : JsVal → Option Int) (v : JsVal) (n : Int) : Bool :=
  match toNumber other v with
  | some m => decide (n ≤ m)
  | none => false

/-- The list `recentArrivals` of `fetchBooks` (lines 213-215):
`booksWithCategories.filter(book => book.first_publish_year >= 2024).slice(0, 10)`. -/
def newArrivals (other : JsVal → Option Int) (books : List ListedBook) : List ListedBook :=
  (books.filter (fun book => geNumber other book.first_publish_year 2024)).take 10

/-- The new arrivals as the specification words them for the calendar year `y`: the first
10 of the books whose first publish year is a number not below `y`. -/
def newArrivalsOfYear (y : Int) (books : List ListedBook) : List ListedBook :=
  (books.filter (fun book =>
    match book.first_publish_year with
    | .num n => decide (y ≤ n)
    | _ => false)).take 10

/-- The state of `HomeScreen` that the fetches set: the books, the new arrivals and the
error text (`none` is `null`). -/
structure HomeState where
  books : List ListedBook
  newArrivals : List ListedBook
  error : Option String
deriving DecidableEq

/-- The state set by `fetchBooks`, given the outcome of `bookService.getRecentBooks(100)`. -/
def fetchBooks (other : JsVal → Option Int) (rnd : Nat → String)
    (outcome : Except Thrown JsVal) : HomeState :=
  match outcome with
  | .error e =>
    { books := [], newArrivals := [],
      error := some (if e.message = "" then "Failed to load books" else e.message) }
  | .ok response =>
    match listedDocs rnd { name := "Error", message := "Invalid response from API" } response with
    | .error e =>
      { books := [], newArrivals := [],
        error := some (if e.message = "" then "Failed to load books" else e.message) }
    | .ok booksWithCategories =>
      { books := booksWithCategories, newArrivals := newArrivals other booksWithCategories,
        error := none }

/-- The state set by the delayed callback of `handleSearch`, given the state before and the
outcome of `bookService.searchBooks(query)`; a failure leaves the new arrivals as they
were. -/
def handleSearch (rnd : Nat → String) (before : HomeState) (outcome : Except Thrown JsVal) :
    HomeState :=
  match outcome with
  | .error _ => { books := [], newArrivals := before.newArrivals, error := some "No results found" }
  | .ok response =>
    match listedDocs rnd { name := "Error", message := "No results found" } response with
    | .error _ =>
      { books := [], newArrivals := before.newArrivals, error := some "No results found" }
    | .ok searchResults => { books := searchResults, newArrivals := [], error := none }

/-- A listed book with the given first publish year. -/
def listedWithYear (key : String) (year : JsVal) : ListedBook :=
  { id := .str key, title := .str "T", authors := .arr [.str "Unknown Author"],
    first_publish_year := year, publish_year := .undefined, cover_id := .undefined,
    category := .str "Novel" }

/-- The `subject_key` of a record is absent (or otherwise falsy) or is a list of strings:
the records on which the `category` expression of `HomeScreen` does not throw. -/
def plainSubjects (b : JsVal) : Prop :=
  truthy (fieldOf b "subject_key") = false ∨
    ∃ subjects : List String, fieldOf b "subject_key" = .arr (subjects.map JsVal.str)

/-- The body of an upstream answer has no `docs` array: it is missing (falsy) or its `docs`
field is not an array. -/
def malformedBody (data : JsVal) : Prop :=
  truthy data = false ∨ ∀ docs : List JsVal, fieldOf data "docs" ≠ .arr docs

/-- An upstream record with a cover id and neither title nor key. -/
def untitledKeylessRecord : JsVal :=
  .obj [("cover_i", .num 3), ("author_name", .arr [.str "B"])]

/-- An upstream record with a title and a cover id but no key. -/
def keylessRecord : JsVal :=
  .obj [("title", .str "X"), ("cover_i", .num 12)]

/-- An upstream record with a key and a title and nothing else. -/
def titleOnlyRecord : JsVal :=
  .obj [("key", .str "/works/OL8W"), ("title", .str "X")]

/-! ## `bookService.getBookDetails` and the description of `BookDetailsScreen`
(frontend/services/bookService.js, lines 62-97; frontend/screens/BookDetailsScreen.js,
lines 114-124) -/

/-- The request for the work `bookId`. -/
def bookService.workRequest (bookId : String) : Request :=
  { path := "/works/" ++ bookId ++ ".json", params := [] }

/-- The request for the editions of the work `bookId`. -/
def bookService.editionsRequest (bookId : String) : Request :=
  { path := "/works/" ++ bookId ++ "/editions.json?limit=1&sort=publish_date", params := [] }

/-- The property read `v.length` on a value that is neither `undefined` nor `null`. The
length of a string is counted in characters; the program only asks whether it is positive. -/
def jsLength : JsVal → JsVal
  | .arr xs => .num xs.length
  | .str s => .num s.length
  | .obj fields => lookupField "length" fields
  | _ => .undefined

/-- The element read `v[0]` on a value that is neither `undefined` nor `null`. -/
def jsFirst : JsVal → JsVal
  | .arr xs => xs.headD .undefined
  | .str s =>
    match s.data with
    | [] => .undefined
    | c :: _ => .str (String.singleton c)
  | .obj fields => lookupField "0" fields
  | _ => .undefined

/-- The comparison `v > 0`. -/
def gtZero (other : JsVal → Option Int) (v : JsVal) : Bool :=
  match toNumber other v with
  | some m => decide (0 < m)
  | none => false

/-- The value of `editionDetails` after a successful editions request with body `data`
(lines 76-78): the first entry when `data && data.entries && data.entries.length > 0`, the
empty object otherwise. -/
def bookService.editionOf (other : JsVal → Option Int) (data : JsVal) : JsVal :=
  if truthy data && truthy (fieldOf data "entries") &&
      gtZero other (jsLength (fieldOf data "entries")) then
    jsFirst (fieldOf data "entries")
  else .obj []

/-- `bookService.getBookDetails(bookId)`: the work request, the editions request when the
work has a truthy `first_publish_date` (a failure of that request is caught and only logged),
then the merge; the outer `catch` block logs and rethrows. -/
def bookService.getBookDetails {σ : Type} (other : JsVal → Option Int)
    (upstream : Request → σ → Except Thrown JsVal × σ) (bookId : String) (s : σ) :
    Except Thrown JsVal × σ :=
  match upstream (bookService.workRequest bookId) s with
  | (.error e, s1) => (.error e, s1)
  | (.ok work, s1) =>
    if truthy work then
      if truthy (fieldOf work "first_publish_date") then
        match upstream (bookService.editionsRequest bookId) s1 with
        | (.ok data, s2) => (mergeDetails work (bookService.editionOf other data), s2)
        | (.error _, s2) => (mergeDetails work (.obj []), s2)
      else (mergeDetails work (.obj []), s1)
    else (.error invalidResponseError, s1)

/-- Whether `typeof v === 'object'`. -/
def typeofObject : JsVal → Bool
  | .null => true
  | .arr _ => true
  | .obj _ => true
  | _ => false

/-- The text of the description block of `BookDetailsScreen` (lines 114-124) for the state
`details`; `none` when the block is not rendered. -/
def renderedDescription (details : JsVal) : Option JsVal :=
  let description :=
    match details with
    | .undefined => JsVal.undefined
    | .null => JsVal.undefined
    | _ => fieldOf details "description"
  if truthy description then
    some (if typeofObject description then fieldOf description "value"
      else
        match description with
        | .str t => .str t
        | _ => .str "No description available.")
  else none

/-- The value of `work.wk || edition.ek` when neither read throws. -/
def orFields (work edition : JsVal) (wk ek : String) : JsVal :=
  if truthy (fieldOf work wk) then fieldOf work wk else fieldOf edition ek

/-- The fields of the object returned by the merge when neither read throws. -/
def mergedFields (work edition : JsVal) : List (String × JsVal) :=
  setField "first_publish_date" (orFields work edition "first_publish_date" "publish_date")
    (setField "subjects" (jsOr (orFields work edition "subjects" "subjects") (.arr []))
      (setField "authors" (jsOr (orFields work edition "authors" "authors") (.arr []))
        (setField "description"
          (jsOr (orFields work edition "description" "description")
            (.str "No description available."))
          (spreadInto (spreadInto [] work) edition))))

/-- An upstream that answers the first request with `work` and fails every later one. -/
def workThenFailing (work : JsVal) (e : Thrown) (_ : Request) (n : Nat) :
    Except Thrown JsVal × Nat :=
  if n = 0 then (.ok work, n + 1) else (.error e, n + 1)

/-- A work whose description is a text wrapper, without `first_publish_date`. -/
def wrappedDescriptionWork : JsVal :=
  .obj [("title", .str "T"),
    ("description", .obj [("type", .str "/type/text"), ("value", .str "A tale")])]

/-- A work with a `first_publish_date` and nothing else but its title. -/
def datedWork : JsVal :=
  .obj [("title", .str "T"), ("first_publish_date", .str "1965")]

/-- An upstream that answers the first request with `work` and every later one with
`editions`. -/
def workThenEditions (work editions : JsVal) (_ : Request) (n : Nat) :
    Except Thrown JsVal × Nat :=
  if n = 0 then (.ok work, n + 1) else (.ok editions, n + 1)

/-- A work with a `first_publish_date` whose description is the empty string. -/
def emptyDescriptionWork : JsVal :=
  .obj [("title", .str "T"), ("description", .str ""), ("first_publish_date", .str "1965")]

/-- A work with a `first_publish_date` and a description. -/
def describedWork : JsVal :=
  .obj [("title", .str "T"), ("description", .str "W"), ("first_publish_date", .str "1965")]

/-- An editions answer with one entry, which holds a description and a `publish_date`. -/
def describedEditions : JsVal :=
  .obj [("entries", .arr [.obj [("description", .str "E"), ("publish_date", .str "1999")]])]

/-- An editions answer whose only entry is `null`. -/
def nullEntryEditions : JsVal :=
  .obj [("entries", .arr [.null])]

/-! ## `getCoverImageUrl` (backend/services/openLibraryService.js, lines 134-137;
frontend/services/bookService.js, lines 100-117) -/

/-- Whether an object with the fields `fields` has an own property `k`. -/
def hasField (k : String) (fields : List (String × JsVal)) : Bool :=
  fields.any (fun p => p.1 == k)

/-- The `TypeError` of a conversion to text of an object that has no callable `toString`
and no `valueOf` giving a primitive. -/
def primitiveTypeError : Thrown :=
  { name := "TypeError", message := "Cannot convert object to primitive value" }

/-- The text of a number: decimal digits for an integer of magnitude up to `2^53`, all of
which a JavaScript number holds exactly; `largeText n` is the text that JavaScript writes for
a larger one (in exponent form from `10^21` on). -/
def numberToString (largeText : Int → String) (n : Int) : String :=
  if n.natAbs ≤ 2 ^ 53 then toString n else largeText n

mutual
/-- The conversion `ToString` of template literals, property keys and `RegExp.test`. A plain
object is written `[object Object]` by the `toString` it inherits; an object with an own
property `toString` (which, coming from JSON, is no function) cannot be converted and the
conversion throws; an array is written as the join of its elements. -/
def jsToString (largeText : Int → String) : JsVal → Except Thrown String
  | .undefined => .ok "undefined"
  | .null => .ok "null"
  | .bool true => .ok "true"
  | .bool false => .ok "false"
  | .num n => .ok (numberToString largeText n)
  | .str s => .ok s
  | .arr xs => jsJoin largeText xs
  | .obj fields =>
    if hasField "toString" fields then .error primitiveTypeError else .ok "[object Object]"
/-- `xs.join(',')`: `undefined` and `null` elements give the empty text, the conversion of
any other element may throw. -/
def jsJoin (largeText : Int → String) : List JsVal → Except Thrown String
  | [] => .ok ""
  | .undefined :: rest =>
    match jsJoin largeText rest with
    | .error e => .error e
    | .ok tail => .ok ((if rest.isEmpty then "" else ",") ++ tail)
  | .null :: rest =>
    match jsJoin largeText rest with
    | .error e => .error e
    | .ok tail => .ok ((if rest.isEmpty then "" else ",") ++ tail)
  | x :: rest =>
    match jsToString largeText x with
    | .error e => .error e
    | .ok head =>
      match jsJoin largeText rest with
      | .error e => .error e
      | .ok tail => .ok (head ++ (if rest.isEmpty then "" else ",") ++ tail)
end

/-- `getCoverImageUrl(coverId, size = 'M')` of the backend service: the template literal
converts the cover id, then the size, to text, and either conversion may throw. -/
def getCoverImageUrl (largeText : Int → String) (coverId size : JsVal) : Except Thrown JsVal :=
  if truthy coverId then
    match jsToString largeText coverId with
    | .error e => .error e
    | .ok idText =>
      match jsToString largeText (defaultTo size (.str "M")) with
      | .error e => .error e
      | .ok sizeText =>
        .ok (.str ("https://covers.openlibrary.org/b/id/" ++ idText ++ "-" ++ sizeText ++ ".jpg"))
  else .ok .null

/-- The value of `sizes[size] || 'M'` as a text, for the table `sizes` with the own keys S,
M and L; the conversion of `size` to a property key may throw. `protoText key` is the text,
in a template literal, of the property that `Object.prototype` has under `key`, and `none`
when it has no such property. -/
def bookService.imageSize (largeText : Int → String) (protoText : String → Option String)
    (size : JsVal) : Except Thrown String :=
  match jsToString largeText size with
  | .error e => .error e
  | .ok key =>
    if key = "S" ∨ key = "M" ∨ key = "L" then .ok key
    else
      match protoText key with
      | some text => .ok text
      | none => .ok "M"

/-- `getCoverImageUrl(coverId, size = 'M')` of the frontend service; `now` is the value of
`Date.now()`. The size is looked up in the table first, then the cover id is converted to
text; either step may throw. -/
def bookService.getCoverImageUrl (largeText : Int → String) (protoText : String → Option String)
    (now : Int) (coverId size : JsVal) : Except Thrown JsVal :=
  if truthy coverId then
    match bookService.imageSize largeText protoText (defaultTo size (.str "M")) with
    | .error e => .error e
    | .ok imageSize =>
      match jsToString largeText coverId with
      | .error e => .error e
      | .ok idText =>
        .ok (.str ("https://covers.openlibrary.org/b/id/" ++ idText ++ "-" ++ imageSize ++
          ".jpg" ++ "?t=" ++ numberToString largeText now))
  else .ok .null

/-! ## `filteredBooksByCategory` (frontend/screens/HomeScreen.js, lines 120-126) -/

/-- The list shown for the selected category: all books for `All`, else the books whose
category includes the selected label, case-insensitively. Only a string has a
`toLowerCase` method. -/
def filteredBooksByCategory (selectedCategory : String) (books : List ListedBook) :
    Except Thrown (List ListedBook) :=
  if selectedCategory = "All" then .ok books
  else
    filterE (fun book =>
      match book.category with
      | .str category => .ok (includes (toLowerCase category) (toLowerCase selectedCategory))
      | .undefined => .error (propTypeError "toLowerCase")
      | .null => .error (propTypeError "toLowerCase")
      | _ => .error { name := "TypeError",
                      message := "book.category.toLowerCase is not a function" }) books

/-! ## The route `/register` (backend/routes/authRoutes.js, lines 9-61) -/

/-- The class of characters that `\s` stands for in a JavaScript regular expression. -/
def jsWhitespace (c : Char) : Bool :=
  [9, 10, 11, 12, 13, 32, 160, 5760, 8232, 8233, 8239, 8287, 12288, 65279].contains c.toNat ||
    (decide (8192 ≤ c.toNat) && decide (c.toNat ≤ 8202))

/-- A match of `[^\s@]+` against the whole of `cs`. -/
def emailPart (cs : List Char) : Bool :=
  !cs.isEmpty && cs.all (fun c => !jsWhitespace c && c != '@')

/-- All the ways of cutting a list in two. -/
def splits : List Char → List (List Char × List Char)
  | [] => [([], [])]
  | c :: cs => ([], c :: cs) :: (splits cs).map (fun p => (c :: p.1, p.2))

/-- `emailRegex.test(cs)` for the pattern `^[^\s@]+@[^\s@]+\.[^\s@]+$`: some cut of the text
has a first part that matches `[^\s@]+`, then `@`, and some cut of what follows has a first
part that matches `[^\s@]+`, then a dot, then a match of `[^\s@]+` up to the end. -/
def emailRegexTest (cs : List Char) : Bool :=
  (splits cs).any (fun p =>
    emailPart p.1 &&
      match p.2 with
      | [] => false
      | c :: rest =>
        c == '@' &&
          (splits rest).any (fun q =>
            emailPart q.1 &&
              match q.2 with
              | [] => false
              | d :: tld => d == '.' && emailPart tld))

/-- What the handlers of the auth routes send: the status and the fields `msg` and `error`
of the JSON body. -/
structure AuthResponse where
  status : Nat
  msg : String
  error : Option String := none
deriving DecidableEq

/-- A run of the `/register` handler: the response sent, the state of the world afterwards,
the user lookups made (field and value, oldest first) and the user records saved. -/
structure RegisterRun (σ : Type) where
  response : AuthResponse
  state : σ
  lookups : List (String × JsVal)
  saved : List JsVal

/-- The answer of the `catch` block of the `/register` handler; `development` tells whether
`process.env.NODE_ENV` is `development`. -/
def registrationError (development : Bool) (e : Thrown) : AuthResponse :=
  { status := 500, msg := "Server error during registration",
    error := if development then some e.message else none }

/-- The handler of `POST /register` for the request body `body`. The user store and the
password hashing are collaborators: `findOne field value` is `User.findOne` on one field,
`hashPassword` is `bcrypt.genSalt(10)` followed by `bcrypt.hash`, `save` is `user.save()` on
the new record. `emailRegex.test(email)` converts the email to text first; when that
conversion throws, the `catch` block answers as for any other error. -/
def registerRoute {σ : Type} (largeText : Int → String) (development : Bool)
    (findOne : String → JsVal → σ → Except Thrown JsVal × σ)
    (hashPassword : JsVal → σ → Except Thrown JsVal × σ)
    (save : JsVal → σ → Except Thrown Unit × σ)
    (body : JsVal) (s : σ) : RegisterRun σ :=
  match getProp body "username" with
  | .error e =>
    { response := registrationError development e, state := s, lookups := [], saved := [] }
  | .ok username =>
    let email := fieldOf body "email"
    let password := fieldOf body "password"
    if !truthy username || !truthy email || !truthy password then
      { response := { status := 400, msg := "Please enter all fields" },
        state := s, lookups := [], saved := [] }
    else
    match jsToString largeText email with
    | .error e =>
      { response := registrationError development e, state := s, lookups := [], saved := [] }
    | .ok emailText =>
    if !emailRegexTest emailText.data then
      { response := { status := 400, msg := "Please enter a valid email address" },
        state := s, lookups := [], saved := [] }
    else
      match findOne "username" username s with
      | (.error e, s1) =>
        { response := registrationError development e, state := s1,
          lookups := [("username", username)], saved := [] }
      | (.ok byName, s1) =>
        if truthy byName then
          { response := { status := 400, msg := "Username already taken" },
            state := s1, lookups := [("username", username)], saved := [] }
        else
          match findOne "email" email s1 with
          | (.error e, s2) =>
            { response := registrationError development e, state := s2,
              lookups := [("username", username), ("email", email)], saved := [] }
          | (.ok byEmail, s2) =>
            if truthy byEmail then
              { response := { status := 400, msg := "Email already registered" },
                state := s2, lookups := [("username", username), ("email", email)],
                saved := [] }
            else
              match hashPassword password s2 with
              | (.error e, s3) =>
                { response := registrationError development e, state := s3,
                  lookups := [("username", username), ("email", email)], saved := [] }
              | (.ok hashedPassword, s3) =>
                match save (.obj [("username", username), ("email", email),
                    ("password", hashedPassword)]) s3 with
                | (.error e, s4) =>
                  { response := registrationError development e, state := s4,
                    lookups := [("username", username), ("email", email)], saved := [] }
                | (.ok _, s4) =>
                  { response := { status := 201, msg := "User registered successfully" },
                    state := s4, lookups := [("username", username), ("email", email)],
                    saved := [.obj [("username", username), ("email", email),
                      ("password", hashedPassword)]] }

/-- A user store held in a list of records: the lookup on one field. -/
def listFindOne (field : String) (value : JsVal) (users : List JsVal) :
    Except Thrown JsVal × List JsVal :=
  (.ok ((users.find? (fun u => decide (fieldOf u field = value))).getD .null), users)

/-- A user store held in a list of records: saving appends the record. -/
def listSave (record : JsVal) (users : List JsVal) : Except Thrown Unit × List JsVal :=
  (.ok (), users ++ [record])

/-- A stand-in for the password hashing: the text of a string password with a mark in
front, the mark alone for any other password. -/
def markHash (password : JsVal) (users : List JsVal) : Except Thrown JsVal × List JsVal :=
  match password with
  | .str text => (.ok (.str ("hashed:" ++ text)), users)
  | _ => (.ok (.str "hashed:"), users)

/-! ## `login` of the frontend (frontend/services/api.js, lines 69-88;
frontend/context/AuthContext.js, lines 25-35) -/

/-- `s.trim()`: white space is removed at both ends. -/
def jsTrim (s : String) : String :=
  String.mk ((s.data.dropWhile jsWhitespace).reverse.dropWhile jsWhitespace).reverse

/-- The error thrown by the `catch` block of `api.js` for an error without a response. -/
def networkError : Thrown :=
  { name := "Error", message := "Network error. Please check your connection." }

/-- The `catch` block of `login` in `api.js`: an error without a response becomes the
network error, an error with a response becomes an `Error` whose message is the text of
`error.response?.data?.msg || error.message`; `serverMsg e` is the value of
`e.response?.data?.msg`. When that value cannot be converted to text, `new Error(...)`
throws and the `TypeError` is what leaves the block. -/
def api.rethrow (largeText : Int → String) (serverMsg : Thrown → JsVal) (e : Thrown) : Thrown :=
  match e.status with
  | none => networkError
  | some _ =>
    if truthy (serverMsg e) then
      match jsToString largeText (serverMsg e) with
      | .error typeError => typeError
      | .ok text => { name := "Error", message := text }
    else { name := "Error", message := e.message }

/-- `login(username, password)` of `api.js`; `post path payload` is `api.post`, which gives
the body of the response (`response.data`) or throws. Only a string has a `trim` method. -/
def api.login {σ : Type} (largeText : Int → String) (serverMsg : Thrown → JsVal)
    (post : String → JsVal → σ → Except Thrown JsVal × σ) (username password : JsVal) (s : σ) :
    Except Thrown JsVal × σ :=
  if !truthy username || !truthy password then
    (.error (api.rethrow largeText serverMsg
      { name := "Error", message := "Username and password are required" }), s)
  else
    match username with
    | .str name =>
      match post "/login" (.obj [("username", .str (jsTrim name)), ("password", password)]) s with
      | (.ok body, s') => (.ok body, s')
      | (.error e, s') => (.error (api.rethrow largeText serverMsg e), s')
    | _ =>
      (.error (api.rethrow largeText serverMsg
        { name := "TypeError", message := "username.trim is not a function" }), s)

/-- The state that `AuthProvider` keeps: the current user and the item `user` of the local
storage (`none` when the item is not set). -/
structure AuthState where
  user : JsVal
  storedUser : Option String
deriving DecidableEq

/-- `login(username, password)` of `AuthProvider`: the returned value, the state of the
provider and the state of the world afterwards. `stringify` is `JSON.stringify` on the
values other than `undefined`; `JSON.stringify(undefined)` is `undefined`, which the storage
keeps as the text `undefined`. -/
def AuthContext.login {σ : Type} (largeText : Int → String) (stringify : JsVal → String)
    (serverMsg : Thrown → JsVal)
    (post : String → JsVal → σ → Except Thrown JsVal × σ) (username password : JsVal)
    (auth : AuthState) (s : σ) : Except Thrown JsVal × AuthState × σ :=
  match api.login largeText serverMsg post username password s with
  | (.error e, s') => (.error e, auth, s')
  | (.ok response, s') =>
    match getProp response "data" with
    | .error e => (.error e, auth, s')
    | .ok userData =>
      (.ok userData,
        { user := userData,
          storedUser := some (match userData with
            | .undefined => "undefined"
            | v => stringify v) },
        s')

/-- A backend that answers every post with the same body. -/
def constPost (body : JsVal) (_ : String) (_ : JsVal) (n : Nat) : Except Thrown JsVal × Nat :=
  (.ok body, n + 1)

/-! ## Properties of `retryRequest` -/

theorem stateAfter_shift {σ ε α : Type} (fn : σ → Except ε α × σ) (s : σ) (n : Nat) :
    stateAfter fn (fn s).2 n = stateAfter fn s (n + 1) := by
  induction n with
  | zero => rfl
  | succ n ih => simp only [stateAfter, ih]

theorem outcomeAt_shift {σ ε α : Type} (fn : σ → Except ε α × σ) (s : σ) (n : Nat) :
    outcomeAt fn (fn s).2 n = outcomeAt fn s (n + 1) := by
  simp only [outcomeAt, stateAfter_shift]

/-- The loop entered with counter `i` and `retries - i` iterations left, when the next `m`
attempts fail and the one after succeeds with `v`, `m < retries - i`. -/
theorem retryLoop_success {σ ε α : Type} (fn : σ → Except ε α × σ) (retries : Int) (v : α) :
    ∀ (m rem : Nat) (i : Int) (s : σ) (tr : List Event),
      (rem : Int) = retries - i → m < rem →
      (∀ j, j < m → ∃ e, outcomeAt fn s j = .error e) →
      outcomeAt fn s m = .ok v →
      retryLoop fn retries rem i s tr =
        { result := .ok (some v), state := stateAfter fn s (m + 1),
          trace := tr ++ failTrace m i ++ [Event.invoke] } := by
  intro m
  induction m with
  | zero =>
    intro rem i s tr _ hlt _ hok
    obtain ⟨r, rfl⟩ : ∃ r, rem = r + 1 := ⟨rem - 1, by omega⟩
    simp only [outcomeAt, stateAfter] at hok
    rcases hfn : fn s with ⟨out, s'⟩
    rw [hfn] at hok
    simp only at hok
    subst hok
    simp [retryLoop, hfn, failTrace, stateAfter]
  | succ m ih =>
    intro rem i s tr hrem hlt hfail hok
    obtain ⟨r, rfl⟩ : ∃ r, rem = r + 1 := ⟨rem - 1, by omega⟩
    obtain ⟨e, he⟩ := hfail 0 (Nat.succ_pos m)
    simp only [outcomeAt, stateAfter] at he
    rcases hfn : fn s with ⟨out, s'⟩
    rw [hfn] at he
    simp only at he
    subst he
    have hs' : s' = (fn s).2 := by rw [hfn]
    have hne : ¬ i = retries - 1 := by push_cast at hrem; omega
    have hrec := ih r (i + 1) s' (tr ++ [Event.invoke, Event.sleep (1000 * (i + 1))])
      (by push_cast at hrem; omega) (by omega)
      (fun j hj => by rw [hs', outcomeAt_shift]; exact hfail (j + 1) (by omega))
      (by rw [hs', outcomeAt_shift]; exact hok)
    simp only [retryLoop, hfn, hne, if_false, hrec, failTrace]
    rw [hs', stateAfter_shift]
    simp

/-- The loop entered with counter `i` and `rem + 1 = retries - i` iterations left, when all
of them fail: the error of the last attempt is thrown, and no sleep follows it. -/
theorem retryLoop_exhausted {σ ε α : Type} (fn : σ → Except ε α × σ) (retries : Int) (e : ε) :
    ∀ (rem : Nat) (i : Int) (s : σ) (tr : List Event),
      ((rem + 1 : Nat) : Int) = retries - i →
      (∀ j, j < rem → ∃ e', outcomeAt fn s j = .error e') →
      outcomeAt fn s rem = .error e →
      (retryLoop fn retries (rem + 1) i s tr : RetryRun σ ε α) =
        { result := .error e, state := stateAfter fn s (rem + 1),
          trace := tr ++ failTrace rem i ++ [Event.invoke] } := by
  intro rem
  induction rem with
  | zero =>
    intro i s tr hrem _ hlast
    simp only [outcomeAt, stateAfter] at hlast
    rcases hfn : fn s with ⟨out, s'⟩
    rw [hfn] at hlast
    simp only at hlast
    subst hlast
    have hi : i = retries - 1 := by push_cast at hrem; omega
    simp [retryLoop, hfn, hi, failTrace, stateAfter]
  | succ rem ih =>
    intro i s tr hrem hfail hlast
    obtain ⟨e0, he0⟩ := hfail 0 (Nat.succ_pos rem)
    simp only [outcomeAt, stateAfter] at he0
    rcases hfn : fn s with ⟨out, s'⟩
    rw [hfn] at he0
    simp only at he0
    subst he0
    have hs' : s' = (fn s).2 := by rw [hfn]
    have hne : ¬ i = retries - 1 := by push_cast at hrem; omega
    have hrec := ih (i + 1) s' (tr ++ [Event.invoke, Event.sleep (1000 * (i + 1))])
      (by push_cast at hrem ⊢; omega)
      (fun j hj => by rw [hs', outcomeAt_shift]; exact hfail (j + 1) (by omega))
      (by rw [hs', outcomeAt_shift]; exact hlast)
    rw [retryLoop]
    simp only [hfn, hne, if_false, hrec, failTrace]
    rw [hs', stateAfter_shift]
    simp

theorem invocations_append (a b : List Event) :
    invocations (a ++ b) = invocations a + invocations b := by
  simp [invocations, List.count_append]

theorem waits_append (a b : List Event) : waits (a ++ b) = waits a ++ waits b := by
  induction a with
  | nil => rfl
  | cons x xs ih => cases x <;> simp [waits, ih]

theorem invocations_failTrace (m : Nat) (i : Int) : invocations (failTrace m i) = m := by
  induction m generalizing i with
  | zero => rfl
  | succ m ih =>
    have := ih (i + 1)
    simp only [invocations] at this ⊢
    simp [failTrace, List.count_cons, this]

theorem waits_failTrace (m : Nat) (i : Int) :
    waits (failTrace m i) = (List.range m).map (fun (j : Nat) => 1000 * (i + (j : Int) + 1)) := by
  induction m generalizing i with
  | zero => rfl
  | succ m ih =>
    rw [List.range_succ_eq_map, List.map_cons, List.map_map]
    simp only [failTrace, waits, ih]
    congr 1
    · simp
    · apply List.map_congr_left
      intro j _
      simp only [Function.comp]
      push_cast
      ring

/-! ## Properties of the helpers of `getRecentBooks` -/

theorem getProp_of_ne {b : JsVal} (h1 : b ≠ .undefined) (h2 : b ≠ .null) (k : String) :
    getProp b k = .ok (fieldOf b k) := by
  cases b <;> simp_all [getProp, fieldOf]

theorem fieldOf_eq_str {b : JsVal} {k s : String} (h : fieldOf b k = .str s) :
    ∃ fs, b = .obj fs ∧ lookupField k fs = .str s := by
  cases b <;> simp_all [fieldOf]

theorem recentKeep_eq {b : JsVal} (h1 : b ≠ .undefined) (h2 : b ≠ .null) :
    recentKeep b = .ok (keptByRecent b) := by
  simp only [recentKeep, getProp_of_ne h1 h2, keptByRecent]
  cases truthy (fieldOf b "title") <;> cases truthy (fieldOf b "cover_i") <;> simp

theorem filterE_ok {α ε : Type} (p : α → Except ε Bool) (q : α → Bool) :
    ∀ xs : List α, (∀ x ∈ xs, p x = .ok (q x)) → filterE p xs = .ok (xs.filter q) := by
  intro xs
  induction xs with
  | nil => intro _; rfl
  | cons x xs ih =>
    intro h
    have hx := h x (List.mem_cons_self x xs)
    have hxs := ih (fun y hy => h y (List.mem_cons_of_mem x hy))
    simp only [filterE, hx, hxs, List.filter_cons]

theorem mapE_ok {α β ε : Type} (f : α → Except ε β) :
    ∀ xs : List α, (∀ x ∈ xs, ∃ y, f x = .ok y) →
      ∃ ys, mapE f xs = .ok ys ∧ List.Forall₂ (fun x y => f x = .ok y) xs ys := by
  intro xs
  induction xs with
  | nil => intro _; exact ⟨[], rfl, List.Forall₂.nil⟩
  | cons x xs ih =>
    intro h
    obtain ⟨y, hy⟩ := h x (List.mem_cons_self x xs)
    obtain ⟨ys, hys, hall⟩ := ih (fun z hz => h z (List.mem_cons_of_mem x hz))
    exact ⟨y :: ys, by simp only [mapE, hy, hys], List.Forall₂.cons hy hall⟩

theorem splitOnChar_ne_nil (sep : Char) (cs : List Char) : splitOnChar sep cs ≠ [] := by
  cases cs with
  | nil => simp [splitOnChar]
  | cons c cs =>
    simp only [splitOnChar]
    split
    · simp
    · split <;> simp

theorem splitOnChar_singleton (sep : Char) :
    ∀ (cs s0 : List Char), splitOnChar sep cs = [s0] → sep ∉ cs ∧ s0 = cs := by
  intro cs
  induction cs with
  | nil => intro s0 h; simp [splitOnChar] at h; simp [h]
  | cons c cs ih =>
    intro s0 h
    simp only [splitOnChar] at h
    split at h
    · simp only [List.cons.injEq] at h
      exact absurd h.2 (splitOnChar_ne_nil sep cs)
    · next hc =>
      split at h
      · next hnil => exact absurd hnil (splitOnChar_ne_nil sep cs)
      · next seg rest hsplit =>
        simp only [List.cons.injEq] at h
        obtain ⟨hs0, hrest⟩ := h
        subst hrest
        obtain ⟨hnot, hseg⟩ := ih seg hsplit
        subst hs0
        refine ⟨?_, by rw [hseg]⟩
        simp only [List.mem_cons, not_or]
        exact ⟨fun hcs => hc hcs.symm, hnot⟩

theorem splitOnChar_of_not_mem (sep : Char) :
    ∀ cs : List Char, sep ∉ cs → splitOnChar sep cs = [cs] := by
  intro cs
  induction cs with
  | nil => intro _; rfl
  | cons c cs ih =>
    intro h
    simp only [List.mem_cons, not_or] at h
    have hc : ¬ c = sep := fun e => h.1 e.symm
    simp only [splitOnChar, hc, if_false, ih h.2]

/-- The last element of `chars.split(sep)` is the part of `chars` after the last `sep`. -/
theorem splitOnChar_getLast (sep : Char) :
    ∀ cs : List Char, ∃ seg, (splitOnChar sep cs).getLast? = some seg ∧ sep ∉ seg ∧
      ((sep ∉ cs ∧ seg = cs) ∨ ∃ pre, cs = pre ++ sep :: seg) := by
  intro cs
  induction cs with
  | nil => exact ⟨[], rfl, by simp, Or.inl ⟨by simp, rfl⟩⟩
  | cons c cs ih =>
    obtain ⟨seg, hlast, hnot, hdisj⟩ := ih
    by_cases hc : c = sep
    · subst hc
      refine ⟨seg, ?_, hnot, Or.inr ?_⟩
      · simp only [splitOnChar, if_true]
        rcases hsp : splitOnChar c cs with _ | ⟨s0, rest⟩
        · exact absurd hsp (splitOnChar_ne_nil c cs)
        · rw [hsp] at hlast
          rw [List.getLast?_cons_cons]
          exact hlast
      · rcases hdisj with ⟨_, hseg⟩ | ⟨pre, hpre⟩
        · exact ⟨[], by simp [hseg]⟩
        · exact ⟨c :: pre, by simp [hpre]⟩
    · rcases hsp : splitOnChar sep cs with _ | ⟨s0, rest⟩
      · exact absurd hsp (splitOnChar_ne_nil sep cs)
      · cases rest with
        | nil =>
          obtain ⟨hmem, hs0⟩ := splitOnChar_singleton sep cs s0 hsp
          refine ⟨c :: cs, ?_, ?_, Or.inl ⟨?_, rfl⟩⟩
          · simp [splitOnChar, hc, hsp, hs0]
          · simp only [List.mem_cons, not_or]
            exact ⟨fun e => hc e.symm, hmem⟩
          · simp only [List.mem_cons, not_or]
            exact ⟨fun e => hc e.symm, hmem⟩
        | cons r rs =>
          refine ⟨seg, ?_, hnot, ?_⟩
          · rw [hsp, List.getLast?_cons_cons] at hlast
            simp only [splitOnChar, hc, if_false, hsp]
            rw [List.getLast?_cons_cons]
            exact hlast
          · rcases hdisj with ⟨hmem, _⟩ | ⟨pre, hpre⟩
            · have := splitOnChar_of_not_mem sep cs hmem
              rw [hsp] at this
              simp at this
            · exact Or.inr ⟨c :: pre, by simp [hpre]⟩

theorem toBook_of_key {b : JsVal} {k : String} (h : fieldOf b "key" = .str k) :
    toBook b = .ok
      { id := splitPop k, title := fieldOf b "title",
        authors := jsOr (fieldOf b "author_name") (.arr [.str "Unknown Author"]),
        cover_id := fieldOf b "cover_i", year := fieldOf b "first_publish_year",
        subjects := jsOr (fieldOf b "subject") (.arr []) } := by
  obtain ⟨fs, rfl, hk⟩ := fieldOf_eq_str h
  simp only [toBook, getProp, hk, keySplitPop, fieldOf, bind, Except.bind, pure, Except.pure]

/-- When no record is `undefined` or `null` and every record the filter keeps has a string
key, `transformRecent` returns: the books are the transformed kept records, in order. -/
theorem transformRecent_ok {data : JsVal} {docs : List JsVal}
    (hdocs : getProp data "docs" = .ok (.arr docs))
    (hrec : ∀ b ∈ docs, b ≠ .undefined ∧ b ≠ .null)
    (hkey : ∀ b ∈ docs, keptByRecent b = true → ∃ k, fieldOf b "key" = .str k) :
    ∃ r, transformRecent data = .ok r ∧
      List.Forall₂ (fun b book => toBook b = .ok book) (docs.filter keptByRecent) r.docs ∧
      r.numFound = r.docs.length ∧ r.total = fieldOf data "numFound" := by
  have hobj : ∃ fs, data = .obj fs := by
    cases data <;> simp_all [getProp]
  obtain ⟨fs, rfl⟩ := hobj
  have hfilter := filterE_ok recentKeep keptByRecent docs
    (fun b hb => recentKeep_eq (hrec b hb).1 (hrec b hb).2)
  obtain ⟨books, hmap, hall⟩ := mapE_ok toBook (docs.filter keptByRecent)
    (fun b hb => by
      obtain ⟨hmem, hkept⟩ := List.mem_filter.mp hb
      obtain ⟨k, hk⟩ := hkey b hmem hkept
      exact ⟨_, toBook_of_key hk⟩)
  refine ⟨{ docs := books, numFound := books.length,
            total := fieldOf (.obj fs) "numFound" }, ?_, hall, rfl, rfl⟩
  have hl : lookupField "docs" fs = .arr docs := by simpa [getProp] using hdocs
  simp only [transformRecent, truthy, hfilter, hmap, if_true, bind, Except.bind, pure,
    Except.pure, getProp, fieldOf, hl]

/-- A first attempt that succeeds is the result of `getRecentBooks`, after one upstream
request. -/
theorem getRecentBooks_first_attempt {σ : Type}
    (upstream : Request → σ → Except Thrown JsVal × σ) (limit : JsVal) (s s' : σ)
    (data : JsVal) (r : RecentResult)
    (hresp : upstream (recentRequest limit) s = (.ok data, s'))
    (hr : transformRecent data = .ok r) :
    getRecentBooks upstream limit s =
      { result := .ok (some r), state := s', trace := [Event.invoke] } := by
  have hfn : recentAttempt upstream limit s = (.ok r, s') := by
    simp only [recentAttempt, hresp, hr]
  have h3 : (3 : Int).toNat = 2 + 1 := rfl
  simp only [getRecentBooks, retryRequest, h3, retryLoop, hfn, List.nil_append]

theorem forall₂_length_le_of_filter {α β : Type} (R : α → β → Prop) (q : α → Bool)
    (xs : List α) (ys : List β) (h : List.Forall₂ R (xs.filter q) ys) :
    ys.length ≤ xs.length := by
  rw [← h.length_eq]
  exact List.length_filter_le q xs

/-! ## Properties of the listing mapping of `HomeScreen` -/

theorem isInfixChars_iff (needle : List Char) :
    ∀ hay : List Char, isInfixChars needle hay = true ↔ needle <:+: hay := by
  intro hay
  induction hay with
  | nil => simp [isInfixChars]
  | cons c cs ih =>
    rw [isInfixChars, Bool.or_eq_true, ih, List.infix_cons_iff, List.isPrefixOf_iff_prefix]

theorem subjectMatches_iff (t : String) :
    subjectMatches t = true ↔
      ∃ cat ∈ categories.drop 1, (toLowerCase cat).data <:+: (toLowerCase t).data := by
  simp only [subjectMatches, List.any_eq_true, includes, isInfixChars_iff]

theorem subjectMatches_ne_empty {t : String} (h : subjectMatches t = true) : t ≠ "" := by
  intro ht
  subst ht
  revert h
  decide

theorem findE_subjectCallback (subjects : List String) :
    findE subjectCallback (subjects.map JsVal.str) =
      .ok ((subjects.find? subjectMatches).map JsVal.str) := by
  induction subjects with
  | nil => rfl
  | cons t ts ih =>
    simp only [List.map_cons, findE, subjectCallback, List.find?_cons]
    cases subjectMatches t
    · simpa using ih
    · simp

theorem toListedBook_category (rnd : String) (fs : List (String × JsVal)) :
    (toListedBook rnd (.obj fs)).map (fun b => b.category) =
      categoryOfSubjects (lookupField "subject_key" fs) := by
  simp only [toListedBook, getProp, bind, Except.bind, pure, Except.pure]
  cases categoryOfSubjects (lookupField "subject_key" fs) <;> rfl

theorem categoryOfSubjects_strs (subjects : List String) :
    categoryOfSubjects (.arr (subjects.map JsVal.str)) =
      .ok (jsOr (((subjects.find? subjectMatches).map JsVal.str).getD .undefined)
        (.str "Novel")) := by
  simp only [categoryOfSubjects, truthy, if_true, findE_subjectCallback]

/-! ## Properties of the merge of `getBookDetails` -/

theorem lookupField_setField_same (k : String) (v : JsVal) :
    ∀ fs : List (String × JsVal), lookupField k (setField k v fs) = v := by
  intro fs
  induction fs with
  | nil => simp [setField, lookupField]
  | cons p rest ih =>
    obtain ⟨k', v'⟩ := p
    by_cases h : k' = k
    · simp [setField, lookupField, h]
    · simp [setField, lookupField, h, ih]

theorem lookupField_setField_other {k k' : String} (v : JsVal) (hne : k ≠ k') :
    ∀ fs : List (String × JsVal), lookupField k' (setField k v fs) = lookupField k' fs := by
  intro fs
  induction fs with
  | nil =>
    simp [setField, lookupField, hne]
  | cons p rest ih =>
    obtain ⟨k0, v0⟩ := p
    by_cases h : k0 = k
    · subst h
      simp [setField, lookupField, hne]
    · by_cases h' : k0 = k'
      · subst h'
        simp [setField, lookupField, h]
      · simp [setField, lookupField, h, h', ih]

theorem orProps_obj (wfs efs : List (String × JsVal)) (wk ek : String) :
    orProps (.obj wfs) (.obj efs) wk ek =
      .ok (if truthy (lookupField wk wfs) then lookupField wk wfs else lookupField ek efs) := by
  simp only [orProps, getProp]
  split <;> rfl

/-! ## Properties of the normalisers -/

theorem categoryOfSubjects_plain {fs : List (String × JsVal)} (h : plainSubjects (.obj fs)) :
    ∃ c, categoryOfSubjects (lookupField "subject_key" fs) = .ok c := by
  rcases h with hf | ⟨subjects, hs⟩
  · simp only [fieldOf] at hf
    exact ⟨.str "Novel", by simp [categoryOfSubjects, hf]⟩
  · simp only [fieldOf] at hs
    exact ⟨_, by rw [hs, categoryOfSubjects_strs]⟩

/-- On a record with plain subject tags the mapping of `HomeScreen` returns, and every field
but the category is read off the record. -/
theorem toListedBook_plain (rnd : String) {fs : List (String × JsVal)}
    (h : plainSubjects (.obj fs)) :
    ∃ c, toListedBook rnd (.obj fs) = .ok
      { id := jsOr (lookupField "key" fs) (.str rnd), title := lookupField "title" fs,
        authors := jsOr (lookupField "author_name" fs) (.arr [.str "Unknown Author"]),
        first_publish_year := lookupField "first_publish_year" fs,
        publish_year := lookupField "publish_year" fs, cover_id := lookupField "cover_i" fs,
        category := c } := by
  obtain ⟨c, hc⟩ := categoryOfSubjects_plain h
  exact ⟨c, by simp only [toListedBook, getProp, hc, bind, Except.bind, pure, Except.pure]⟩

theorem jsOr_of_falsy {a b : JsVal} (h : truthy a = false) : jsOr a b = b := by
  simp [jsOr, h]

theorem jsOr_of_truthy {a b : JsVal} (h : truthy a = true) : jsOr a b = a := by
  simp [jsOr, h]

theorem forall₂_exists_left {α β : Type} {R : α → β → Prop} :
    ∀ {xs : List α} {ys : List β}, List.Forall₂ R xs ys → ∀ y ∈ ys, ∃ x ∈ xs, R x y := by
  intro xs ys h
  induction h with
  | nil => intro y hy; exact absurd hy (List.not_mem_nil y)
  | cons hxy _ ih =>
    intro y hy
    rcases List.mem_cons.mp hy with rfl | hmem
    · exact ⟨_, List.mem_cons_self _ _, hxy⟩
    · obtain ⟨x, hx, hr⟩ := ih y hmem
      exact ⟨x, List.mem_cons_of_mem _ hx, hr⟩

theorem keptByRecent_title {b : JsVal} (h : keptByRecent b = true) :
    truthy (fieldOf b "title") = true := by
  simp only [keptByRecent, Bool.and_eq_true] at h
  exact h.1

/-! ## Properties of the attempts of `getRecentBooks` and of logged upstreams -/

theorem recentAttempt_snd {σ : Type} (up : Request → σ → Except Thrown JsVal × σ)
    (limit : JsVal) (s : σ) :
    (recentAttempt up limit s).2 = (up (recentRequest limit) s).2 := by
  simp only [recentAttempt]
  rcases up (recentRequest limit) s with ⟨out, s'⟩
  cases out <;> rfl

theorem recentAttempt_fst {σ : Type} (up : Request → σ → Except Thrown JsVal × σ)
    (limit : JsVal) (s : σ) :
    (recentAttempt up limit s).1 =
      (match (up (recentRequest limit) s).1 with
       | .ok data => transformRecent data
       | .error e => .error e) := by
  simp only [recentAttempt]
  rcases up (recentRequest limit) s with ⟨out, s'⟩
  cases out <;> rfl

theorem stateAfter_recentAttempt {σ : Type} (up : Request → σ → Except Thrown JsVal × σ)
    (limit : JsVal) (s : σ) (n : Nat) :
    stateAfter (recentAttempt up limit) s n = stateAfter (up (recentRequest limit)) s n := by
  induction n with
  | zero => rfl
  | succ n ih => simp only [stateAfter, ih, recentAttempt_snd]

theorem outcomeAt_recentAttempt {σ : Type} (up : Request → σ → Except Thrown JsVal × σ)
    (limit : JsVal) (s : σ) (n : Nat) :
    outcomeAt (recentAttempt up limit) s n =
      (match outcomeAt (up (recentRequest limit)) s n with
       | .ok data => transformRecent data
       | .error e => .error e) := by
  simp only [outcomeAt, stateAfter_recentAttempt, recentAttempt_fst]

theorem stateAfter_logged {σ : Type} (up : Request → σ → Except Thrown JsVal × σ)
    (req : Request) (s : σ) (log : List Request) (n : Nat) :
    stateAfter (logged up req) (s, log) n =
      (stateAfter (up req) s n, log ++ List.replicate n req) := by
  induction n with
  | zero => simp [stateAfter]
  | succ n ih =>
    simp only [stateAfter, ih, logged, List.replicate_succ', List.append_assoc]

theorem outcomeAt_logged {σ : Type} (up : Request → σ → Except Thrown JsVal × σ)
    (req : Request) (s : σ) (log : List Request) (n : Nat) :
    outcomeAt (logged up req) (s, log) n = outcomeAt (up req) s n := by
  simp only [outcomeAt, stateAfter_logged, logged]

theorem transformRecent_malformed {data : JsVal} (h : malformedBody data) :
    transformRecent data = .error invalidFormatError := by
  rcases h with hf | hnot
  · simp [transformRecent, hf]
  · simp only [transformRecent]
    split
    · cases data <;> simp_all [getProp, fieldOf]
    · rfl

theorem mapListed_plain (rnd : Nat → String) :
    ∀ (docs : List JsVal) (i : Nat), (∀ b ∈ docs, (∃ fs, b = .obj fs) ∧ plainSubjects b) →
      ∃ books, mapListed rnd i docs = .ok books ∧
        List.Forall₂ (fun b book => (∃ r, toListedBook r b = .ok book) ∧
          book.title = fieldOf b "title") docs books := by
  intro docs
  induction docs with
  | nil => intro i _; exact ⟨[], rfl, List.Forall₂.nil⟩
  | cons b bs ih =>
    intro i h
    obtain ⟨⟨fs, rfl⟩, hplain⟩ := h b (List.mem_cons_self b bs)
    obtain ⟨c, hc⟩ := toListedBook_plain (rnd i) hplain
    obtain ⟨books, hbooks, hall⟩ := ih (i + 1) (fun x hx => h x (List.mem_cons_of_mem _ hx))
    exact ⟨_ :: books, by simp only [mapListed, hc, hbooks],
      List.Forall₂.cons ⟨⟨rnd i, hc⟩, rfl⟩ hall⟩

/-! ## Properties of `bookService.getBookDetails` -/

theorem ne_of_truthy {v : JsVal} (h : truthy v = true) : v ≠ .undefined ∧ v ≠ .null := by
  cases v <;> simp_all [truthy]

theorem orProps_of_ne {work edition : JsVal} (hw : work ≠ .undefined ∧ work ≠ .null)
    (he : edition ≠ .undefined ∧ edition ≠ .null) (wk ek : String) :
    orProps work edition wk ek = .ok (orFields work edition wk ek) := by
  simp only [orProps, getProp_of_ne hw.1 hw.2, getProp_of_ne he.1 he.2, orFields]
  split <;> rfl

/-- The merge of a work and an edition that are neither `undefined` nor `null` returns. -/
theorem mergeDetails_of_ne {work edition : JsVal} (hw : work ≠ .undefined ∧ work ≠ .null)
    (he : edition ≠ .undefined ∧ edition ≠ .null) :
    mergeDetails work edition = .ok (.obj (mergedFields work edition)) := by
  simp only [mergeDetails, orProps_of_ne hw he, bind, Except.bind, pure, Except.pure,
    mergedFields]

/-- Whatever the merge returns is an object whose `description` is truthy and whose
`first_publish_date` is the value of `work.first_publish_date || edition.publish_date`. -/
theorem mergeDetails_ok {work edition r : JsVal} (h : mergeDetails work edition = .ok r) :
    ∃ fs f, r = .obj fs ∧ truthy (lookupField "description" fs) = true ∧
      orProps work edition "first_publish_date" "publish_date" = .ok f ∧
      lookupField "first_publish_date" fs = f := by
  simp only [mergeDetails, bind, Except.bind, pure, Except.pure] at h
  cases hd : orProps work edition "description" "description" with
  | error e => rw [hd] at h; cases h
  | ok d =>
    cases ha : orProps work edition "authors" "authors" with
    | error e => rw [hd, ha] at h; cases h
    | ok a =>
      cases hs : orProps work edition "subjects" "subjects" with
      | error e => rw [hd, ha, hs] at h; cases h
      | ok sj =>
        cases hf : orProps work edition "first_publish_date" "publish_date" with
        | error e => rw [hd, ha, hs, hf] at h; cases h
        | ok f =>
          rw [hd, ha, hs, hf] at h
          cases h
          refine ⟨_, f, rfl, ?_, rfl, lookupField_setField_same _ _ _⟩
          rw [lookupField_setField_other _ (by decide),
            lookupField_setField_other _ (by decide),
            lookupField_setField_other _ (by decide), lookupField_setField_same]
          by_cases hdt : truthy d = true
          · rw [jsOr_of_truthy hdt]; exact hdt
          · rw [jsOr_of_falsy (by simpa using hdt)]; rfl

theorem lookup_mergedFields_description (work edition : JsVal) :
    lookupField "description" (mergedFields work edition) =
      jsOr (orFields work edition "description" "description")
        (.str "No description available.") := by
  simp only [mergedFields]
  rw [lookupField_setField_other _ (by decide), lookupField_setField_other _ (by decide),
    lookupField_setField_other _ (by decide), lookupField_setField_same]

theorem lookup_mergedFields_authors (work edition : JsVal) :
    lookupField "authors" (mergedFields work edition) =
      jsOr (orFields work edition "authors" "authors") (.arr []) := by
  simp only [mergedFields]
  rw [lookupField_setField_other _ (by decide), lookupField_setField_other _ (by decide),
    lookupField_setField_same]

theorem lookup_mergedFields_subjects (work edition : JsVal) :
    lookupField "subjects" (mergedFields work edition) =
      jsOr (orFields work edition "subjects" "subjects") (.arr []) := by
  simp only [mergedFields]
  rw [lookupField_setField_other _ (by decide), lookupField_setField_same]

theorem lookup_mergedFields_date (work edition : JsVal) :
    lookupField "first_publish_date" (mergedFields work edition) =
      orFields work edition "first_publish_date" "publish_date" := by
  simp only [mergedFields]
  rw [lookupField_setField_same]

theorem orFields_empty_edition (work : JsVal) (wk ek : String) :
    orFields work (.obj []) wk ek =
      (if truthy (fieldOf work wk) then fieldOf work wk else .undefined) := rfl

theorem orProps_of_truthy {work : JsVal} (edition : JsVal) {wk : String} (ek : String)
    (hw : work ≠ .undefined ∧ work ≠ .null) (ht : truthy (fieldOf work wk) = true) :
    orProps work edition wk ek = .ok (fieldOf work wk) := by
  simp only [orProps, getProp_of_ne hw.1 hw.2, ht, if_true]

theorem mergeDetails_empty_edition {work : JsVal} (hw : truthy work = true) :
    mergeDetails work (.obj []) = .ok (.obj (mergedFields work (.obj []))) :=
  mergeDetails_of_ne (ne_of_truthy hw) ⟨by simp, by simp⟩

theorem getBookDetails_without_date {σ : Type} (other : JsVal → Option Int)
    (upstream : Request → σ → Except Thrown JsVal × σ) (bookId : String) (s s1 : σ)
    (work : JsVal) (hwork : upstream (bookService.workRequest bookId) s = (.ok work, s1))
    (ht : truthy work = true) (hdate : truthy (fieldOf work "first_publish_date") = false) :
    bookService.getBookDetails other upstream bookId s =
      (.ok (.obj (mergedFields work (.obj []))), s1) := by
  simp [bookService.getBookDetails, hwork, ht, hdate, mergeDetails_empty_edition ht]

theorem getBookDetails_editions_failed {σ : Type} (other : JsVal → Option Int)
    (upstream : Request → σ → Except Thrown JsVal × σ) (bookId : String) (s s1 s2 : σ)
    (work : JsVal) (e : Thrown)
    (hwork : upstream (bookService.workRequest bookId) s = (.ok work, s1))
    (ht : truthy work = true) (hdate : truthy (fieldOf work "first_publish_date") = true)
    (hed : upstream (bookService.editionsRequest bookId) s1 = (.error e, s2)) :
    bookService.getBookDetails other upstream bookId s =
      (.ok (.obj (mergedFields work (.obj []))), s2) := by
  simp [bookService.getBookDetails, hwork, ht, hdate, hed, mergeDetails_empty_edition ht]

theorem getBookDetails_editions_answered {σ : Type} (other : JsVal → Option Int)
    (upstream : Request → σ → Except Thrown JsVal × σ) (bookId : String) (s s1 s2 : σ)
    (work data : JsVal)
    (hwork : upstream (bookService.workRequest bookId) s = (.ok work, s1))
    (ht : truthy work = true) (hdate : truthy (fieldOf work "first_publish_date") = true)
    (hed : upstream (bookService.editionsRequest bookId) s1 = (.ok data, s2)) :
    bookService.getBookDetails other upstream bookId s =
      (mergeDetails work (bookService.editionOf other data), s2) := by
  simp [bookService.getBookDetails, hwork, ht, hdate, hed]

theorem editionOf_without_entries (other : JsVal → Option Int) {data : JsVal}
    (h : truthy data = false ∨ truthy (fieldOf data "entries") = false ∨
      gtZero other (jsLength (fieldOf data "entries")) = false) :
    bookService.editionOf other data = .obj [] := by
  rcases h with h | h | h <;> simp [bookService.editionOf, h]

/-- A successful return of `bookService.getBookDetails` is the merge of a truthy work with
some edition, the empty one when the work has no truthy `first_publish_date`. -/
theorem getBookDetails_ok_inv {σ : Type} {other : JsVal → Option Int}
    {upstream : Request → σ → Except Thrown JsVal × σ} {bookId : String} {s s' : σ}
    {r : JsVal} (hr : bookService.getBookDetails other upstream bookId s = (.ok r, s')) :
    ∃ work s1 edition, upstream (bookService.workRequest bookId) s = (.ok work, s1) ∧
      truthy work = true ∧ mergeDetails work edition = .ok r ∧
      (truthy (fieldOf work "first_publish_date") = false → edition = .obj [] ∧ s' = s1) := by
  simp only [bookService.getBookDetails] at hr
  rcases hw : upstream (bookService.workRequest bookId) s with ⟨out, s1⟩
  rw [hw] at hr
  cases out with
  | error e => simp at hr
  | ok work =>
    simp only at hr
    by_cases ht : truthy work = true
    · simp only [ht, if_true] at hr
      by_cases hdate : truthy (fieldOf work "first_publish_date") = true
      · simp only [hdate, if_true] at hr
        rcases he : upstream (bookService.editionsRequest bookId) s1 with ⟨out2, s2⟩
        rw [he] at hr
        cases out2 with
        | error e =>
          exact ⟨work, s1, .obj [], rfl, ht, (Prod.mk.inj hr).1,
            fun hf => by rw [hdate] at hf; cases hf⟩
        | ok data =>
          exact ⟨work, s1, _, rfl, ht, (Prod.mk.inj hr).1,
            fun hf => by rw [hdate] at hf; cases hf⟩
      · simp only [hdate] at hr
        exact ⟨work, s1, .obj [], rfl, ht, (Prod.mk.inj hr).1,
          fun _ => ⟨rfl, (Prod.mk.inj hr).2.symm⟩⟩
    · simp [ht] at hr

theorem jsOr_orFields_empty (w : JsVal) (k : String) (d : JsVal) :
    jsOr (orFields w (.obj []) k k) d = jsOr (fieldOf w k) d := by
  rw [orFields_empty_edition]
  by_cases h : truthy (fieldOf w k) = true
  · rw [if_pos h]
  · have hf : truthy (fieldOf w k) = false := by simpa using h
    rw [if_neg h, jsOr_of_falsy hf, jsOr_of_falsy (show truthy JsVal.undefined = false from rfl)]

theorem hasField_eq_false {k : String} {fs : List (String × JsVal)} :
    hasField k fs = false ↔ k ∉ fs.map Prod.fst := by
  induction fs with
  | nil => simp [hasField]
  | cons p rest ih =>
    obtain ⟨k0, v0⟩ := p
    simp only [hasField, List.any_cons, Bool.or_eq_false_iff, List.map_cons, List.mem_cons,
      not_or] at ih ⊢
    rw [ih]
    constructor
    · rintro ⟨h1, h2⟩
      exact ⟨fun h => by simp [h] at h1, h2⟩
    · rintro ⟨h1, h2⟩
      exact ⟨by simpa using fun h => h1 h.symm, h2⟩

theorem hasField_cons (k k0 : String) (v0 : JsVal) (rest : List (String × JsVal)) :
    hasField k ((k0, v0) :: rest) = (decide (k0 = k) || hasField k rest) := by
  simp only [hasField, List.any_cons]
  rfl

theorem lookupField_of_not_hasField {k : String} {fs : List (String × JsVal)}
    (h : hasField k fs = false) : lookupField k fs = .undefined := by
  induction fs with
  | nil => rfl
  | cons p rest ih =>
    obtain ⟨k0, v0⟩ := p
    rw [hasField_cons, Bool.or_eq_false_iff] at h
    have hne : ¬ k0 = k := by simpa using h.1
    simp only [lookupField, hne, if_false]
    exact ih h.2

theorem setField_of_not_hasField {k : String} (v : JsVal) {fs : List (String × JsVal)}
    (h : hasField k fs = false) : setField k v fs = fs ++ [(k, v)] := by
  induction fs with
  | nil => rfl
  | cons p rest ih =>
    obtain ⟨k0, v0⟩ := p
    rw [hasField_cons, Bool.or_eq_false_iff] at h
    have hne : ¬ k0 = k := by simpa using h.1
    simp only [setField, hne, if_false, List.cons_append, ih h.2]

/-- Assigning, one after the other, fields with distinct keys that the target does not hold
appends them to the target. -/
theorem foldl_setField_append :
    ∀ (fs target : List (String × JsVal)), ((target ++ fs).map Prod.fst).Nodup →
      fs.foldl (fun acc p => setField p.1 p.2 acc) target = target ++ fs := by
  intro fs
  induction fs with
  | nil => intro target _; simp
  | cons p rest ih =>
    intro target hnd
    obtain ⟨k0, v0⟩ := p
    have hnot : hasField k0 target = false := by
      rw [hasField_eq_false]
      intro hmem
      rw [List.map_append, List.map_cons] at hnd
      have := (List.nodup_append.mp hnd).2.2
      exact this hmem (List.mem_cons_self _ _)
    simp only [List.foldl_cons]
    rw [setField_of_not_hasField v0 hnot, ih (target ++ [(k0, v0)])]
    · simp
    · simpa using hnd

/-- The spread of a record with distinct keys into an empty object literal gives the fields
of the record. -/
theorem spreadInto_nil_obj {wfs : List (String × JsVal)} (hnd : (wfs.map Prod.fst).Nodup) :
    spreadInto [] (.obj wfs) = wfs := by
  simp only [spreadInto, ownEntries]
  rw [foldl_setField_append wfs [] (by simpa using hnd)]
  rfl

/-- The value of a key after the spread of a record with distinct keys: the record's value
when the record has the key, the value of the target otherwise. -/
theorem lookupField_foldl_setField (k : String) :
    ∀ (fs target : List (String × JsVal)), (fs.map Prod.fst).Nodup →
      lookupField k (fs.foldl (fun acc p => setField p.1 p.2 acc) target) =
        (if hasField k fs then lookupField k fs else lookupField k target) := by
  intro fs
  induction fs with
  | nil => intro target _; simp [hasField]
  | cons p rest ih =>
    intro target hnd
    obtain ⟨k0, v0⟩ := p
    rw [List.map_cons, List.nodup_cons] at hnd
    simp only [List.foldl_cons]
    rw [ih _ hnd.2, hasField_cons]
    by_cases h : k0 = k
    · subst h
      have hrest : hasField k0 rest = false := hasField_eq_false.mpr hnd.1
      simp [hrest, lookupField, lookupField_setField_same]
    · simp only [h, decide_False, Bool.false_or, lookupField, if_false]
      rw [lookupField_setField_other v0 h]

theorem lookupField_spreadInto_obj (k : String) (target efs : List (String × JsVal))
    (hnd : (efs.map Prod.fst).Nodup) :
    lookupField k (spreadInto target (.obj efs)) =
      (if hasField k efs then lookupField k efs else lookupField k target) :=
  lookupField_foldl_setField k efs target hnd

theorem spreadInto_nullish (target : List (String × JsVal)) {edition : JsVal}
    (h : edition = .undefined ∨ edition = .null) : spreadInto target edition = target := by
  rcases h with rfl | rfl <;> rfl

/-- The value of a key other than the four that the merge sets. -/
theorem lookup_mergedFields_other (work edition : JsVal) {k : String}
    (hk : k ∉ ["description", "authors", "subjects", "first_publish_date"]) :
    lookupField k (mergedFields work edition) =
      lookupField k (spreadInto (spreadInto [] work) edition) := by
  simp only [List.mem_cons, List.mem_singleton, List.not_mem_nil, or_false, not_or] at hk
  simp only [mergedFields]
  rw [lookupField_setField_other _ (Ne.symm hk.2.2.2), lookupField_setField_other _ (Ne.symm hk.2.2.1),
    lookupField_setField_other _ (Ne.symm hk.2.1), lookupField_setField_other _ (Ne.symm hk.1)]

theorem orProps_nullish_edition {work edition : JsVal} (hw : work ≠ .undefined ∧ work ≠ .null)
    (he : edition = .undefined ∨ edition = .null) (wk ek : String) :
    orProps work edition wk ek =
      (if truthy (fieldOf work wk) then .ok (fieldOf work wk) else .error (propTypeError ek)) := by
  simp only [orProps, getProp_of_ne hw.1 hw.2]
  rcases he with rfl | rfl <;> rfl

theorem jsOr_ite (w e d : JsVal) :
    jsOr (if truthy w then w else e) d = (if truthy w then w else if truthy e then e else d) := by
  by_cases hw : truthy w = true
  · simp [jsOr, hw]
  · simp [jsOr, hw]

theorem mergeDetails_nullish_edition {work edition : JsVal} (hw : truthy work = true)
    (he : edition = .undefined ∨ edition = .null)
    (hf : truthy (fieldOf work "first_publish_date") = true) :
    (truthy (fieldOf work "description") = true → truthy (fieldOf work "authors") = true →
      truthy (fieldOf work "subjects") = true →
      mergeDetails work edition = .ok (.obj (mergedFields work (.obj [])))) ∧
    (truthy (fieldOf work "description") = false →
      mergeDetails work edition = .error (propTypeError "description")) ∧
    (truthy (fieldOf work "description") = true → truthy (fieldOf work "authors") = false →
      mergeDetails work edition = .error (propTypeError "authors")) ∧
    (truthy (fieldOf work "description") = true → truthy (fieldOf work "authors") = true →
      truthy (fieldOf work "subjects") = false →
      mergeDetails work edition = .error (propTypeError "subjects")) := by
  refine ⟨?_, ?_, ?_, ?_⟩
  · intro hd ha hs
    simp only [mergeDetails, orProps_nullish_edition (ne_of_truthy hw) he, hd, ha, hs, hf,
      if_true, bind, Except.bind, pure, Except.pure, spreadInto_nullish _ he, mergedFields,
      orFields]
    rfl
  · intro hd
    simp [mergeDetails, orProps_nullish_edition (ne_of_truthy hw) he, hd, bind, Except.bind]
  · intro hd ha
    simp [mergeDetails, orProps_nullish_edition (ne_of_truthy hw) he, hd, ha, bind, Except.bind]
  · intro hd ha hs
    simp [mergeDetails, orProps_nullish_edition (ne_of_truthy hw) he, hd, ha, hs, bind,
      Except.bind]

/-! ## Properties of the categories of `HomeScreen` -/

theorem subjectMatches_novel : subjectMatches "Novel" = true := by decide

/-- On a record with plain subject tags the category is a string that includes one of the
five labels. -/
theorem toListedBook_category_labelled {rnd : String} {fs : List (String × JsVal)}
    {book : ListedBook} (hplain : plainSubjects (.obj fs))
    (hbook : toListedBook rnd (.obj fs) = .ok book) :
    ∃ t, book.category = .str t ∧ subjectMatches t = true := by
  have hcat := toListedBook_category rnd fs
  rw [hbook] at hcat
  have hc : categoryOfSubjects (lookupField "subject_key" fs) = .ok book.category := hcat.symm
  rcases hplain with hf | ⟨subjects, hs⟩
  · simp only [fieldOf] at hf
    have hc' : Except.ok (JsVal.str "Novel") = (Except.ok book.category : Except Thrown JsVal) := by
      simpa [categoryOfSubjects, hf] using hc
    exact ⟨"Novel", (Except.ok.inj hc').symm, subjectMatches_novel⟩
  · simp only [fieldOf] at hs
    rw [hs, categoryOfSubjects_strs] at hc
    cases hfind : subjects.find? subjectMatches with
    | none =>
      rw [hfind] at hc
      have : book.category = .str "Novel" := by
        have := Except.ok.inj hc
        rw [← this]
        rfl
      exact ⟨"Novel", this, subjectMatches_novel⟩
    | some t =>
      rw [hfind] at hc
      have hprop : subjectMatches t = true := by
        have := List.find?_some hfind
        simpa using this
      have hne : t ≠ "" := subjectMatches_ne_empty hprop
      have : book.category = .str t := by
        have := Except.ok.inj hc
        rw [← this]
        simp [jsOr, truthy, hne]
      exact ⟨t, this, hprop⟩

theorem mem_drop_categories_ne_all {cat : String} (h : cat ∈ categories.drop 1) :
    cat ≠ "All" := by
  have hmem : cat ∈ ["Novel", "Science", "Romance", "Horror", "Comedy"] := h
  simp only [List.mem_cons, List.mem_singleton, List.not_mem_nil, or_false] at hmem
  rcases hmem with rfl | rfl | rfl | rfl | rfl <;> decide

/-! ## Properties of the email pattern -/

theorem mem_splits : ∀ (cs a b : List Char), (a, b) ∈ splits cs ↔ a ++ b = cs := by
  intro cs
  induction cs with
  | nil =>
    intro a b
    simp [splits, List.append_eq_nil]
  | cons c cs ih =>
    intro a b
    simp only [splits, List.mem_cons, List.mem_map, Prod.mk.injEq, Prod.exists]
    constructor
    · rintro (⟨rfl, rfl⟩ | ⟨a', b', hmem, rfl, rfl⟩)
      · rfl
      · rw [List.cons_append, (ih a' b').mp hmem]
    · intro h
      cases a with
      | nil => exact Or.inl ⟨rfl, by simpa using h⟩
      | cons x a' =>
        rw [List.cons_append, List.cons.injEq] at h
        obtain ⟨rfl, h'⟩ := h
        exact Or.inr ⟨a', b, (ih a' b).mpr h', rfl, rfl⟩

/-- The pattern of `/register` accepts exactly the texts `local@domain.tld` whose three
parts are non-empty and free of white space and of `@`. -/
theorem emailRegexTest_iff (cs : List Char) :
    emailRegexTest cs = true ↔
      ∃ a b c, cs = a ++ '@' :: (b ++ '.' :: c) ∧
        emailPart a = true ∧ emailPart b = true ∧ emailPart c = true := by
  simp only [emailRegexTest, List.any_eq_true, Bool.and_eq_true]
  constructor
  · rintro ⟨⟨a, rest⟩, hp, ha, hrest⟩
    cases rest with
    | nil => simp at hrest
    | cons x rest =>
      simp only [Bool.and_eq_true, beq_iff_eq, List.any_eq_true] at hrest
      obtain ⟨rfl, ⟨b, tail⟩, hq, hb, htail⟩ := hrest
      cases tail with
      | nil => simp at htail
      | cons y tld =>
        simp only [Bool.and_eq_true, beq_iff_eq] at htail
        obtain ⟨rfl, hc⟩ := htail
        refine ⟨a, b, tld, ?_, ha, hb, hc⟩
        rw [(mem_splits _ _ _).mp hq]
        exact ((mem_splits _ _ _).mp hp).symm
  · rintro ⟨a, b, c, rfl, ha, hb, hc⟩
    refine ⟨(a, '@' :: (b ++ '.' :: c)), (mem_splits _ _ _).mpr rfl, ha, ?_⟩
    simp only [Bool.and_eq_true, beq_iff_eq, List.any_eq_true, true_and]
    exact ⟨(b, '.' :: c), (mem_splits _ _ _).mpr rfl, hb, by simp [hc]⟩

/-! ## Claims about `retryRequest` -/

/-- C1: for `retryRequest(fn, 3)`, if `fn` fails on its first `k - 1` invocations and succeeds
on the `k`-th with value `v`, `k` in 1..3, then the call returns `v`, `fn` has been invoked
exactly `k` times, the world is in the state reached after exactly `k` invocations and the
last effect is the successful invocation (nothing is attempted after the success). -/
theorem retryRequest_returns_kth_success {σ ε α : Type} (fn : σ → Except ε α × σ) (s : σ)
    (k : Nat) (v : α) (hk : 1 ≤ k ∧ k ≤ 3)
    (hfail : ∀ j, j + 1 < k → ∃ e, outcomeAt fn s j = .error e)
    (hok : outcomeAt fn s (k - 1) = .ok v) :
    (retryRequest fn 3 s).result = .ok (some v) ∧
    invocations (retryRequest fn 3 s).trace = k ∧
    (retryRequest fn 3 s).state = stateAfter fn s k ∧
    (retryRequest fn 3 s).trace.getLast? = some Event.invoke := by
  obtain ⟨m, rfl⟩ : ∃ m, k = m + 1 := ⟨k - 1, by omega⟩
  have hrun := retryLoop_success fn 3 v m 3 0 s [] (by norm_num) (by omega)
    (fun j hj => hfail j (by omega)) (by simpa using hok)
  have hrun' : retryRequest fn 3 s =
      { result := .ok (some v), state := stateAfter fn s (m + 1),
        trace := [] ++ failTrace m 0 ++ [Event.invoke] } := hrun
  rw [hrun']
  refine ⟨rfl, ?_, rfl, ?_⟩
  · simp only [invocations_append, invocations_failTrace]
    simp [invocations]
  · simp

/-- Witness for C1: a callback that fails twice and then yields 42. -/
theorem retryRequest_returns_kth_success_witness :
    (retryRequest (scripted (α := Nat) "down") 3
        [.error "e1", .error "e2", .ok 42, .ok 7]).result = .ok (some 42) ∧
    invocations (retryRequest (scripted (α := Nat) "down") 3
        [.error "e1", .error "e2", .ok 42, .ok 7]).trace = 3 ∧
    (retryRequest (scripted (α := Nat) "down") 3
        [.error "e1", .error "e2", .ok 42, .ok 7]).state = [.ok 7] :=
  have h := retryRequest_returns_kth_success (scripted (α := Nat) "down")
    [.error "e1", .error "e2", .ok 42, .ok 7] 3 42 ⟨by decide, by decide⟩
    (fun j hj => by
      have hj' : j = 0 ∨ j = 1 := by omega
      rcases hj' with rfl | rfl
      · exact ⟨"e1", rfl⟩
      · exact ⟨"e2", rfl⟩)
    rfl
  ⟨h.1, h.2.1, h.2.2.1⟩

/-- C2: if `fn` fails on all three invocations, `retryRequest(fn, 3)` fails with exactly the
error of the third invocation, `fn` is invoked exactly 3 times, and the trace of effects is
invoke, sleep 1000, invoke, sleep 2000, invoke: nothing is waited for after the third
failure. -/
theorem retryRequest_throws_third_error {σ ε α : Type} (fn : σ → Except ε α × σ) (s : σ)
    (e1 e2 e3 : ε)
    (h1 : outcomeAt fn s 0 = .error e1) (h2 : outcomeAt fn s 1 = .error e2)
    (h3 : outcomeAt fn s 2 = .error e3) :
    (retryRequest fn 3 s).result = .error e3 ∧
    invocations (retryRequest fn 3 s).trace = 3 ∧
    (retryRequest fn 3 s).trace =
      [Event.invoke, Event.sleep 1000, Event.invoke, Event.sleep 2000, Event.invoke] ∧
    (retryRequest fn 3 s).trace.getLast? = some Event.invoke ∧
    (retryRequest fn 3 s).state = stateAfter fn s 3 := by
  have hrun := retryLoop_exhausted fn 3 e3 2 0 s [] (by norm_num)
    (fun j hj => by
      have hj' : j = 0 ∨ j = 1 := by omega
      rcases hj' with rfl | rfl
      · exact ⟨e1, h1⟩
      · exact ⟨e2, h2⟩)
    h3
  have hrun' : retryRequest fn 3 s =
      { result := .error e3, state := stateAfter fn s 3,
        trace := [] ++ failTrace 2 0 ++ [Event.invoke] } := hrun
  rw [hrun']
  refine ⟨rfl, ?_, ?_, ?_, rfl⟩
  · simp [invocations, failTrace]
  · simp [failTrace]
  · simp

/-- Witness for C2: three different errors in a row; the third one is the one thrown. -/
theorem retryRequest_throws_third_error_witness :
    (retryRequest (scripted (α := Nat) "down") 3
        [.error "e1", .error "e2", .error "e3", .ok 5]).result = .error "e3" ∧
    invocations (retryRequest (scripted (α := Nat) "down") 3
        [.error "e1", .error "e2", .error "e3", .ok 5]).trace = 3 :=
  have h := retryRequest_throws_third_error (scripted (α := Nat) "down")
    [.error "e1", .error "e2", .error "e3", .ok 5] "e1" "e2" "e3" rfl rfl rfl
  ⟨h.1, h.2.1⟩

/-- C3: the wait after the `n`-th failed attempt, `n < retries`, is `1000 * n` ms: when the
first `m` attempts fail and attempt `m + 1` succeeds (`m < retries`), the waits are
`1000 * 1, ..., 1000 * m` in this order; with `retries = 3` and two failures followed by a
success the waits are `[1000, 2000]`, 3000 ms in total; a first attempt that succeeds is
followed by no wait. -/
theorem retryRequest_waits {σ ε α : Type} (fn : σ → Except ε α × σ) (s : σ) :
    (∀ (retries : Int) (m : Nat) (v : α), (m : Int) < retries →
      (∀ j, j < m → ∃ e, outcomeAt fn s j = .error e) → outcomeAt fn s m = .ok v →
      waits (retryRequest fn retries s).trace =
        (List.range m).map (fun (j : Nat) => 1000 * ((j : Int) + 1))) ∧
    (∀ (e1 e2 : ε) (v : α), outcomeAt fn s 0 = .error e1 → outcomeAt fn s 1 = .error e2 →
      outcomeAt fn s 2 = .ok v →
      waits (retryRequest fn 3 s).trace = [1000, 2000] ∧
      (waits (retryRequest fn 3 s).trace).sum = 3000) ∧
    (∀ (retries : Int) (v : α), 0 < retries → outcomeAt fn s 0 = .ok v →
      waits (retryRequest fn retries s).trace = []) ∧
    (∀ (r : Nat), (∀ j, j < r + 1 → ∃ e, outcomeAt fn s j = .error e) →
      waits (retryRequest fn ((r : Int) + 1) s).trace =
        (List.range r).map (fun (j : Nat) => 1000 * ((j : Int) + 1))) := by
  have key : ∀ (retries : Int) (m : Nat) (v : α), (m : Int) < retries →
      (∀ j, j < m → ∃ e, outcomeAt fn s j = .error e) → outcomeAt fn s m = .ok v →
      waits (retryRequest fn retries s).trace =
        (List.range m).map (fun (j : Nat) => 1000 * ((j : Int) + 1)) := by
    intro retries m v hm hfail hok
    have hrun := retryLoop_success fn retries v m retries.toNat 0 s []
      (by rw [Int.toNat_of_nonneg (by omega)]; ring) (by omega) hfail hok
    have hrun' : retryRequest fn retries s =
        { result := .ok (some v), state := stateAfter fn s (m + 1),
          trace := [] ++ failTrace m 0 ++ [Event.invoke] } := hrun
    rw [hrun']
    simp only [waits_append, waits_failTrace, waits, List.nil_append, List.append_nil]
    apply List.map_congr_left
    intro j _
    ring
  refine ⟨key, ?_, ?_, ?_⟩
  · intro e1 e2 v h1 h2 h3
    have h := key 3 2 v (by norm_num)
      (fun j hj => by
        have hj' : j = 0 ∨ j = 1 := by omega
        rcases hj' with rfl | rfl
        · exact ⟨e1, h1⟩
        · exact ⟨e2, h2⟩)
      h3
    rw [h]
    constructor <;> simp [List.range_succ]
  · intro retries v hpos hok
    have h := key retries 0 v (by simpa using hpos) (fun j hj => absurd hj (Nat.not_lt_zero j)) hok
    simpa using h
  · intro r hfail
    obtain ⟨e, he⟩ := hfail r (Nat.lt_succ_self r)
    have hrun := retryLoop_exhausted fn ((r : Int) + 1) e r 0 s [] (by push_cast; ring)
      (fun j hj => hfail j (by omega)) he
    have htoNat : ((r : Int) + 1).toNat = r + 1 := by omega
    have hrun' : retryRequest fn ((r : Int) + 1) s =
        { result := .error e, state := stateAfter fn s (r + 1),
          trace := [] ++ failTrace r 0 ++ [Event.invoke] } := by
      rw [retryRequest, htoNat]
      exact hrun
    rw [hrun']
    simp only [waits_append, waits_failTrace, waits, List.nil_append, List.append_nil]
    apply List.map_congr_left
    intro j _
    ring

/-- Witness for C3: two failures then a success give the waits 1000 and 2000. -/
theorem retryRequest_waits_witness :
    waits (retryRequest (scripted (α := Nat) "down") 3
        [.error "e1", .error "e2", .ok 42]).trace = [1000, 2000] ∧
    (waits (retryRequest (scripted (α := Nat) "down") 3
        [.error "e1", .error "e2", .ok 42]).trace).sum = 3000 :=
  (retryRequest_waits (scripted (α := Nat) "down")
    [.error "e1", .error "e2", .ok 42]).2.1 "e1" "e2" 42 rfl rfl rfl

/-! ## Claims about `getRecentBooks` -/

/-- C4 (counterexample): a record with a title, no cover id and an `author_name` list that
contains no name is not excluded: `getRecentBooks` returns a book for it. -/
theorem getRecentBooks_keeps_titled_record_without_author_names :
    fieldOf titledNoAuthorNames "title" = .str "X" ∧
    fieldOf titledNoAuthorNames "cover_i" = .undefined ∧
    fieldOf titledNoAuthorNames "author_name" = .arr [] ∧
    (getRecentBooks
        (constUpstream (.obj [("docs", .arr [titledNoAuthorNames]), ("numFound", .num 1)]))
        (.num 10) 0).result =
      .ok (some
        { docs := [{ id := .str "OL1W", title := .str "X", authors := .arr [],
                     cover_id := .undefined, year := .undefined, subjects := .arr [] }],
          numFound := 1, total := .num 1 }) := by
  decide

/-- C4 (amended): when the upstream answers with a `docs` array none of whose records is
`undefined` or `null` and in which every record passing the filter has a string key,
`getRecentBooks` returns, and its docs are exactly the transformed records, in upstream
order, whose `title` is truthy and whose `cover_i` or `author_name` is truthy. Truthiness is
the JavaScript one: every list is truthy, so a record with a truthy title and an
`author_name` list is kept even when the list is empty, while a record with no truthy
`author_name` and no truthy `cover_i`, and a record with no truthy title, are dropped. -/
theorem getRecentBooks_docs_are_truthy_filtered {σ : Type}
    (upstream : Request → σ → Except Thrown JsVal × σ) (limit : JsVal) (s s' : σ)
    (data : JsVal) (docs : List JsVal)
    (hresp : upstream (recentRequest limit) s = (.ok data, s'))
    (hdocs : getProp data "docs" = .ok (.arr docs))
    (hrec : ∀ b ∈ docs, b ≠ .undefined ∧ b ≠ .null)
    (hkey : ∀ b ∈ docs, keptByRecent b = true → ∃ k, fieldOf b "key" = .str k) :
    (∃ r, (getRecentBooks upstream limit s).result = .ok (some r) ∧
      List.Forall₂ (fun b book => toBook b = .ok book)
        (docs.filter (fun b => truthy (fieldOf b "title") &&
          (truthy (fieldOf b "cover_i") || truthy (fieldOf b "author_name")))) r.docs) ∧
    (∀ (b : JsVal) (names : List JsVal), truthy (fieldOf b "title") = true →
      fieldOf b "author_name" = .arr names → keptByRecent b = true) ∧
    (∀ b : JsVal, truthy (fieldOf b "cover_i") = false →
      truthy (fieldOf b "author_name") = false → keptByRecent b = false) ∧
    (∀ b : JsVal, truthy (fieldOf b "title") = false → keptByRecent b = false) := by
  refine ⟨?_, ?_, ?_, ?_⟩
  · obtain ⟨r, hr, hall, _, _⟩ := transformRecent_ok hdocs hrec hkey
    refine ⟨r, ?_, hall⟩
    rw [getRecentBooks_first_attempt upstream limit s s' data r hresp hr]
  · intro b names ht hn
    have harr : truthy (.arr names) = true := rfl
    rw [keptByRecent, ht, hn, harr]
    simp
  · intro b hc hn
    simp [keptByRecent, hc, hn]
  · intro b ht
    simp [keptByRecent, ht]

/-- Witness for C4 (amended): a listing of three records of which one has no title. -/
theorem getRecentBooks_docs_are_truthy_filtered_witness :
    ∃ r, (getRecentBooks
        (constUpstream (.obj [("docs", .arr [completeRecord, untitledRecord,
          titledNoAuthorNames]), ("numFound", .num 3)])) (.num 10) 0).result = .ok (some r) ∧
      List.Forall₂ (fun b book => toBook b = .ok book)
        ([completeRecord, untitledRecord, titledNoAuthorNames].filter
          (fun b => truthy (fieldOf b "title") &&
            (truthy (fieldOf b "cover_i") || truthy (fieldOf b "author_name")))) r.docs :=
  (getRecentBooks_docs_are_truthy_filtered
    (constUpstream (.obj [("docs", .arr [completeRecord, untitledRecord,
      titledNoAuthorNames]), ("numFound", .num 3)])) (.num 10) 0 1 _
    [completeRecord, untitledRecord, titledNoAuthorNames] rfl rfl
    (by decide)
    (fun b hb _ => by
      simp only [List.mem_cons, List.mem_singleton, List.not_mem_nil, or_false] at hb
      rcases hb with rfl | rfl | rfl
      · exact ⟨"/works/OL5W", rfl⟩
      · exact ⟨"/works/OL2W", rfl⟩
      · exact ⟨"/works/OL1W", rfl⟩)).1

/-- C5: for an upstream response `{docs, numFound}` none of whose records is `undefined` or
`null` and in which every record passing the filter has a string key, `getRecentBooks`
returns a result whose `total` is the upstream `numFound`, whatever the filter dropped,
whose `numFound` is the length of the returned docs, and whose docs are no more than the
upstream docs. -/
theorem getRecentBooks_total_and_numFound {σ : Type}
    (upstream : Request → σ → Except Thrown JsVal × σ) (limit : JsVal) (s s' : σ)
    (data : JsVal) (docs : List JsVal)
    (hresp : upstream (recentRequest limit) s = (.ok data, s'))
    (hdocs : getProp data "docs" = .ok (.arr docs))
    (hrec : ∀ b ∈ docs, b ≠ .undefined ∧ b ≠ .null)
    (hkey : ∀ b ∈ docs, keptByRecent b = true → ∃ k, fieldOf b "key" = .str k) :
    ∃ r, (getRecentBooks upstream limit s).result = .ok (some r) ∧
      r.total = fieldOf data "numFound" ∧
      r.numFound = r.docs.length ∧
      r.docs.length = (docs.filter keptByRecent).length ∧
      r.docs.length ≤ docs.length := by
  obtain ⟨r, hr, hall, hnum, htotal⟩ := transformRecent_ok hdocs hrec hkey
  refine ⟨r, ?_, htotal, hnum, hall.length_eq.symm,
    forall₂_length_le_of_filter _ keptByRecent docs r.docs hall⟩
  rw [getRecentBooks_first_attempt upstream limit s s' data r hresp hr]

/-- Witness for C5: upstream reports 57 matches and sends three records, one of which the
filter drops: `total` is 57 while `numFound` is 2. -/
theorem getRecentBooks_total_and_numFound_witness :
    ∃ r, (getRecentBooks
        (constUpstream (.obj [("docs", .arr [completeRecord, untitledRecord,
          titledNoAuthorNames]), ("numFound", .num 57)])) (.num 10) 0).result = .ok (some r) ∧
      r.total = .num 57 ∧ r.numFound = r.docs.length ∧ r.docs.length = 2 ∧ r.docs.length ≤ 3 :=
  getRecentBooks_total_and_numFound
    (constUpstream (.obj [("docs", .arr [completeRecord, untitledRecord,
      titledNoAuthorNames]), ("numFound", .num 57)])) (.num 10) 0 1 _
    [completeRecord, untitledRecord, titledNoAuthorNames] rfl rfl
    (by decide)
    (fun b hb _ => by
      simp only [List.mem_cons, List.mem_singleton, List.not_mem_nil, or_false] at hb
      rcases hb with rfl | rfl | rfl
      · exact ⟨"/works/OL5W", rfl⟩
      · exact ⟨"/works/OL2W", rfl⟩
      · exact ⟨"/works/OL1W", rfl⟩)

/-- C6: for every record whose key is a string, the book made by `getRecentBooks` has as id
the part of the key after its last slash (the whole key when it has no slash), so the id
contains no slash; the keys `/works/OL5W` and `/works/OL12345W` give the ids `OL5W` and
`OL12345W`. -/
theorem toBook_id_is_last_segment :
    (∀ (b : JsVal) (k : String), fieldOf b "key" = .str k →
      ∃ book idStr, toBook b = .ok book ∧ book.id = .str idStr ∧ '/' ∉ idStr.data ∧
        (('/' ∉ k.data ∧ idStr = k) ∨ ∃ pre, k.data = pre ++ '/' :: idStr.data)) ∧
    (∀ b : JsVal, fieldOf b "key" = .str "/works/OL5W" →
      (toBook b).map (fun book => book.id) = .ok (.str "OL5W")) ∧
    (∀ b : JsVal, fieldOf b "key" = .str "/works/OL12345W" →
      (toBook b).map (fun book => book.id) = .ok (.str "OL12345W")) := by
  refine ⟨?_, ?_, ?_⟩
  · intro b k hk
    obtain ⟨seg, hlast, hnot, hdisj⟩ := splitOnChar_getLast '/' k.data
    refine ⟨_, String.mk seg, toBook_of_key hk, ?_, hnot, ?_⟩
    · simp only [splitPop, hlast]
    · rcases hdisj with ⟨hmem, hseg⟩ | ⟨pre, hpre⟩
      · exact Or.inl ⟨hmem, by rw [hseg]⟩
      · exact Or.inr ⟨pre, hpre⟩
  · intro b hk
    rw [toBook_of_key hk]
    rfl
  · intro b hk
    rw [toBook_of_key hk]
    rfl

/-- Witness for C6: the record with key `/works/OL5W`. -/
theorem toBook_id_is_last_segment_witness :
    (toBook completeRecord).map (fun book => book.id) = .ok (.str "OL5W") :=
  toBook_id_is_last_segment.2.1 completeRecord rfl

/-! ## Claims about the listing mapping of `HomeScreen` -/

/-- C7 (counterexample): for the subject list `['Gothic Horror Fiction']` the category
assigned is the subject tag `Gothic Horror Fiction` itself, which is not the label `Horror`
and is none of the entries of `categories`. -/
theorem toListedBook_category_is_not_a_label :
    (toListedBook "0.42" (.obj [("key", .str "/works/OL9W"), ("title", .str "Carmilla"),
        ("subject_key", .arr [.str "Gothic Horror Fiction"])])).map (fun b => b.category) =
      .ok (.str "Gothic Horror Fiction") ∧
    JsVal.str "Gothic Horror Fiction" ≠ .str "Horror" ∧
    "Gothic Horror Fiction" ∉ categories := by
  decide

/-- C7 (amended): for every record whose subject tags are strings of which at least one
includes, case-insensitively, one of the labels Novel, Science, Romance, Horror, Comedy, the
category assigned by the listing mapping is the first such subject tag itself (not the
label); the category therefore includes one of the five labels case-insensitively. -/
theorem toListedBook_category_is_first_matching_tag (rnd : String)
    (fs : List (String × JsVal)) (subjects : List String)
    (hsubj : lookupField "subject_key" fs = .arr (subjects.map JsVal.str))
    (hmatch : ∃ t ∈ subjects, ∃ cat ∈ categories.drop 1,
      (toLowerCase cat).data <:+: (toLowerCase t).data) :
    ∃ t, (toListedBook rnd (.obj fs)).map (fun b => b.category) = .ok (.str t) ∧
      subjects.find? subjectMatches = some t ∧ t ∈ subjects ∧
      (∃ cat ∈ categories.drop 1, (toLowerCase cat).data <:+: (toLowerCase t).data) ∧
      (∀ u, subjectMatches u = true ↔
        ∃ cat ∈ categories.drop 1, (toLowerCase cat).data <:+: (toLowerCase u).data) := by
  obtain ⟨t0, ht0, hcat0⟩ := hmatch
  have hsome : (subjects.find? subjectMatches).isSome = true := by
    rw [List.find?_isSome]
    exact ⟨t0, ht0, (subjectMatches_iff t0).mpr hcat0⟩
  obtain ⟨t, ht⟩ := Option.isSome_iff_exists.mp hsome
  have hprop : subjectMatches t = true := by
    have := List.find?_some ht
    simpa using this
  have hne : t ≠ "" := subjectMatches_ne_empty hprop
  refine ⟨t, ?_, ht, List.mem_of_find?_eq_some ht, (subjectMatches_iff t).mp hprop,
    subjectMatches_iff⟩
  rw [toListedBook_category, hsubj, categoryOfSubjects_strs, ht]
  simp [jsOr, truthy, hne]

/-- Witness for C7 (amended): the tags Cooking and Gothic Horror Fiction give the category
Gothic Horror Fiction. -/
theorem toListedBook_category_is_first_matching_tag_witness :
    ∃ t, (toListedBook "0.42" (.obj [("key", .str "/works/OL9W"),
        ("subject_key", .arr [.str "Cooking", .str "Gothic Horror Fiction"])])).map
          (fun b => b.category) = .ok (.str t) ∧
      ["Cooking", "Gothic Horror Fiction"].find? subjectMatches = some t :=
  have h := toListedBook_category_is_first_matching_tag "0.42"
    [("key", .str "/works/OL9W"),
      ("subject_key", .arr [.str "Cooking", .str "Gothic Horror Fiction"])]
    ["Cooking", "Gothic Horror Fiction"] rfl
    ⟨"Gothic Horror Fiction", by decide,
      (subjectMatches_iff "Gothic Horror Fiction").mp (by decide)⟩
  h.imp (fun _ ht => ⟨ht.1, ht.2.1⟩)

/-- C8: for every record whose `subject_key` is absent (or otherwise falsy), or is a list of
strings, possibly empty, none of which includes one of the five labels case-insensitively,
the category assigned by the listing mapping is exactly `Novel`; the subject list
`['Cooking']` is assigned `Novel`. -/
theorem toListedBook_category_defaults_to_novel (rnd : String) (fs : List (String × JsVal)) :
    (truthy (lookupField "subject_key" fs) = false →
      (toListedBook rnd (.obj fs)).map (fun b => b.category) = .ok (.str "Novel")) ∧
    (∀ subjects : List String, lookupField "subject_key" fs = .arr (subjects.map JsVal.str) →
      (∀ t ∈ subjects, ∀ cat ∈ categories.drop 1,
        ¬ (toLowerCase cat).data <:+: (toLowerCase t).data) →
      (toListedBook rnd (.obj fs)).map (fun b => b.category) = .ok (.str "Novel")) ∧
    (lookupField "subject_key" fs = .arr [] →
      (toListedBook rnd (.obj fs)).map (fun b => b.category) = .ok (.str "Novel")) ∧
    (lookupField "subject_key" fs = .arr [.str "Cooking"] →
      (toListedBook rnd (.obj fs)).map (fun b => b.category) = .ok (.str "Novel")) := by
  have general : ∀ subjects : List String,
      lookupField "subject_key" fs = .arr (subjects.map JsVal.str) →
      (∀ t ∈ subjects, subjectMatches t = false) →
      (toListedBook rnd (.obj fs)).map (fun b => b.category) = .ok (.str "Novel") := by
    intro subjects hsubj hnone
    have hfind : subjects.find? subjectMatches = none := by
      rw [List.find?_eq_none]
      intro t ht
      simp [hnone t ht]
    rw [toListedBook_category, hsubj, categoryOfSubjects_strs, hfind]
    rfl
  refine ⟨?_, ?_, ?_, ?_⟩
  · intro hfalsy
    rw [toListedBook_category]
    simp only [categoryOfSubjects, hfalsy]
    rfl
  · intro subjects hsubj hnone
    refine general subjects hsubj (fun t ht => ?_)
    cases hm : subjectMatches t
    · rfl
    · obtain ⟨cat, hcat, hinf⟩ := (subjectMatches_iff t).mp hm
      exact absurd hinf (hnone t ht cat hcat)
  · intro hsubj
    exact general [] hsubj (fun t ht => absurd ht (List.not_mem_nil t))
  · intro hsubj
    refine general ["Cooking"] hsubj (fun t ht => ?_)
    rw [List.mem_singleton] at ht
    subst ht
    decide

/-- Witness for C8: a record without subject tags. -/
theorem toListedBook_category_defaults_to_novel_witness :
    (toListedBook "0.42" (.obj [("key", .str "/works/OL3W"), ("title", .str "Soup")])).map
      (fun b => b.category) = .ok (.str "Novel") :=
  (toListedBook_category_defaults_to_novel "0.42"
    [("key", .str "/works/OL3W"), ("title", .str "Soup")]).1 rfl

/-! ## Claims about the merge of `getBookDetails` -/

/-- C9 (counterexample): a work whose description is present but is the empty string, with a
`first_publish_date`, and whose first edition has the description `E`: the detail returned by
`getBookDetails` has the description of the edition, which so overrides the value that the
work holds. -/
theorem getBookDetails_edition_overrides_falsy_work_value :
    (bookService.getBookDetails (fun _ => none)
        (workThenEditions emptyDescriptionWork describedEditions) "OL1W" 0).1.map
          (fun r => fieldOf r "description") = .ok (.str "E") ∧
    hasField "description" (ownEntries emptyDescriptionWork) = true ∧
    fieldOf emptyDescriptionWork "description" = .str "" := by
  decide

/-- C9 (amended): for every work record answered by the work request, the detail returned by
`getBookDetails` resolves the four keys as follows. When the work has no truthy
`first_publish_date` no edition is asked for: `description`, `authors` and `subjects` are
the work's value if it is truthy and else the default (`No description available.`, the
empty list, the empty list), and `first_publish_date` is `undefined`. When the work has a
truthy `first_publish_date` and the editions request gives an edition record, each of
`description`, `authors` and `subjects` is the work's value if it is truthy, else the
edition's value of the same key if it is truthy, else the default, and `first_publish_date`
is the work's value: a truthy work value on one of the four keys is the value of the result
whatever the edition holds, whereas on every other key (the records having distinct keys) the
value of the edition, spread over the work, is the one returned when the edition has the key.
When the editions request fails the keys are resolved as with an edition without fields. -/
theorem getBookDetails_per_field_fallback {σ : Type} (other : JsVal → Option Int)
    (upstream : Request → σ → Except Thrown JsVal × σ) (bookId : String) (s s1 : σ)
    (wfs : List (String × JsVal))
    (hwork : upstream (bookService.workRequest bookId) s = (.ok (.obj wfs), s1)) :
    (truthy (lookupField "first_publish_date" wfs) = false →
      ∃ r, bookService.getBookDetails other upstream bookId s = (.ok (.obj r), s1) ∧
        lookupField "description" r =
          (if truthy (lookupField "description" wfs) then lookupField "description" wfs
           else .str "No description available.") ∧
        lookupField "authors" r =
          (if truthy (lookupField "authors" wfs) then lookupField "authors" wfs
           else .arr []) ∧
        lookupField "subjects" r =
          (if truthy (lookupField "subjects" wfs) then lookupField "subjects" wfs
           else .arr []) ∧
        lookupField "first_publish_date" r = .undefined) ∧
    (truthy (lookupField "first_publish_date" wfs) = true →
      ∀ (data : JsVal) (s2 : σ) (efs : List (String × JsVal)),
        upstream (bookService.editionsRequest bookId) s1 = (.ok data, s2) →
        bookService.editionOf other data = .obj efs →
        ∃ r, bookService.getBookDetails other upstream bookId s = (.ok (.obj r), s2) ∧
          lookupField "description" r =
            (if truthy (lookupField "description" wfs) then lookupField "description" wfs
             else if truthy (lookupField "description" efs) then lookupField "description" efs
             else .str "No description available.") ∧
          lookupField "authors" r =
            (if truthy (lookupField "authors" wfs) then lookupField "authors" wfs
             else if truthy (lookupField "authors" efs) then lookupField "authors" efs
             else .arr []) ∧
          lookupField "subjects" r =
            (if truthy (lookupField "subjects" wfs) then lookupField "subjects" wfs
             else if truthy (lookupField "subjects" efs) then lookupField "subjects" efs
             else .arr []) ∧
          lookupField "first_publish_date" r = lookupField "first_publish_date" wfs ∧
          (∀ k ∈ ["description", "authors", "subjects", "first_publish_date"],
            truthy (lookupField k wfs) = true → lookupField k r = lookupField k wfs) ∧
          ((wfs.map Prod.fst).Nodup → (efs.map Prod.fst).Nodup →
            ∀ k, k ∉ ["description", "authors", "subjects", "first_publish_date"] →
              lookupField k r =
                (if hasField k efs then lookupField k efs else lookupField k wfs))) ∧
    (truthy (lookupField "first_publish_date" wfs) = true →
      ∀ (e : Thrown) (s2 : σ),
        upstream (bookService.editionsRequest bookId) s1 = (.error e, s2) →
        ∃ r, bookService.getBookDetails other upstream bookId s = (.ok (.obj r), s2) ∧
          lookupField "description" r =
            (if truthy (lookupField "description" wfs) then lookupField "description" wfs
             else .str "No description available.") ∧
          lookupField "authors" r =
            (if truthy (lookupField "authors" wfs) then lookupField "authors" wfs
             else .arr []) ∧
          lookupField "subjects" r =
            (if truthy (lookupField "subjects" wfs) then lookupField "subjects" wfs
             else .arr []) ∧
          lookupField "first_publish_date" r = lookupField "first_publish_date" wfs) := by
  have ht : truthy (JsVal.obj wfs) = true := rfl
  have hempty : ∀ k d, lookupField k wfs = fieldOf (.obj wfs) k ∧
      jsOr (orFields (.obj wfs) (.obj []) k k) d =
        (if truthy (lookupField k wfs) then lookupField k wfs else d) := by
    intro k d
    refine ⟨rfl, ?_⟩
    rw [jsOr_orFields_empty]
    rfl
  refine ⟨?_, ?_, ?_⟩
  · intro hdate
    refine ⟨mergedFields (.obj wfs) (.obj []),
      getBookDetails_without_date other upstream bookId s s1 (.obj wfs) hwork ht hdate,
      ?_, ?_, ?_, ?_⟩
    · rw [lookup_mergedFields_description, (hempty _ _).2]
    · rw [lookup_mergedFields_authors, (hempty _ _).2]
    · rw [lookup_mergedFields_subjects, (hempty _ _).2]
    · rw [lookup_mergedFields_date, orFields_empty_edition]
      show (if truthy (lookupField "first_publish_date" wfs) = true then _ else _) = _
      rw [if_neg (by simp [hdate])]
  · intro hdate data s2 efs hed hedition
    have hfield : ∀ k d, lookupField k wfs = fieldOf (.obj wfs) k ∧
        jsOr (orFields (.obj wfs) (.obj efs) k k) d =
          (if truthy (lookupField k wfs) then lookupField k wfs
           else if truthy (lookupField k efs) then lookupField k efs else d) := by
      intro k d
      exact ⟨rfl, jsOr_ite _ _ _⟩
    have hfpd : lookupField "first_publish_date" (mergedFields (.obj wfs) (.obj efs)) =
        lookupField "first_publish_date" wfs := by
      rw [lookup_mergedFields_date]
      show (if truthy (lookupField "first_publish_date" wfs) = true then _ else _) = _
      rw [if_pos hdate]
      rfl
    refine ⟨mergedFields (.obj wfs) (.obj efs), ?_, ?_, ?_, ?_, hfpd, ?_, ?_⟩
    · rw [getBookDetails_editions_answered other upstream bookId s s1 s2 (.obj wfs) data hwork
        ht hdate hed, hedition, mergeDetails_of_ne ⟨by simp, by simp⟩ ⟨by simp, by simp⟩]
    · rw [lookup_mergedFields_description, (hfield _ _).2]
    · rw [lookup_mergedFields_authors, (hfield _ _).2]
    · rw [lookup_mergedFields_subjects, (hfield _ _).2]
    · intro k hk hw
      simp only [List.mem_cons, List.mem_singleton, List.not_mem_nil, or_false] at hk
      rcases hk with rfl | rfl | rfl | rfl
      · rw [lookup_mergedFields_description, (hfield _ _).2, if_pos hw]
      · rw [lookup_mergedFields_authors, (hfield _ _).2, if_pos hw]
      · rw [lookup_mergedFields_subjects, (hfield _ _).2, if_pos hw]
      · exact hfpd
    · intro hwnd hend k hk
      rw [lookup_mergedFields_other _ _ hk, lookupField_spreadInto_obj _ _ _ hend,
        spreadInto_nil_obj hwnd]
  · intro hdate e s2 hed
    refine ⟨mergedFields (.obj wfs) (.obj []),
      getBookDetails_editions_failed other upstream bookId s s1 s2 (.obj wfs) e hwork ht hdate
        hed, ?_, ?_, ?_, ?_⟩
    · rw [lookup_mergedFields_description, (hempty _ _).2]
    · rw [lookup_mergedFields_authors, (hempty _ _).2]
    · rw [lookup_mergedFields_subjects, (hempty _ _).2]
    · rw [lookup_mergedFields_date, orFields_empty_edition]
      show (if truthy (lookupField "first_publish_date" wfs) = true then _ else _) = _
      rw [if_pos hdate]
      rfl

/-- Witness for C9 (amended): a work with a description and a `first_publish_date`, whose
first edition has another description. -/
theorem getBookDetails_per_field_fallback_witness :
    ∃ r, bookService.getBookDetails (fun _ => none)
        (workThenEditions describedWork describedEditions) "OL1W" 0 = (.ok (.obj r), 2) ∧
      lookupField "description" r = .str "W" ∧
      lookupField "publish_date" r = .str "1999" :=
  ((getBookDetails_per_field_fallback (fun _ => none)
    (workThenEditions describedWork describedEditions) "OL1W" 0 1
    [("title", .str "T"), ("description", .str "W"), ("first_publish_date", .str "1965")]
    rfl).2.1 rfl describedEditions 2
    [("description", .str "E"), ("publish_date", .str "1999")] rfl rfl).imp
    (fun _ h => ⟨h.1, h.2.2.2.2.2.1 "description" (by decide) rfl,
      h.2.2.2.2.2.2 (by decide) (by decide) "publish_date" (by decide)⟩)

/-! ## Claims about the route `/search` -/

/-- C10 (counterexample): a request whose query text consists of whitespace only is not
answered with 400: `searchBooks` is called once with that text and the answer is 200. -/
theorem searchRoute_whitespace_query_is_searched :
    (searchRoute id (constUpstream (.obj [("docs", .arr []), ("numFound", .num 0)]))
        [("query", .str "   ")] 0).response.status = 200 ∧
    (searchRoute id (constUpstream (.obj [("docs", .arr []), ("numFound", .num 0)]))
        [("query", .str "   ")] 0).response.success = true ∧
    (searchRoute id (constUpstream (.obj [("docs", .arr []), ("numFound", .num 0)]))
        [("query", .str "   ")] 0).searchCalls = [(.str "   ", .num 1, .num 20)] := by
  decide

/-- C10 (amended): for every request to `/search` whose query text is missing or empty (or
any other falsy value), the route answers 400 with `success = false` and calls `searchBooks`
zero times, leaving the world untouched; for every non-empty query text, whitespace-only
text included, `searchBooks` is called exactly once with that text and the answer is 200 or
500, never 400. -/
theorem searchRoute_rejects_only_falsy_query {σ : Type} (parseInt : JsVal → JsVal)
    (upstream : Request → σ → Except Thrown JsVal × σ)
    (reqQuery : List (String × JsVal)) (s : σ) :
    (truthy (lookupField "query" reqQuery) = false →
      (searchRoute parseInt upstream reqQuery s).response =
        { status := 400, success := false, error := some "Query parameter is required" } ∧
      (searchRoute parseInt upstream reqQuery s).searchCalls = [] ∧
      (searchRoute parseInt upstream reqQuery s).state = s) ∧
    (lookupField "query" reqQuery = .undefined ∨ lookupField "query" reqQuery = .str "" →
      (searchRoute parseInt upstream reqQuery s).response.status = 400 ∧
      (searchRoute parseInt upstream reqQuery s).response.success = false ∧
      (searchRoute parseInt upstream reqQuery s).searchCalls = []) ∧
    (∀ text : String, lookupField "query" reqQuery = .str text → text ≠ "" →
      (searchRoute parseInt upstream reqQuery s).searchCalls.length = 1 ∧
      (∀ c ∈ (searchRoute parseInt upstream reqQuery s).searchCalls, c.1 = .str text) ∧
      ((searchRoute parseInt upstream reqQuery s).response.status = 200 ∨
        (searchRoute parseInt upstream reqQuery s).response.status = 500)) := by
  refine ⟨?_, ?_, ?_⟩
  · intro h
    simp [searchRoute, h]
  · intro h
    have hf : truthy (lookupField "query" reqQuery) = false := by
      rcases h with h | h <;> rw [h] <;> rfl
    simp [searchRoute, hf]
  · intro text htext hne
    have ht : truthy (lookupField "query" reqQuery) = true := by
      rw [htext]
      simp [truthy, hne]
    simp only [searchRoute, ht, if_true]
    rcases searchBooks upstream (lookupField "query" reqQuery)
        (parseInt (defaultTo (lookupField "page" reqQuery) (.num 1)))
        (parseInt (defaultTo (lookupField "limit" reqQuery) (.num 20))) s with ⟨out, s'⟩
    cases out <;> simp [htext]

/-- Witness for C10 (amended): a request without a query parameter. -/
theorem searchRoute_rejects_only_falsy_query_witness :
    (searchRoute id (constUpstream (.obj [("docs", .arr [])])) [("page", .str "2")] 0).response =
        { status := 400, success := false, error := some "Query parameter is required" } ∧
    (searchRoute id (constUpstream (.obj [("docs", .arr [])])) [("page", .str "2")]
        0).searchCalls = [] ∧
    (searchRoute id (constUpstream (.obj [("docs", .arr [])])) [("page", .str "2")] 0).state = 0 :=
  (searchRoute_rejects_only_falsy_query id (constUpstream (.obj [("docs", .arr [])]))
    [("page", .str "2")] 0).1 rfl

/-! ## Claims about the route `/details/:olid` -/

/-- C11 (counterexample): an upstream 404 on the detail lookup is answered with HTTP 500 and
the error text `Failed to fetch book details`, exactly the status, success flag, error text
and data of the answer to an upstream 503 or to a timeout. -/
theorem detailsRoute_404_answered_as_generic_500 :
    (detailsRoute (failingUpstream (httpError 404)) "OL1W" 0).1.status = 500 ∧
    (detailsRoute (failingUpstream (httpError 404)) "OL1W" 0).1.error =
      some "Failed to fetch book details" ∧
    (detailsRoute (failingUpstream (httpError 503)) "OL1W" 0).1.status = 500 ∧
    (detailsRoute (failingUpstream (httpError 503)) "OL1W" 0).1.error =
      some "Failed to fetch book details" ∧
    (detailsRoute (failingUpstream timeoutError) "OL1W" 0).1.status = 500 ∧
    (detailsRoute (failingUpstream timeoutError) "OL1W" 0).1.error =
      some "Failed to fetch book details" ∧
    (detailsRoute (failingUpstream (httpError 404)) "OL1W" 0).1.success =
      (detailsRoute (failingUpstream timeoutError) "OL1W" 0).1.success ∧
    (detailsRoute (failingUpstream (httpError 404)) "OL1W" 0).1.data =
      (detailsRoute (failingUpstream timeoutError) "OL1W" 0).1.data := by
  decide

/-- C11 (amended): for the detail lookup every upstream failure, a 404 included, yields the
same outcome: HTTP 500 with `success = false`, the error text `Failed to fetch book details`
and the message of the upstream error; the HTTP status of the upstream answer is not looked
at, so two failures with the same message get the same answer whatever their status. -/
theorem detailsRoute_failure_is_always_500 {σ : Type}
    (upstream : Request → σ → Except Thrown JsVal × σ) (olid : String) (s : σ) :
    (∀ (e : Thrown) (s' : σ), upstream (detailsRequest olid) s = (.error e, s') →
      detailsRoute upstream olid s =
        ({ status := 500, success := false, error := some "Failed to fetch book details",
           message := some e.message }, s')) ∧
    (∀ (upstream' : Request → σ → Except Thrown JsVal × σ) (e e' : Thrown) (s1 s2 : σ),
      upstream (detailsRequest olid) s = (.error e, s1) →
      upstream' (detailsRequest olid) s = (.error e', s2) →
      e.message = e'.message →
      (detailsRoute upstream olid s).1 = (detailsRoute upstream' olid s).1) := by
  have h500 : ∀ (up : Request → σ → Except Thrown JsVal × σ) (e : Thrown) (s' : σ),
      up (detailsRequest olid) s = (.error e, s') →
      detailsRoute up olid s =
        ({ status := 500, success := false, error := some "Failed to fetch book details",
           message := some e.message }, s') := by
    intro up e s' h
    simp only [detailsRoute, getBookDetails, h]
  refine ⟨h500 upstream, ?_⟩
  intro upstream' e e' s1 s2 h1 h2 hmsg
  rw [h500 upstream e s1 h1, h500 upstream' e' s2 h2, hmsg]

/-- Witness for C11 (amended): an upstream 404. -/
theorem detailsRoute_failure_is_always_500_witness :
    detailsRoute (failingUpstream (httpError 404)) "OL1W" 0 =
      ({ status := 500, success := false, error := some "Failed to fetch book details",
         message := some (httpError 404).message }, 1) :=
  (detailsRoute_failure_is_always_500 (failingUpstream (httpError 404)) "OL1W" 0).1
    (httpError 404) 1 rfl

/-! ## Claims about the new arrivals of `HomeScreen` -/

/-- C12 (counterexample): in the calendar year 2026 a book first published in 2024 is among
the new arrivals computed by `fetchBooks`, while no book of the list has a first publish
year of 2026 or later. -/
theorem newArrivals_ignores_current_year :
    newArrivals (fun _ => none) [listedWithYear "/works/OL1W" (.num 2024)] =
      [listedWithYear "/works/OL1W" (.num 2024)] ∧
    newArrivalsOfYear 2026 [listedWithYear "/works/OL1W" (.num 2024)] = [] ∧
    newArrivals (fun _ => none) [listedWithYear "/works/OL1W" (.num 2024)] ≠
      newArrivalsOfYear 2026 [listedWithYear "/works/OL1W" (.num 2024)] := by
  decide

/-- C12 (amended): for every list of recent books, whatever the current calendar year, the
new-arrivals list computed by `fetchBooks` is the first 10, in upstream order, of the books
whose first publish year is at least the constant 2024 (books with no year are left out);
it has at most 10 entries and is an order-preserving sub-list of the recent books. -/
theorem newArrivals_threshold_2024 (other : JsVal → Option Int) (books : List ListedBook) :
    ((∀ b ∈ books, (∃ n, b.first_publish_year = .num n) ∨ b.first_publish_year = .undefined) →
      newArrivals other books = newArrivalsOfYear 2024 books) ∧
    (newArrivals other books).length ≤ 10 ∧
    List.Sublist (newArrivals other books) books ∧
    (∀ b ∈ newArrivals other books, geNumber other b.first_publish_year 2024 = true) ∧
    (∀ b ∈ newArrivals other books, b.first_publish_year ≠ .undefined) ∧
    (∀ (rnd : Nat → String) (response : JsVal) (listed : List ListedBook),
      listedDocs rnd { name := "Error", message := "Invalid response from API" } response =
        .ok listed →
      (fetchBooks other rnd (.ok response)).newArrivals = newArrivals other listed ∧
      (fetchBooks other rnd (.ok response)).books = listed) := by
  refine ⟨?_, ?_, ?_, ?_, ?_, ?_⟩
  · intro hyears
    simp only [newArrivals, newArrivalsOfYear]
    congr 1
    apply List.filter_congr
    intro b hb
    rcases hyears b hb with ⟨n, hn⟩ | hu
    · simp [hn, geNumber, toNumber]
    · simp [hu, geNumber, toNumber]
  · simp [newArrivals, List.length_take]
  · exact (List.take_sublist _ _).trans (List.filter_sublist _)
  · intro b hb
    have hmem := List.mem_of_mem_take hb
    exact (List.mem_filter.mp hmem).2
  · intro b hb hu
    have hmem := List.mem_of_mem_take hb
    have hge := (List.mem_filter.mp hmem).2
    simp [hu, geNumber, toNumber] at hge
  · intro rnd response listed h
    simp only [fetchBooks, h, and_self]

/-- Witness for C12 (amended): books of 2025, 2023 and of no year; only the first is a new
arrival. -/
theorem newArrivals_threshold_2024_witness :
    newArrivals (fun _ => none)
        [listedWithYear "/works/OL1W" (.num 2025), listedWithYear "/works/OL2W" (.num 2023),
          listedWithYear "/works/OL3W" .undefined] =
      newArrivalsOfYear 2024
        [listedWithYear "/works/OL1W" (.num 2025), listedWithYear "/works/OL2W" (.num 2023),
          listedWithYear "/works/OL3W" .undefined] :=
  (newArrivals_threshold_2024 (fun _ => none)
    [listedWithYear "/works/OL1W" (.num 2025), listedWithYear "/works/OL2W" (.num 2023),
      listedWithYear "/works/OL3W" .undefined]).1
    (by
      intro b hb
      simp only [List.mem_cons, List.mem_singleton, List.not_mem_nil, or_false] at hb
      rcases hb with rfl | rfl | rfl
      · exact Or.inl ⟨2025, rfl⟩
      · exact Or.inl ⟨2023, rfl⟩
      · exact Or.inr rfl)

/-! ## Claims about the authors of the normalised books -/

/-- C13 (counterexample): for a record whose `author_name` is present but is an empty list,
both normalisers produce a book whose authors are the empty list. -/
theorem authors_empty_for_empty_author_name :
    (toBook titledNoAuthorNames).map (fun book => book.authors) = .ok (.arr []) ∧
    (toListedBook "0.42" titledNoAuthorNames).map (fun book => book.authors) = .ok (.arr []) := by
  decide

/-- C13 (amended): for every raw record whose `author_name` is absent or is a list, the
authors of the book produced by the normalisers (`getRecentBooks` on a record with a string
key, the mapping of `HomeScreen` on a record with plain subject tags) is a list, and that
list is empty exactly when `author_name` is present and is the empty list; for every other
such record it is non-empty. -/
theorem authors_nonempty_unless_empty_author_name (b : JsVal)
    (hnames : fieldOf b "author_name" = .undefined ∨
      ∃ names, fieldOf b "author_name" = .arr names) :
    (∀ k : String, fieldOf b "key" = .str k →
      ∃ book xs, toBook b = .ok book ∧ book.authors = .arr xs ∧
        (xs = [] ↔ fieldOf b "author_name" = .arr [])) ∧
    (∀ (rnd : String) (fs : List (String × JsVal)), b = .obj fs → plainSubjects b →
      ∃ book xs, toListedBook rnd b = .ok book ∧ book.authors = .arr xs ∧
        (xs = [] ↔ fieldOf b "author_name" = .arr [])) := by
  have key : ∃ xs, jsOr (fieldOf b "author_name") (.arr [.str "Unknown Author"]) = .arr xs ∧
      (xs = [] ↔ fieldOf b "author_name" = .arr []) := by
    rcases hnames with hu | ⟨names, hn⟩
    · exact ⟨[.str "Unknown Author"], by rw [hu]; rfl, by simp [hu]⟩
    · exact ⟨names, by rw [hn]; rfl, by simp [hn]⟩
  obtain ⟨xs, hxs, hiff⟩ := key
  refine ⟨?_, ?_⟩
  · intro k hk
    exact ⟨_, xs, toBook_of_key hk, hxs, hiff⟩
  · intro rnd fs hb hplain
    subst hb
    obtain ⟨c, hc⟩ := toListedBook_plain rnd hplain
    exact ⟨_, xs, hc, hxs, hiff⟩

/-- Witness for C13 (amended): a record with one author. -/
theorem authors_nonempty_unless_empty_author_name_witness :
    ∃ book xs, toBook completeRecord = .ok book ∧ book.authors = .arr xs ∧
      (xs = [] ↔ fieldOf completeRecord "author_name" = .arr []) :=
  (authors_nonempty_unless_empty_author_name completeRecord
    (Or.inr ⟨[.str "Frank Herbert"], rfl⟩)).1 "/works/OL5W" rfl

/-- C14: for every raw record with no `author_name` field the normalised book has authors
exactly `['Unknown Author']`, and for every record with a non-empty `author_name` list the
authors are that list unchanged, both in the mapping of `HomeScreen` (records with plain
subject tags) and in `getRecentBooks` (records with a string key); the record `{title: 'X'}`
gives the authors `['Unknown Author']` in the mapping of `HomeScreen`. -/
theorem authors_default_and_passthrough :
    (∀ (rnd : String) (fs : List (String × JsVal)), plainSubjects (.obj fs) →
      ∃ book, toListedBook rnd (.obj fs) = .ok book ∧
        (lookupField "author_name" fs = .undefined →
          book.authors = .arr [.str "Unknown Author"]) ∧
        (∀ names, names ≠ [] → lookupField "author_name" fs = .arr names →
          book.authors = .arr names)) ∧
    (∀ (b : JsVal) (k : String), fieldOf b "key" = .str k →
      ∃ book, toBook b = .ok book ∧
        (fieldOf b "author_name" = .undefined →
          book.authors = .arr [.str "Unknown Author"]) ∧
        (∀ names, names ≠ [] → fieldOf b "author_name" = .arr names →
          book.authors = .arr names)) ∧
    (∀ rnd : String,
      (toListedBook rnd (.obj [("title", .str "X")])).map (fun book => book.authors) =
        .ok (.arr [.str "Unknown Author"])) := by
  refine ⟨?_, ?_, ?_⟩
  · intro rnd fs hplain
    obtain ⟨c, hc⟩ := toListedBook_plain rnd hplain
    refine ⟨_, hc, ?_, ?_⟩
    · intro hu
      simp only [hu]
      rfl
    · intro names _ hn
      simp only [hn]
      rfl
  · intro b k hk
    refine ⟨_, toBook_of_key hk, ?_, ?_⟩
    · intro hu
      simp only [hu]
      rfl
    · intro names _ hn
      simp only [hn]
      rfl
  · intro rnd
    rfl

/-- Witness for C14: a record with a key and a title and without `author_name`. -/
theorem authors_default_and_passthrough_witness :
    ∃ book, toBook (.obj [("key", .str "/works/OL7W"), ("title", .str "X")]) = .ok book ∧
      book.authors = .arr [.str "Unknown Author"] :=
  (authors_default_and_passthrough.2.1
    (.obj [("key", .str "/works/OL7W"), ("title", .str "X")]) "/works/OL7W" rfl).imp
    (fun _ h => ⟨h.1, h.2.1 rfl⟩)

/-! ## Claims about records without title or key in `getRecentBooks` -/

/-- C15: for every upstream docs list (of records, none `undefined` or `null`) in which each
record that has a title also has a string key, `getRecentBooks` succeeds on the first
attempt, and every book it returns is made from a record of the list that has a title
and carries that title; the records without a title may lack any other field, the key
included. -/
theorem getRecentBooks_drops_untitled_before_key {σ : Type}
    (upstream : Request → σ → Except Thrown JsVal × σ) (limit : JsVal) (s s' : σ)
    (data : JsVal) (docs : List JsVal)
    (hresp : upstream (recentRequest limit) s = (.ok data, s'))
    (hdocs : getProp data "docs" = .ok (.arr docs))
    (hrec : ∀ b ∈ docs, b ≠ .undefined ∧ b ≠ .null)
    (hkey : ∀ b ∈ docs, truthy (fieldOf b "title") = true → ∃ k, fieldOf b "key" = .str k) :
    ∃ r, (getRecentBooks upstream limit s).result = .ok (some r) ∧
      (getRecentBooks upstream limit s).trace = [Event.invoke] ∧
      (∀ book ∈ r.docs, ∃ b ∈ docs, truthy (fieldOf b "title") = true ∧
        toBook b = .ok book ∧ book.title = fieldOf b "title") ∧
      (∀ book ∈ r.docs, truthy book.title = true) := by
  obtain ⟨r, hr, hall, _, _⟩ := transformRecent_ok hdocs hrec
    (fun b hb hkept => hkey b hb (keptByRecent_title hkept))
  have hsrc : ∀ book ∈ r.docs, ∃ b ∈ docs, truthy (fieldOf b "title") = true ∧
      toBook b = .ok book ∧ book.title = fieldOf b "title" := by
    intro book hbook
    obtain ⟨b, hb, hto⟩ := forall₂_exists_left hall book hbook
    obtain ⟨hmem, hkept⟩ := List.mem_filter.mp hb
    have htitle := keptByRecent_title hkept
    obtain ⟨k, hk⟩ := hkey b hmem htitle
    refine ⟨b, hmem, htitle, hto, ?_⟩
    rw [toBook_of_key hk] at hto
    cases hto
    rfl
  refine ⟨r, ?_, ?_, hsrc, ?_⟩
  · rw [getRecentBooks_first_attempt upstream limit s s' data r hresp hr]
  · rw [getRecentBooks_first_attempt upstream limit s s' data r hresp hr]
  · intro book hbook
    obtain ⟨b, _, htitle, _, heq⟩ := hsrc book hbook
    rw [heq]
    exact htitle

/-- Witness for C15: a listing with a record that has neither title nor key. -/
theorem getRecentBooks_drops_untitled_before_key_witness :
    ∃ r, (getRecentBooks
        (constUpstream (.obj [("docs", .arr [untitledKeylessRecord, completeRecord]),
          ("numFound", .num 2)])) (.num 10) 0).result = .ok (some r) ∧
      (∀ book ∈ r.docs, truthy book.title = true) :=
  (getRecentBooks_drops_untitled_before_key
    (constUpstream (.obj [("docs", .arr [untitledKeylessRecord, completeRecord]),
      ("numFound", .num 2)])) (.num 10) 0 1 _ [untitledKeylessRecord, completeRecord] rfl rfl
    (by decide)
    (fun b hb ht => by
      simp only [List.mem_cons, List.mem_singleton, List.not_mem_nil, or_false] at hb
      rcases hb with rfl | rfl
      · exact absurd ht (by decide)
      · exact ⟨"/works/OL5W", rfl⟩)).imp
    (fun _ h => ⟨h.1, h.2.2.2⟩)

/-- C16 (the code at the failing input): when the upstream docs hold a record with a title
and a cover id but no key, every attempt of `getRecentBooks` throws the `TypeError` of
reading `split` on `undefined`; the request is made three times and the call fails. -/
theorem getRecentBooks_fails_on_keyless_record :
    keptByRecent keylessRecord = true ∧
    fieldOf keylessRecord "key" = .undefined ∧
    (getRecentBooks
        (constUpstream (.obj [("docs", .arr [completeRecord, keylessRecord]),
          ("numFound", .num 2)])) (.num 10) 0).result = .error (propTypeError "split") ∧
    invocations (getRecentBooks
        (constUpstream (.obj [("docs", .arr [completeRecord, keylessRecord]),
          ("numFound", .num 2)])) (.num 10) 0).trace = 3 ∧
    (getRecentBooks
        (constUpstream (.obj [("docs", .arr [completeRecord, keylessRecord]),
          ("numFound", .num 2)])) (.num 10) 0).state = 3 := by
  decide

/-! ## Claims about the ids of `HomeScreen` -/

/-- C17 (counterexample): in the mapping of `HomeScreen` the record with key `/works/OL5W`
gets the id `/works/OL5W`, the whole key, and not its last path segment `OL5W`. -/
theorem toListedBook_id_is_whole_key :
    (toListedBook "0.42" completeRecord).map (fun book => book.id) =
      .ok (.str "/works/OL5W") ∧
    JsVal.str "/works/OL5W" ≠ .str "OL5W" ∧
    splitPop "/works/OL5W" = .str "OL5W" := by
  decide

/-- C17 (amended): in the normalisation of search and recent results by `HomeScreen`, a
record that has a key gets that key itself as id (the key `/works/OL5W` gives the id
`/works/OL5W`), so the same key always gives the same id, and a record with no key gets the
string of `Math.random().toString()`, a non-empty string whenever that string is. -/
theorem toListedBook_id_is_key_or_random (rnd : String) (fs : List (String × JsVal))
    (hplain : plainSubjects (.obj fs)) :
    ∃ book, toListedBook rnd (.obj fs) = .ok book ∧
      (truthy (lookupField "key" fs) = true → book.id = lookupField "key" fs) ∧
      (lookupField "key" fs = .str "/works/OL5W" → book.id = .str "/works/OL5W") ∧
      (truthy (lookupField "key" fs) = false → book.id = .str rnd) ∧
      (truthy (lookupField "key" fs) = false → rnd ≠ "" →
        ∃ t : String, book.id = .str t ∧ t ≠ "") ∧
      (∀ (rnd' : String) (fs' : List (String × JsVal)) (book' : ListedBook),
        toListedBook rnd' (.obj fs') = .ok book' →
        truthy (lookupField "key" fs) = true →
        lookupField "key" fs' = lookupField "key" fs → book'.id = book.id) := by
  obtain ⟨c, hc⟩ := toListedBook_plain rnd hplain
  refine ⟨_, hc, ?_, ?_, ?_, ?_, ?_⟩
  · intro ht
    exact jsOr_of_truthy ht
  · intro hk
    simp only [hk]
    rfl
  · intro hf
    exact jsOr_of_falsy hf
  · intro hf hne
    exact ⟨rnd, jsOr_of_falsy hf, hne⟩
  · intro rnd' fs' book' hbook' ht hsame
    have hid : book'.id = jsOr (lookupField "key" fs') (.str rnd') := by
      simp only [toListedBook, getProp, bind, Except.bind, pure, Except.pure] at hbook'
      cases hcat : categoryOfSubjects (lookupField "subject_key" fs') with
      | error e => rw [hcat] at hbook'; cases hbook'
      | ok c' =>
        rw [hcat] at hbook'
        cases hbook'
        rfl
    rw [hid, hsame, jsOr_of_truthy ht]
    exact (jsOr_of_truthy ht).symm

/-- Witness for C17 (amended): a record without key gets the random string. -/
theorem toListedBook_id_is_key_or_random_witness :
    ∃ book, toListedBook "0.42" (.obj [("title", .str "X")]) = .ok book ∧
      book.id = .str "0.42" :=
  (toListedBook_id_is_key_or_random "0.42" [("title", .str "X")] (Or.inl rfl)).imp
    (fun _ h => ⟨h.1, h.2.2.2.1 rfl⟩)

/-! ## Claims about the search path -/

/-- C18: the search path applies no exclusion filter. For every upstream docs list (of
records with plain subject tags) the books set by `handleSearch` are one per upstream doc,
in upstream order, so that their number is the number of upstream docs, and the backend
`searchBooks` returns the upstream body as it is; in particular a record with a title but
no `author_name` and no `cover_i`, which the recent listing drops, is included. -/
theorem handleSearch_keeps_every_doc (rnd : Nat → String) (before : HomeState)
    (response : JsVal) (docs : List JsVal)
    (hdocs : getProp response "docs" = .ok (.arr docs))
    (hrec : ∀ b ∈ docs, (∃ fs, b = .obj fs) ∧ plainSubjects b) :
    (handleSearch rnd before (.ok response)).books.length = docs.length ∧
    List.Forall₂ (fun b book => (∃ r, toListedBook r b = .ok book) ∧
      book.title = fieldOf b "title") docs (handleSearch rnd before (.ok response)).books ∧
    (handleSearch rnd before (.ok response)).error = none ∧
    (∀ (σ : Type) (upstream : Request → σ → Except Thrown JsVal × σ) (q p l body : JsVal)
        (s s' : σ),
      upstream (searchRequest q (defaultTo p (.num 1)) (defaultTo l (.num 10))) s =
        (.ok body, s') →
      searchBooks upstream q p l s = (.ok body, s')) ∧
    (keptByRecent titleOnlyRecord = false ∧
      fieldOf titleOnlyRecord "author_name" = .undefined ∧
      fieldOf titleOnlyRecord "cover_i" = .undefined ∧
      (handleSearch rnd before (.ok (.obj [("docs", .arr [titleOnlyRecord])]))).books.map
        (fun book => book.title) = [.str "X"]) := by
  obtain ⟨books, hbooks, hall⟩ := mapListed_plain rnd docs 0 hrec
  have hrun : handleSearch rnd before (.ok response) =
      { books := books, newArrivals := [], error := none } := by
    have hobj : ∃ fs, response = .obj fs := by
      cases response <;> simp_all [getProp]
    obtain ⟨fs, rfl⟩ := hobj
    have hl : lookupField "docs" fs = .arr docs := by simpa [getProp] using hdocs
    simp only [handleSearch, listedDocs, getProp, hl, truthy, if_true, hbooks]
  rw [hrun]
  refine ⟨hall.length_eq.symm, hall, rfl, ?_, ?_⟩
  · intro σ upstream q p l body s s' h
    simp only [searchBooks, h]
  · exact ⟨rfl, rfl, rfl, rfl⟩

/-- Witness for C18: a search answer of two records, one of them with a title only. -/
theorem handleSearch_keeps_every_doc_witness :
    (handleSearch (fun _ => "0.42") { books := [], newArrivals := [], error := none }
      (.ok (.obj [("docs", .arr [titleOnlyRecord, completeRecord])]))).books.length = 2 :=
  (handleSearch_keeps_every_doc (fun _ => "0.42")
    { books := [], newArrivals := [], error := none }
    (.obj [("docs", .arr [titleOnlyRecord, completeRecord])])
    [titleOnlyRecord, completeRecord] rfl
    (fun b hb => by
      simp only [List.mem_cons, List.mem_singleton, List.not_mem_nil, or_false] at hb
      rcases hb with rfl | rfl
      · exact ⟨⟨_, rfl⟩, Or.inl rfl⟩
      · exact ⟨⟨_, rfl⟩, Or.inl rfl⟩)).1

/-! ## Claims about retrying in the backend service -/

/-- C19: `searchBooks` and `getBookDetails` of the backend each send exactly one upstream
request per call, and when that request fails they fail with that same error, the single
request being all that has happened; `getRecentBooks` alone goes through `retryRequest`:
against an upstream that fails three times it sends the request three times, waits 1000 and
2000 ms in between and fails with the third error. -/
theorem only_getRecentBooks_retries {σ : Type}
    (upstream : Request → σ → Except Thrown JsVal × σ) (s : σ) :
    (∀ (q p l : JsVal),
      (searchBooks (logged upstream) q p l (s, [])).2.2 =
        [searchRequest q (defaultTo p (.num 1)) (defaultTo l (.num 10))] ∧
      ∀ (e : Thrown) (s' : σ),
        upstream (searchRequest q (defaultTo p (.num 1)) (defaultTo l (.num 10))) s =
          (.error e, s') →
        searchBooks (logged upstream) q p l (s, []) =
          (.error e, (s', [searchRequest q (defaultTo p (.num 1)) (defaultTo l (.num 10))]))) ∧
    (∀ (olid : String),
      (getBookDetails (logged upstream) olid (s, [])).2.2 = [detailsRequest olid] ∧
      ∀ (e : Thrown) (s' : σ), upstream (detailsRequest olid) s = (.error e, s') →
        getBookDetails (logged upstream) olid (s, []) =
          (.error e, (s', [detailsRequest olid]))) ∧
    (∀ (limit : JsVal) (e1 e2 e3 : Thrown),
      outcomeAt (upstream (recentRequest limit)) s 0 = .error e1 →
      outcomeAt (upstream (recentRequest limit)) s 1 = .error e2 →
      outcomeAt (upstream (recentRequest limit)) s 2 = .error e3 →
      (getRecentBooks (logged upstream) limit (s, [])).result = .error e3 ∧
      (getRecentBooks (logged upstream) limit (s, [])).state.2 =
        [recentRequest limit, recentRequest limit, recentRequest limit] ∧
      waits (getRecentBooks (logged upstream) limit (s, [])).trace = [1000, 2000]) ∧
    (∀ (limit : JsVal) (t : σ × List Request),
      getRecentBooks (logged upstream) limit t =
        retryRequest (recentAttempt (logged upstream) limit) 3 t) := by
  refine ⟨?_, ?_, ?_, ?_⟩
  · intro q p l
    refine ⟨by simp [searchBooks, logged], ?_⟩
    intro e s' h
    simp [searchBooks, logged, h]
  · intro olid
    refine ⟨by simp [getBookDetails, logged], ?_⟩
    intro e s' h
    simp [getBookDetails, logged, h]
  · intro limit e1 e2 e3 h1 h2 h3
    have hout : ∀ (j : Nat) (e : Thrown),
        outcomeAt (upstream (recentRequest limit)) s j = .error e →
        outcomeAt (recentAttempt (logged upstream) limit) (s, []) j = .error e := by
      intro j e h
      rw [outcomeAt_recentAttempt, outcomeAt_logged, h]
    have hrun := retryLoop_exhausted (recentAttempt (logged upstream) limit) 3 e3 2 0
      (s, []) [] (by norm_num)
      (fun j hj => by
        have hj' : j = 0 ∨ j = 1 := by omega
        rcases hj' with rfl | rfl
        · exact ⟨e1, hout 0 e1 h1⟩
        · exact ⟨e2, hout 1 e2 h2⟩)
      (hout 2 e3 h3)
    have hrun' : getRecentBooks (logged upstream) limit (s, []) =
        { result := .error e3,
          state := stateAfter (recentAttempt (logged upstream) limit) (s, []) 3,
          trace := [] ++ failTrace 2 0 ++ [Event.invoke] } := hrun
    rw [hrun']
    refine ⟨rfl, ?_, ?_⟩
    · simp only [stateAfter_recentAttempt, stateAfter_logged]
      rfl
    · simp [failTrace, waits]
  · intro limit t
    rfl

/-- Witness for C19: an upstream that answers every request with a 503. -/
theorem only_getRecentBooks_retries_witness :
    searchBooks (logged (failingUpstream (httpError 503))) (.str "dune") .undefined .undefined
        (0, []) =
      (.error (httpError 503), (1, [searchRequest (.str "dune") (.num 1) (.num 10)])) ∧
    ((getRecentBooks (logged (failingUpstream (httpError 503))) (.num 10) (0, [])).result =
        .error (httpError 503) ∧
      (getRecentBooks (logged (failingUpstream (httpError 503))) (.num 10) (0, [])).state.2 =
        [recentRequest (.num 10), recentRequest (.num 10), recentRequest (.num 10)] ∧
      waits (getRecentBooks (logged (failingUpstream (httpError 503))) (.num 10)
        (0, [])).trace = [1000, 2000]) :=
  ⟨((only_getRecentBooks_retries (failingUpstream (httpError 503)) 0).1
      (.str "dune") .undefined .undefined).2 (httpError 503) 1 rfl,
   (only_getRecentBooks_retries (failingUpstream (httpError 503)) 0).2.2.1 (.num 10)
      (httpError 503) (httpError 503) (httpError 503) rfl rfl rfl⟩

/-- C20: when every answer of the upstream to the recent-listing request has a body that is
missing or whose `docs` field is not an array, `getRecentBooks` returns no result: each of
its attempts fails with the error `Invalid response format from Open Library API`, the
request is sent exactly three times, and the call fails with that error. -/
theorem getRecentBooks_invalid_format_fails {σ : Type}
    (upstream : Request → σ → Except Thrown JsVal × σ) (limit : JsVal) (s : σ)
    (hbad : ∀ j, j < 3 → ∃ data,
      outcomeAt (upstream (recentRequest limit)) s j = .ok data ∧ malformedBody data) :
    (getRecentBooks upstream limit s).result = .error invalidFormatError ∧
    invalidFormatError.message = "Invalid response format from Open Library API" ∧
    (∀ j, j < 3 →
      outcomeAt (recentAttempt upstream limit) s j = .error invalidFormatError) ∧
    invocations (getRecentBooks upstream limit s).trace = 3 ∧
    (getRecentBooks upstream limit s).state =
      stateAfter (upstream (recentRequest limit)) s 3 ∧
    (getRecentBooks (logged upstream) limit (s, [])).state.2 =
      [recentRequest limit, recentRequest limit, recentRequest limit] := by
  have hout : ∀ j, j < 3 →
      outcomeAt (recentAttempt upstream limit) s j = .error invalidFormatError := by
    intro j hj
    obtain ⟨data, hdata, hmal⟩ := hbad j hj
    rw [outcomeAt_recentAttempt, hdata]
    exact transformRecent_malformed hmal
  have hout' : ∀ j, j < 3 →
      outcomeAt (recentAttempt (logged upstream) limit) (s, []) j =
        .error invalidFormatError := by
    intro j hj
    obtain ⟨data, hdata, hmal⟩ := hbad j hj
    rw [outcomeAt_recentAttempt, outcomeAt_logged, hdata]
    exact transformRecent_malformed hmal
  have hrun := retryLoop_exhausted (recentAttempt upstream limit) 3 invalidFormatError 2 0
    s [] (by norm_num) (fun j hj => ⟨_, hout j (by omega)⟩) (hout 2 (by omega))
  have hrun' : getRecentBooks upstream limit s =
      { result := .error invalidFormatError,
        state := stateAfter (recentAttempt upstream limit) s 3,
        trace := [] ++ failTrace 2 0 ++ [Event.invoke] } := hrun
  have hlog := retryLoop_exhausted (recentAttempt (logged upstream) limit) 3
    invalidFormatError 2 0 (s, []) [] (by norm_num)
    (fun j hj => ⟨_, hout' j (by omega)⟩) (hout' 2 (by omega))
  have hlog' : getRecentBooks (logged upstream) limit (s, []) =
      { result := .error invalidFormatError,
        state := stateAfter (recentAttempt (logged upstream) limit) (s, []) 3,
        trace := [] ++ failTrace 2 0 ++ [Event.invoke] } := hlog
  rw [hrun', hlog']
  refine ⟨rfl, rfl, hout, ?_, ?_, ?_⟩
  · simp [invocations, failTrace]
  · simp only [stateAfter_recentAttempt]
  · simp only [stateAfter_recentAttempt, stateAfter_logged]
    rfl

/-- Witness for C20: an upstream whose body has a `docs` field that is a string. -/
theorem getRecentBooks_invalid_format_fails_witness :
    (getRecentBooks (constUpstream (.obj [("docs", .str "none")])) (.num 10) 0).result =
      .error invalidFormatError ∧
    invocations (getRecentBooks (constUpstream (.obj [("docs", .str "none")])) (.num 10)
      0).trace = 3 :=
  have h := getRecentBooks_invalid_format_fails (constUpstream (.obj [("docs", .str "none")]))
    (.num 10) 0
    (fun j hj => by
      have hj' : j = 0 ∨ j = 1 ∨ j = 2 := by omega
      rcases hj' with rfl | rfl | rfl
      · exact ⟨_, rfl, Or.inr (fun docs h => by cases h)⟩
      · exact ⟨_, rfl, Or.inr (fun docs h => by cases h)⟩
      · exact ⟨_, rfl, Or.inr (fun docs h => by cases h)⟩)
  ⟨h.1, h.2.2.2.1⟩

/-! ## Claims about the titles of `HomeScreen` -/

/-- C21 (counterexample): for a record that omits `title` the book made by the mapping of
`HomeScreen` has the title `undefined`, which is not the empty string, and for a record
whose title is a number the title of the book is that number, not a string. -/
theorem toListedBook_title_not_defaulted :
    (toListedBook "0.42" (.obj [("key", .str "/works/OL4W")])).map (fun book => book.title) =
      .ok .undefined ∧
    JsVal.undefined ≠ .str "" ∧
    (toListedBook "0.42" (.obj [("key", .str "/works/OL4W"), ("title", .num 1984)])).map
      (fun book => book.title) = .ok (.num 1984) := by
  decide

/-- C21 (amended): every book produced by the normalisation of `HomeScreen` (search and
recent mappings, on records with plain subject tags) has as title the title of the upstream
record, unchanged: a string when the record holds a string, and `undefined` when the record
omits the title. -/
theorem toListedBook_title_is_upstream_title (rnd : String) (fs : List (String × JsVal))
    (hplain : plainSubjects (.obj fs)) :
    ∃ book, toListedBook rnd (.obj fs) = .ok book ∧
      book.title = lookupField "title" fs ∧
      (∀ t : String, lookupField "title" fs = .str t → book.title = .str t) ∧
      (lookupField "title" fs = .undefined → book.title = .undefined) := by
  obtain ⟨c, hc⟩ := toListedBook_plain rnd hplain
  exact ⟨_, hc, rfl, fun t ht => ht, fun hu => hu⟩

/-- Witness for C21 (amended): a record with the title Dune. -/
theorem toListedBook_title_is_upstream_title_witness :
    ∃ book, toListedBook "0.42" (.obj [("key", .str "/works/OL5W"), ("title", .str "Dune")]) =
        .ok book ∧ book.title = .str "Dune" :=
  (toListedBook_title_is_upstream_title "0.42"
    [("key", .str "/works/OL5W"), ("title", .str "Dune")] (Or.inl rfl)).imp
    (fun _ h => ⟨h.1, h.2.2.1 "Dune" rfl⟩)

/-! ## Claims about `retryRequest` with no attempt allowed -/

/-- C25: for every `retries <= 0`, `retryRequest(fn, retries)` completes with the value
`undefined` and raises no error; `fn` is not invoked, nothing is waited for and the world is
left as it was. -/
theorem retryRequest_nonpositive_returns_undefined {σ ε α : Type} (fn : σ → Except ε α × σ)
    (retries : Int) (s : σ) (h : retries ≤ 0) :
    (retryRequest fn retries s).result = .ok none ∧
    (retryRequest fn retries s).trace = [] ∧
    invocations (retryRequest fn retries s).trace = 0 ∧
    waits (retryRequest fn retries s).trace = [] ∧
    (retryRequest fn retries s).state = s := by
  have h0 : retries.toNat = 0 := Int.toNat_eq_zero.mpr h
  have hrun : retryRequest fn retries s = { result := .ok none, state := s, trace := [] } := by
    simp only [retryRequest, h0, retryLoop]
  rw [hrun]
  exact ⟨rfl, rfl, rfl, rfl, rfl⟩

/-- Witness for C25: no attempt allowed on a callback that would succeed. -/
theorem retryRequest_nonpositive_returns_undefined_witness :
    (retryRequest (scripted (α := Nat) "down") 0 [.ok 42]).result = .ok none ∧
    (retryRequest (scripted (α := Nat) "down") 0 [.ok 42]).trace = [] :=
  have h := retryRequest_nonpositive_returns_undefined (scripted (α := Nat) "down") 0
    [.ok 42] (le_refl 0)
  ⟨h.1, h.2.1⟩

/-! ## Claims about `bookService.getBookDetails` and the rendered description -/

/-- C22 (counterexample): for a work whose description is an object wrapper carrying the
text `A tale`, the description returned by `getBookDetails` is that wrapper object, not the
plain string `A tale`. -/
theorem getBookDetails_returns_description_wrapper :
    (bookService.getBookDetails (fun _ => none) (constUpstream wrappedDescriptionWork) "OL1W"
        0).1.map (fun r => fieldOf r "description") =
      .ok (.obj [("type", .str "/type/text"), ("value", .str "A tale")]) ∧
    JsVal.obj [("type", .str "/type/text"), ("value", .str "A tale")] ≠ .str "A tale" := by
  decide

/-- C22 (amended): the description returned by the merge of `getBookDetails` is the upstream
value as it came: when the description of the work (or, the work having none, of the
edition) is an object wrapper, the returned description is that object, its text not being
taken out; when it is a non-empty string it is returned unchanged; when both are absent
it is `No description available.`. -/
theorem mergeDetails_description_passthrough (wfs efs : List (String × JsVal)) :
    ∃ r, mergeDetails (.obj wfs) (.obj efs) = .ok (.obj r) ∧
      (∀ d, truthy d = true → lookupField "description" wfs = d →
        lookupField "description" r = d) ∧
      (∀ fields, lookupField "description" wfs = .obj fields →
        lookupField "description" r = .obj fields) ∧
      (∀ t : String, t ≠ "" → lookupField "description" wfs = .str t →
        lookupField "description" r = .str t) ∧
      (∀ d, truthy (lookupField "description" wfs) = false → truthy d = true →
        lookupField "description" efs = d → lookupField "description" r = d) ∧
      (lookupField "description" wfs = .undefined →
        lookupField "description" efs = .undefined →
        lookupField "description" r = .str "No description available.") := by
  have hwork : ∀ d, truthy d = true → lookupField "description" wfs = d →
      lookupField "description" (mergedFields (.obj wfs) (.obj efs)) = d := by
    intro d hd hw
    rw [lookup_mergedFields_description]
    simp only [orFields, fieldOf, hw, hd, if_true]
    exact jsOr_of_truthy hd
  refine ⟨mergedFields (.obj wfs) (.obj efs),
    mergeDetails_of_ne ⟨by simp, by simp⟩ ⟨by simp, by simp⟩, hwork, ?_, ?_, ?_, ?_⟩
  · intro fields hw
    exact hwork _ rfl hw
  · intro t ht hw
    exact hwork _ (by simp [truthy, ht]) hw
  · intro d hwf hd he
    rw [lookup_mergedFields_description]
    simp only [orFields, fieldOf, hwf, he]
    exact jsOr_of_truthy hd
  · intro hw he
    rw [lookup_mergedFields_description]
    simp only [orFields, fieldOf, hw, he]
    rfl

/-- Witness for C22 (amended): a work with a wrapped description and an empty edition. -/
theorem mergeDetails_description_passthrough_witness :
    ∃ r, mergeDetails wrappedDescriptionWork (.obj []) = .ok (.obj r) ∧
      lookupField "description" r =
        .obj [("type", .str "/type/text"), ("value", .str "A tale")] :=
  (mergeDetails_description_passthrough
    [("title", .str "T"),
      ("description", .obj [("type", .str "/type/text"), ("value", .str "A tale")])] []).imp
    (fun _ h => ⟨h.1, h.2.2.1 _ rfl⟩)

/-- C26: for every details object (neither `null` nor `undefined`) the text of the
description block of `BookDetailsScreen` is the `value` of the description when the
description is an object, the description itself when it is a non-empty string, and `No
description available.` for any other truthy description; whatever `getBookDetails` returns
has a truthy description, so the block is rendered for every detail fetched with success. -/
theorem renderedDescription_cases (details : JsVal)
    (hd : details ≠ .undefined ∧ details ≠ .null) :
    (∀ fields, fieldOf details "description" = .obj fields →
      renderedDescription details = some (lookupField "value" fields)) ∧
    (∀ t : String, t ≠ "" → fieldOf details "description" = .str t →
      renderedDescription details = some (.str t)) ∧
    (∀ n : Int, n ≠ 0 → fieldOf details "description" = .num n →
      renderedDescription details = some (.str "No description available.")) ∧
    (fieldOf details "description" = .bool true →
      renderedDescription details = some (.str "No description available.")) ∧
    (∀ (σ : Type) (other : JsVal → Option Int)
        (upstream : Request → σ → Except Thrown JsVal × σ) (bookId : String) (s s' : σ)
        (r : JsVal),
      bookService.getBookDetails other upstream bookId s = (.ok r, s') →
      (renderedDescription r).isSome = true) := by
  have hdesc : renderedDescription details =
      (if truthy (fieldOf details "description") then
        some (if typeofObject (fieldOf details "description")
          then fieldOf (fieldOf details "description") "value"
          else
            match fieldOf details "description" with
            | .str t => .str t
            | _ => .str "No description available.")
      else none) := by
    cases details <;> simp_all [renderedDescription]
  refine ⟨?_, ?_, ?_, ?_, ?_⟩
  · intro fields h
    rw [hdesc, h]
    rfl
  · intro t ht h
    rw [hdesc, h]
    simp [truthy, ht, typeofObject]
  · intro n hn h
    rw [hdesc, h]
    simp [truthy, hn, typeofObject]
  · intro h
    rw [hdesc, h]
    rfl
  · intro σ other upstream bookId s s' r hr
    have hmerge : ∃ work edition, mergeDetails work edition = .ok r := by
      simp only [bookService.getBookDetails] at hr
      rcases hw : upstream (bookService.workRequest bookId) s with ⟨out, s1⟩
      rw [hw] at hr
      cases out with
      | error e => simp at hr
      | ok work =>
        simp only at hr
        split at hr
        · split at hr
          · rcases he : upstream (bookService.editionsRequest bookId) s1 with ⟨out2, s2⟩
            rw [he] at hr
            cases out2 with
            | error e => exact ⟨work, .obj [], (Prod.mk.inj hr).1⟩
            | ok data => exact ⟨work, _, (Prod.mk.inj hr).1⟩
          · exact ⟨work, .obj [], (Prod.mk.inj hr).1⟩
        · simp at hr
    obtain ⟨work, edition, hm⟩ := hmerge
    obtain ⟨fs, f, rfl, htruthy, _, _⟩ := mergeDetails_ok hm
    simp [renderedDescription, fieldOf, htruthy]

/-- Witness for C26: details whose description is a text wrapper. -/
theorem renderedDescription_cases_witness :
    renderedDescription wrappedDescriptionWork = some (.str "A tale") :=
  (renderedDescription_cases wrappedDescriptionWork (by decide)).1
    [("type", .str "/type/text"), ("value", .str "A tale")] rfl

/-- C27: in `bookService.getBookDetails` the editions endpoint is queried only when the work
has a (truthy) `first_publish_date`. Whatever the upstream does, the `first_publish_date` of
a returned detail is that of the work when the work has one and `undefined` otherwise, so
the `publish_date` of an edition is never the value returned; and when the work has no
`first_publish_date` the call returns after exactly one upstream request, with description,
authors and subjects taken from the work or from the defaults. -/
theorem getBookDetails_date_comes_from_work {σ : Type} (other : JsVal → Option Int)
    (upstream : Request → σ → Except Thrown JsVal × σ) (bookId : String) (s : σ) :
    (∀ (r : JsVal) (s' : σ),
      bookService.getBookDetails other upstream bookId s = (.ok r, s') →
      ∃ work s1, upstream (bookService.workRequest bookId) s = (.ok work, s1) ∧
        fieldOf r "first_publish_date" =
          (if truthy (fieldOf work "first_publish_date")
           then fieldOf work "first_publish_date" else .undefined)) ∧
    (∀ (work : JsVal) (s1 : σ),
      upstream (bookService.workRequest bookId) s = (.ok work, s1) → truthy work = true →
      truthy (fieldOf work "first_publish_date") = false →
      bookService.getBookDetails other (logged upstream) bookId (s, []) =
        (.ok (.obj (mergedFields work (.obj []))), (s1, [bookService.workRequest bookId])) ∧
      lookupField "description" (mergedFields work (.obj [])) =
        jsOr (fieldOf work "description") (.str "No description available.") ∧
      lookupField "authors" (mergedFields work (.obj [])) =
        jsOr (fieldOf work "authors") (.arr []) ∧
      lookupField "subjects" (mergedFields work (.obj [])) =
        jsOr (fieldOf work "subjects") (.arr [])) ∧
    (∀ (work : JsVal) (s1 : σ),
      upstream (bookService.workRequest bookId) s = (.ok work, s1) → truthy work = true →
      truthy (fieldOf work "first_publish_date") = true →
      (bookService.getBookDetails other (logged upstream) bookId (s, [])).2.2 =
        [bookService.workRequest bookId, bookService.editionsRequest bookId]) := by
  refine ⟨?_, ?_, ?_⟩
  · intro r s' hr
    obtain ⟨work, s1, edition, hwork, ht, hm, hed⟩ := getBookDetails_ok_inv hr
    obtain ⟨fs, f, rfl, _, hf, hlook⟩ := mergeDetails_ok hm
    refine ⟨work, s1, hwork, ?_⟩
    show lookupField "first_publish_date" fs = _
    rw [hlook]
    by_cases hdate : truthy (fieldOf work "first_publish_date") = true
    · rw [orProps_of_truthy edition "publish_date" (ne_of_truthy ht) hdate] at hf
      cases hf
      rw [if_pos hdate]
    · have hfalse : truthy (fieldOf work "first_publish_date") = false := by simpa using hdate
      obtain ⟨hedition, _⟩ := hed hfalse
      subst hedition
      rw [orProps_of_ne (ne_of_truthy ht) ⟨by simp, by simp⟩] at hf
      cases hf
      rw [orFields_empty_edition]
  · intro work s1 hwork ht hdate
    refine ⟨?_, ?_, ?_, ?_⟩
    · have hlogged : logged upstream (bookService.workRequest bookId) (s, []) =
          (.ok work, (s1, [bookService.workRequest bookId])) := by
        simp [logged, hwork]
      exact getBookDetails_without_date other (logged upstream) bookId (s, [])
        (s1, [bookService.workRequest bookId]) work hlogged ht hdate
    · rw [lookup_mergedFields_description, jsOr_orFields_empty]
    · rw [lookup_mergedFields_authors, jsOr_orFields_empty]
    · rw [lookup_mergedFields_subjects, jsOr_orFields_empty]
  · intro work s1 hwork ht hdate
    have hlogged : logged upstream (bookService.workRequest bookId) (s, []) =
        (.ok work, (s1, [bookService.workRequest bookId])) := by
      simp [logged, hwork]
    simp only [bookService.getBookDetails, hlogged, ht, hdate, if_true]
    rcases he : logged upstream (bookService.editionsRequest bookId)
        (s1, [bookService.workRequest bookId]) with ⟨out2, s2⟩
    have hlog : s2.2 = [bookService.workRequest bookId, bookService.editionsRequest bookId] := by
      have := congrArg (fun p => p.2.2) he
      simpa [logged] using this.symm
    cases out2 <;> simpa using hlog

/-- Witness for C27: a work without `first_publish_date` against an upstream that would
fail any second request. -/
theorem getBookDetails_date_comes_from_work_witness :
    bookService.getBookDetails (fun _ => none)
        (logged (workThenFailing wrappedDescriptionWork timeoutError)) "OL1W" (0, []) =
      (.ok (.obj (mergedFields wrappedDescriptionWork (.obj []))),
        (1, [bookService.workRequest "OL1W"])) :=
  ((getBookDetails_date_comes_from_work (fun _ => none)
    (workThenFailing wrappedDescriptionWork timeoutError) "OL1W" 0).2.1
    wrappedDescriptionWork 1 rfl rfl rfl).1

/-- C28 (counterexample): the work request returns a work with a `first_publish_date` and
without description, and the editions request returns `{entries: [null]}`: the call fails,
with the `TypeError` of the read of `description` on the entry `null`, although the work
request did not fail and returned data. -/
theorem getBookDetails_fails_on_null_entry :
    bookService.getBookDetails (fun _ => none) (workThenEditions datedWork nullEntryEditions)
        "OL1W" 0 = (.error (propTypeError "description"), 2) ∧
    workThenEditions datedWork nullEntryEditions (bookService.workRequest "OL1W") 0 =
      (.ok datedWork, 1) ∧
    truthy datedWork = true := by
  decide

/-- C28 (amended): in `bookService.getBookDetails` a failure of the editions request, or an
editions answer with no entries, does not fail the call: the result is the merge of the work
with the empty record, that is the fields of the work (a record with distinct keys: every
key other than `description`, `authors`, `subjects` and `first_publish_date` keeps the value
of the work, and `first_publish_date` is that of the work) with description, authors and
subjects set to `No description available.`, `[]` and `[]` where the work has no truthy
value. The call fails when the work request fails (with that error) or returns no data; when
the work request returns data it returns whenever the edition entry taken, if any, is
neither `null` nor `undefined`; when that entry is `null` or `undefined` it returns, with
the same result as for the empty record, if the description, the authors and the subjects of
the work are truthy, and fails with the `TypeError` of the property read on the entry for the
first of the three that is not. -/
theorem getBookDetails_survives_editions_failure {σ : Type} (other : JsVal → Option Int)
    (upstream : Request → σ → Except Thrown JsVal × σ) (bookId : String) (s : σ) :
    (∀ (work : JsVal) (s1 s2 : σ) (e : Thrown),
      upstream (bookService.workRequest bookId) s = (.ok work, s1) → truthy work = true →
      truthy (fieldOf work "first_publish_date") = true →
      upstream (bookService.editionsRequest bookId) s1 = (.error e, s2) →
      bookService.getBookDetails other upstream bookId s = (mergeDetails work (.obj []), s2) ∧
      mergeDetails work (.obj []) = .ok (.obj (mergedFields work (.obj [])))) ∧
    (∀ (work data : JsVal) (s1 s2 : σ),
      upstream (bookService.workRequest bookId) s = (.ok work, s1) → truthy work = true →
      truthy (fieldOf work "first_publish_date") = true →
      upstream (bookService.editionsRequest bookId) s1 = (.ok data, s2) →
      (truthy data = false ∨ truthy (fieldOf data "entries") = false ∨
        gtZero other (jsLength (fieldOf data "entries")) = false) →
      bookService.getBookDetails other upstream bookId s = (mergeDetails work (.obj []), s2) ∧
      mergeDetails work (.obj []) = .ok (.obj (mergedFields work (.obj [])))) ∧
    (∀ work : JsVal,
      lookupField "description" (mergedFields work (.obj [])) =
        (if truthy (fieldOf work "description") then fieldOf work "description"
         else .str "No description available.") ∧
      lookupField "authors" (mergedFields work (.obj [])) =
        (if truthy (fieldOf work "authors") then fieldOf work "authors" else .arr []) ∧
      lookupField "subjects" (mergedFields work (.obj [])) =
        (if truthy (fieldOf work "subjects") then fieldOf work "subjects" else .arr []) ∧
      (truthy (fieldOf work "first_publish_date") = true →
        lookupField "first_publish_date" (mergedFields work (.obj [])) =
          fieldOf work "first_publish_date")) ∧
    (∀ wfs : List (String × JsVal), (wfs.map Prod.fst).Nodup →
      mergedFields (.obj wfs) (.obj []) =
        setField "first_publish_date"
          (if truthy (lookupField "first_publish_date" wfs)
           then lookupField "first_publish_date" wfs else .undefined)
          (setField "subjects"
            (if truthy (lookupField "subjects" wfs) then lookupField "subjects" wfs
             else .arr [])
            (setField "authors"
              (if truthy (lookupField "authors" wfs) then lookupField "authors" wfs
               else .arr [])
              (setField "description"
                (if truthy (lookupField "description" wfs) then lookupField "description" wfs
                 else .str "No description available.") wfs))) ∧
      (∀ k, k ∉ ["description", "authors", "subjects", "first_publish_date"] →
        lookupField k (mergedFields (.obj wfs) (.obj [])) = lookupField k wfs)) ∧
    (∀ (e : Thrown) (s1 : σ),
      upstream (bookService.workRequest bookId) s = (.error e, s1) →
      bookService.getBookDetails other upstream bookId s = (.error e, s1)) ∧
    (∀ (work : JsVal) (s1 : σ),
      upstream (bookService.workRequest bookId) s = (.ok work, s1) → truthy work = false →
      bookService.getBookDetails other upstream bookId s = (.error invalidResponseError, s1)) ∧
    (∀ (work : JsVal) (s1 : σ),
      upstream (bookService.workRequest bookId) s = (.ok work, s1) → truthy work = true →
      (∀ (data : JsVal) (s2 : σ),
        upstream (bookService.editionsRequest bookId) s1 = (.ok data, s2) →
        bookService.editionOf other data ≠ .undefined ∧
          bookService.editionOf other data ≠ .null) →
      ∃ r s', bookService.getBookDetails other upstream bookId s = (.ok r, s')) ∧
    (∀ (work data : JsVal) (s1 s2 : σ),
      upstream (bookService.workRequest bookId) s = (.ok work, s1) → truthy work = true →
      truthy (fieldOf work "first_publish_date") = true →
      upstream (bookService.editionsRequest bookId) s1 = (.ok data, s2) →
      (bookService.editionOf other data = .undefined ∨
        bookService.editionOf other data = .null) →
      (truthy (fieldOf work "description") = true → truthy (fieldOf work "authors") = true →
        truthy (fieldOf work "subjects") = true →
        bookService.getBookDetails other upstream bookId s =
          (.ok (.obj (mergedFields work (.obj []))), s2)) ∧
      (truthy (fieldOf work "description") = false →
        bookService.getBookDetails other upstream bookId s =
          (.error (propTypeError "description"), s2)) ∧
      (truthy (fieldOf work "description") = true → truthy (fieldOf work "authors") = false →
        bookService.getBookDetails other upstream bookId s =
          (.error (propTypeError "authors"), s2)) ∧
      (truthy (fieldOf work "description") = true → truthy (fieldOf work "authors") = true →
        truthy (fieldOf work "subjects") = false →
        bookService.getBookDetails other upstream bookId s =
          (.error (propTypeError "subjects"), s2))) := by
  refine ⟨?_, ?_, ?_, ?_, ?_, ?_, ?_, ?_⟩
  · intro work s1 s2 e hwork ht hdate hed
    rw [getBookDetails_editions_failed other upstream bookId s s1 s2 work e hwork ht hdate hed,
      mergeDetails_empty_edition ht]
    exact ⟨rfl, rfl⟩
  · intro work data s1 s2 hwork ht hdate hed hnone
    rw [getBookDetails_editions_answered other upstream bookId s s1 s2 work data hwork ht
      hdate hed, editionOf_without_entries other hnone, mergeDetails_empty_edition ht]
    exact ⟨rfl, rfl⟩
  · intro work
    refine ⟨?_, ?_, ?_, ?_⟩
    · rw [lookup_mergedFields_description, jsOr_orFields_empty]
      rfl
    · rw [lookup_mergedFields_authors, jsOr_orFields_empty]
      rfl
    · rw [lookup_mergedFields_subjects, jsOr_orFields_empty]
      rfl
    · intro hdate
      rw [lookup_mergedFields_date, orFields_empty_edition, if_pos hdate]
  · intro wfs hnd
    refine ⟨?_, ?_⟩
    · have hspread : spreadInto (spreadInto [] (.obj wfs)) (.obj []) = wfs := by
        rw [spreadInto_nil_obj hnd]
        rfl
      have hor : ∀ k d, jsOr (orFields (.obj wfs) (.obj []) k k) d =
          (if truthy (lookupField k wfs) then lookupField k wfs else d) := by
        intro k d
        rw [jsOr_orFields_empty]
        rfl
      simp only [mergedFields, hspread, hor]
      rfl
    · intro k hk
      rw [lookup_mergedFields_other _ _ hk]
      show lookupField k (spreadInto [] (.obj wfs)) = _
      rw [spreadInto_nil_obj hnd]
  · intro e s1 hwork
    simp [bookService.getBookDetails, hwork]
  · intro work s1 hwork hf
    simp [bookService.getBookDetails, hwork, hf]
  · intro work s1 hwork ht hentry
    by_cases hdate : truthy (fieldOf work "first_publish_date") = true
    · rcases he : upstream (bookService.editionsRequest bookId) s1 with ⟨out2, s2⟩
      cases out2 with
      | error e =>
        exact ⟨_, s2, getBookDetails_editions_failed other upstream bookId s s1 s2 work e
          hwork ht hdate he⟩
      | ok data =>
        refine ⟨.obj (mergedFields work (bookService.editionOf other data)), s2, ?_⟩
        rw [getBookDetails_editions_answered other upstream bookId s s1 s2 work data hwork ht
          hdate he, mergeDetails_of_ne (ne_of_truthy ht) (hentry data s2 he)]
    · exact ⟨_, s1, getBookDetails_without_date other upstream bookId s s1 work hwork ht
        (by simpa using hdate)⟩
  · intro work data s1 s2 hwork ht hdate hed hnull
    have hrun := getBookDetails_editions_answered other upstream bookId s s1 s2 work data
      hwork ht hdate hed
    obtain ⟨h1, h2, h3, h4⟩ := mergeDetails_nullish_edition ht hnull hdate
    refine ⟨?_, ?_, ?_, ?_⟩
    · intro hd ha hs
      rw [hrun, h1 hd ha hs]
    · intro hd
      rw [hrun, h2 hd]
    · intro hd ha
      rw [hrun, h3 hd ha]
    · intro hd ha hs
      rw [hrun, h4 hd ha hs]

/-- Witness for C28 (amended): a work with a `first_publish_date` whose editions request
times out. -/
theorem getBookDetails_survives_editions_failure_witness :
    bookService.getBookDetails (fun _ => none) (workThenFailing datedWork timeoutError) "OL1W"
        0 = (mergeDetails datedWork (.obj []), 2) ∧
    mergeDetails datedWork (.obj []) = .ok (.obj (mergedFields datedWork (.obj []))) :=
  (getBookDetails_survives_editions_failure (fun _ => none)
    (workThenFailing datedWork timeoutError) "OL1W" 0).1 datedWork 1 2 timeoutError
    rfl rfl rfl rfl

/-! ## Claims about `getCoverImageUrl` -/

/-- C23 (counterexample): the backend function called with the size `XL` returns a URL with
`XL`, which is none of S, M, L, and the frontend function called with the size `S` returns
the URL followed by `?t=` and the current time, not exactly the URL. -/
theorem getCoverImageUrl_not_exactly_the_url :
    getCoverImageUrl (fun _ => "") (.num 12) (.str "XL") =
      .ok (.str "https://covers.openlibrary.org/b/id/12-XL.jpg") ∧
    "XL" ∉ ["S", "M", "L"] ∧
    bookService.getCoverImageUrl (fun _ => "") (fun _ => none) 1700000000000 (.num 12)
        (.str "S") =
      .ok (.str "https://covers.openlibrary.org/b/id/12-S.jpg?t=1700000000000") ∧
    bookService.getCoverImageUrl (fun _ => "") (fun _ => none) 1700000000000 (.num 12)
        (.str "S") ≠
      .ok (.str "https://covers.openlibrary.org/b/id/12-S.jpg") := by
  decide

/-- C23 (amended): for every cover id and size argument both functions return `null` when
the cover id is absent (falsy). Otherwise, when the cover id and the size have a text (a
string is its own text, an integer of magnitude up to `2^53` is written in decimal digits),
the backend function returns exactly the URL
`https://covers.openlibrary.org/b/id/{coverId}-{size}.jpg` with the size argument as it was
given, whatever it is (M when none is given), and the frontend function returns that URL
with the size S, M or L when that is the argument (M when no size is given or when the
argument names nothing in the size table), followed by `?t=` and the current time in
milliseconds. When the cover id, or the size, cannot be converted to text, the call throws
the error of that conversion. -/
theorem getCoverImageUrl_shapes (largeText : Int → String) (protoText : String → Option String)
    (now : Int) (coverId size : JsVal) :
    (truthy coverId = false →
      getCoverImageUrl largeText coverId size = .ok .null ∧
      bookService.getCoverImageUrl largeText protoText now coverId size = .ok .null) ∧
    (truthy coverId = true → ∀ idText sizeText : String,
      jsToString largeText coverId = .ok idText →
      jsToString largeText (defaultTo size (.str "M")) = .ok sizeText →
      getCoverImageUrl largeText coverId size =
        .ok (.str ("https://covers.openlibrary.org/b/id/" ++ idText ++ "-" ++ sizeText ++
          ".jpg"))) ∧
    (truthy coverId = true → size = .undefined → ∀ idText : String,
      jsToString largeText coverId = .ok idText →
      getCoverImageUrl largeText coverId size =
        .ok (.str ("https://covers.openlibrary.org/b/id/" ++ idText ++ "-" ++ "M" ++
          ".jpg"))) ∧
    (truthy coverId = true → ∀ idText t : String, jsToString largeText coverId = .ok idText →
      size = .str t → t = "S" ∨ t = "M" ∨ t = "L" →
      bookService.getCoverImageUrl largeText protoText now coverId size =
        .ok (.str ("https://covers.openlibrary.org/b/id/" ++ idText ++ "-" ++ t ++ ".jpg" ++
          "?t=" ++ numberToString largeText now))) ∧
    (truthy coverId = true → size = .undefined → ∀ idText : String,
      jsToString largeText coverId = .ok idText →
      bookService.getCoverImageUrl largeText protoText now coverId size =
        .ok (.str ("https://covers.openlibrary.org/b/id/" ++ idText ++ "-" ++ "M" ++ ".jpg" ++
          "?t=" ++ numberToString largeText now))) ∧
    (truthy coverId = true → ∀ idText t : String, jsToString largeText coverId = .ok idText →
      size = .str t → ¬ (t = "S" ∨ t = "M" ∨ t = "L") → protoText t = none →
      bookService.getCoverImageUrl largeText protoText now coverId size =
        .ok (.str ("https://covers.openlibrary.org/b/id/" ++ idText ++ "-" ++ "M" ++ ".jpg" ++
          "?t=" ++ numberToString largeText now))) ∧
    ((∀ t : String, jsToString largeText (.str t) = .ok t) ∧
      (∀ n : Int, n.natAbs ≤ 2 ^ 53 → jsToString largeText (.num n) = .ok (toString n)) ∧
      (now.natAbs ≤ 2 ^ 53 → numberToString largeText now = toString now)) ∧
    (truthy coverId = true → ∀ e : Thrown, jsToString largeText coverId = .error e →
      getCoverImageUrl largeText coverId size = .error e ∧
      (∀ imageSize : String,
        bookService.imageSize largeText protoText (defaultTo size (.str "M")) = .ok imageSize →
        bookService.getCoverImageUrl largeText protoText now coverId size = .error e)) ∧
    (truthy coverId = true → ∀ e : Thrown,
      jsToString largeText (defaultTo size (.str "M")) = .error e →
      bookService.getCoverImageUrl largeText protoText now coverId size = .error e ∧
      (∀ idText : String, jsToString largeText coverId = .ok idText →
        getCoverImageUrl largeText coverId size = .error e)) ∧
    (∀ fields : List (String × JsVal), hasField "toString" fields = true →
      jsToString largeText (.obj fields) = .error primitiveTypeError) := by
  refine ⟨?_, ?_, ?_, ?_, ?_, ?_, ⟨?_, ?_, ?_⟩, ?_, ?_, ?_⟩
  · intro h
    simp [getCoverImageUrl, bookService.getCoverImageUrl, h]
  · intro h idText sizeText hid hsize
    simp only [getCoverImageUrl, h, if_true, hid, hsize]
  · intro h hs idText hid
    subst hs
    simp only [getCoverImageUrl, h, if_true, hid, defaultTo, jsToString]
  · intro h idText t hid hs ht
    subst hs
    have hsize : bookService.imageSize largeText protoText (defaultTo (.str t) (.str "M")) =
        .ok t := by
      simp only [bookService.imageSize, defaultTo, jsToString]
      rw [if_pos ht]
    simp only [bookService.getCoverImageUrl, h, if_true, hsize, hid]
  · intro h hs idText hid
    subst hs
    have hsize : bookService.imageSize largeText protoText (defaultTo .undefined (.str "M")) =
        .ok "M" := by
      simp [bookService.imageSize, defaultTo, jsToString]
    simp only [bookService.getCoverImageUrl, h, if_true, hsize, hid]
  · intro h idText t hid hs ht hproto
    subst hs
    have hsize : bookService.imageSize largeText protoText (defaultTo (.str t) (.str "M")) =
        .ok "M" := by
      simp only [bookService.imageSize, defaultTo, jsToString]
      rw [if_neg ht, hproto]
    simp only [bookService.getCoverImageUrl, h, if_true, hsize, hid]
  · intro t
    simp only [jsToString]
  · intro n hn
    simp only [jsToString, numberToString, hn, if_true]
  · intro hn
    simp only [numberToString, hn, if_true]
  · intro h e he
    refine ⟨by simp only [getCoverImageUrl, h, if_true, he], ?_⟩
    intro imageSize hsize
    simp only [bookService.getCoverImageUrl, h, if_true, hsize, he]
  · intro h e he
    refine ⟨by simp only [bookService.getCoverImageUrl, bookService.imageSize, h, if_true, he],
      ?_⟩
    intro idText hid
    simp only [getCoverImageUrl, h, if_true, hid, he]
  · intro fields hf
    simp only [jsToString, hf, if_true]

/-- Witness for C23 (amended): the cover 12 in size L on the frontend. -/
theorem getCoverImageUrl_shapes_witness :
    bookService.getCoverImageUrl (fun _ => "") (fun _ => none) 1700000000000 (.num 12)
        (.str "L") =
      .ok (.str ("https://covers.openlibrary.org/b/id/" ++ "12" ++ "-" ++ "L" ++ ".jpg" ++
        "?t=" ++ numberToString (fun _ => "") 1700000000000)) :=
  (getCoverImageUrl_shapes (fun _ => "") (fun _ => none) 1700000000000 (.num 12)
    (.str "L")).2.2.2.1 rfl "12" "L" (by decide) rfl (Or.inr (Or.inr rfl))

/-! ## Claims about the categories of `HomeScreen` -/

/-- C29: for every raw record (with plain subject tags) the category assigned by the mapping
of `HomeScreen` is a string that includes, case-insensitively, at least one of the labels
Novel, Science, Romance, Horror, Comedy; hence every book of a mapped list is selected by
`filteredBooksByCategory` for at least one of these five categories, and selecting `All`
returns the list unchanged. -/
theorem every_book_has_a_category_label :
    (∀ (rnd : String) (fs : List (String × JsVal)), plainSubjects (.obj fs) →
      ∃ book t, toListedBook rnd (.obj fs) = .ok book ∧ book.category = .str t ∧
        ∃ cat ∈ categories.drop 1, (toLowerCase cat).data <:+: (toLowerCase t).data) ∧
    (∀ (rnd : Nat → String) (docs : List JsVal) (books : List ListedBook),
      (∀ b ∈ docs, (∃ fs, b = .obj fs) ∧ plainSubjects b) →
      mapListed rnd 0 docs = .ok books →
      ∀ book ∈ books, ∃ cat ∈ categories.drop 1, ∃ selected,
        filteredBooksByCategory cat books = .ok selected ∧ book ∈ selected) ∧
    (∀ books : List ListedBook, filteredBooksByCategory "All" books = .ok books) := by
  refine ⟨?_, ?_, ?_⟩
  · intro rnd fs hplain
    obtain ⟨c, hc⟩ := toListedBook_plain rnd hplain
    obtain ⟨t, ht, hm⟩ := toListedBook_category_labelled hplain hc
    exact ⟨_, t, hc, ht, (subjectMatches_iff t).mp hm⟩
  · intro rnd docs books hdocs hmap book hbook
    obtain ⟨books', hmap', hall⟩ := mapListed_plain rnd docs 0 hdocs
    rw [hmap] at hmap'
    cases hmap'
    have hlabel : ∀ x ∈ books, ∃ t, x.category = .str t ∧ subjectMatches t = true := by
      intro x hx
      obtain ⟨b, hb, ⟨r, hr⟩, _⟩ := forall₂_exists_left hall x hx
      obtain ⟨⟨fs, rfl⟩, hplain⟩ := hdocs b hb
      exact toListedBook_category_labelled hplain hr
    obtain ⟨t, ht, hm⟩ := hlabel book hbook
    simp only [subjectMatches, List.any_eq_true] at hm
    obtain ⟨cat, hcat, hinc⟩ := hm
    have hne : cat ≠ "All" := mem_drop_categories_ne_all hcat
    have hfilter := filterE_ok (ε := Thrown)
      (fun x : ListedBook =>
        match x.category with
        | .str category => .ok (includes (toLowerCase category) (toLowerCase cat))
        | .undefined => .error (propTypeError "toLowerCase")
        | .null => .error (propTypeError "toLowerCase")
        | _ => .error { name := "TypeError",
                        message := "book.category.toLowerCase is not a function" })
      (fun x : ListedBook =>
        match x.category with
        | .str category => includes (toLowerCase category) (toLowerCase cat)
        | _ => false)
      books
      (fun x hx => by
        obtain ⟨u, hu, _⟩ := hlabel x hx
        simp only [hu])
    refine ⟨cat, hcat,
      books.filter (fun x : ListedBook =>
        match x.category with
        | .str category => includes (toLowerCase category) (toLowerCase cat)
        | _ => false), ?_, ?_⟩
    · simp only [filteredBooksByCategory, hne, if_false]
      exact hfilter
    · rw [List.mem_filter]
      refine ⟨hbook, ?_⟩
      simp only [ht]
      exact hinc
  · intro books
    simp [filteredBooksByCategory]

/-- Witness for C29: a record with the tag Gothic Horror Fiction gets a category that
includes a label. -/
theorem every_book_has_a_category_label_witness :
    ∃ book t, toListedBook "0.42"
        (.obj [("key", .str "/works/OL9W"),
          ("subject_key", .arr [.str "Gothic Horror Fiction"])]) = .ok book ∧
      book.category = .str t ∧
      ∃ cat ∈ categories.drop 1, (toLowerCase cat).data <:+: (toLowerCase t).data :=
  every_book_has_a_category_label.1 "0.42"
    [("key", .str "/works/OL9W"), ("subject_key", .arr [.str "Gothic Horror Fiction"])]
    (Or.inr ⟨["Gothic Horror Fiction"], rfl⟩)

/-! ## Claims about the route `/register` -/

/-- C24 (counterexample): a registration whose email is the object `{"toString": 1}`, which
is not of the shape `local@domain.tld`, is not answered with 400 `Please enter a valid email
address`: the pattern test throws on the conversion of the email to text and the handler
answers 500 `Server error during registration`. -/
theorem registerRoute_unconvertible_email_is_500 :
    (registerRoute (fun _ => "") false listFindOne markHash listSave
        (.obj [("username", .str "al"), ("email", .obj [("toString", .num 1)]),
          ("password", .str "pw")]) []).response =
      { status := 500, msg := "Server error during registration" } ∧
    (registerRoute (fun _ => "") false listFindOne markHash listSave
        (.obj [("username", .str "al"), ("email", .obj [("toString", .num 1)]),
          ("password", .str "pw")]) []).lookups = [] ∧
    (registerRoute (fun _ => "") false listFindOne markHash listSave
        (.obj [("username", .str "al"), ("email", .obj [("toString", .num 1)]),
          ("password", .str "pw")]) []).saved = [] := by
  decide

/-- C24 (amended): the `/register` handler decides by the first failing check, in this
order: a missing or empty username, email or password gives 400 `Please enter all fields`;
an email whose text is not of the shape `local@domain.tld` (three non-empty parts without
white space or `@`) gives 400 `Please enter a valid email address`, and an email that cannot
be converted to text gives 500; a taken username gives 400 `Username already taken`; a
registered email gives 400 `Email already registered`; otherwise (the store and the hashing
answering) the response is 201. A user record is saved if and only if the outcome is 201,
and no user lookup is made when one of the first two checks fails. -/
theorem registerRoute_first_failing_check {σ : Type} (largeText : Int → String)
    (development : Bool)
    (findOne : String → JsVal → σ → Except Thrown JsVal × σ)
    (hashPassword : JsVal → σ → Except Thrown JsVal × σ)
    (save : JsVal → σ → Except Thrown Unit × σ)
    (fs : List (String × JsVal)) (s : σ) :
    ((truthy (lookupField "username" fs) = false ∨ truthy (lookupField "email" fs) = false ∨
        truthy (lookupField "password" fs) = false) →
      (registerRoute largeText development findOne hashPassword save (.obj fs) s).response = { status := 400, msg := "Please enter all fields" } ∧
      (registerRoute largeText development findOne hashPassword save (.obj fs) s).lookups = [] ∧ (registerRoute largeText development findOne hashPassword save (.obj fs) s).saved = [] ∧ (registerRoute largeText development findOne hashPassword save (.obj fs) s).state = s) ∧
    (truthy (lookupField "username" fs) = true → truthy (lookupField "email" fs) = true →
      truthy (lookupField "password" fs) = true → ∀ text : String,
      jsToString largeText (lookupField "email" fs) = .ok text →
      (¬ ∃ a b c, text.data = a ++ '@' :: (b ++ '.' :: c) ∧
        emailPart a = true ∧ emailPart b = true ∧ emailPart c = true) →
      (registerRoute largeText development findOne hashPassword save (.obj fs) s).response = { status := 400, msg := "Please enter a valid email address" } ∧
      (registerRoute largeText development findOne hashPassword save (.obj fs) s).lookups = [] ∧ (registerRoute largeText development findOne hashPassword save (.obj fs) s).saved = [] ∧ (registerRoute largeText development findOne hashPassword save (.obj fs) s).state = s) ∧
    (truthy (lookupField "username" fs) = true → truthy (lookupField "email" fs) = true →
      truthy (lookupField "password" fs) = true → ∀ e : Thrown,
      jsToString largeText (lookupField "email" fs) = .error e →
      (registerRoute largeText development findOne hashPassword save (.obj fs) s).response = registrationError development e ∧ (registerRoute largeText development findOne hashPassword save (.obj fs) s).response.status = 500 ∧
      (registerRoute largeText development findOne hashPassword save (.obj fs) s).lookups = [] ∧ (registerRoute largeText development findOne hashPassword save (.obj fs) s).saved = [] ∧ (registerRoute largeText development findOne hashPassword save (.obj fs) s).state = s) ∧
    (truthy (lookupField "username" fs) = true → truthy (lookupField "email" fs) = true →
      truthy (lookupField "password" fs) = true → ∀ text : String,
      jsToString largeText (lookupField "email" fs) = .ok text →
      emailRegexTest text.data = true →
      ∀ (byName : JsVal) (s1 : σ),
        findOne "username" (lookupField "username" fs) s = (.ok byName, s1) →
        (truthy byName = true →
          (registerRoute largeText development findOne hashPassword save (.obj fs) s).response = { status := 400, msg := "Username already taken" } ∧ (registerRoute largeText development findOne hashPassword save (.obj fs) s).saved = []) ∧
        (truthy byName = false → ∀ (byEmail : JsVal) (s2 : σ),
          findOne "email" (lookupField "email" fs) s1 = (.ok byEmail, s2) →
          (truthy byEmail = true →
            (registerRoute largeText development findOne hashPassword save (.obj fs) s).response = { status := 400, msg := "Email already registered" } ∧
            (registerRoute largeText development findOne hashPassword save (.obj fs) s).saved = []) ∧
          (truthy byEmail = false → ∀ (hashed : JsVal) (s3 s4 : σ),
            hashPassword (lookupField "password" fs) s2 = (.ok hashed, s3) →
            save (.obj [("username", lookupField "username" fs),
              ("email", lookupField "email" fs), ("password", hashed)]) s3 = (.ok (), s4) →
            (registerRoute largeText development findOne hashPassword save (.obj fs) s).response = { status := 201, msg := "User registered successfully" } ∧
            (registerRoute largeText development findOne hashPassword save (.obj fs) s).saved = [.obj [("username", lookupField "username" fs),
              ("email", lookupField "email" fs), ("password", hashed)]] ∧
            (registerRoute largeText development findOne hashPassword save (.obj fs) s).state = s4))) ∧
    ((registerRoute largeText development findOne hashPassword save (.obj fs) s).saved ≠ [] ↔ (registerRoute largeText development findOne hashPassword save (.obj fs) s).response.status = 201) ∧
    (∀ cs : List Char, emailRegexTest cs = true ↔
      ∃ a b c, cs = a ++ '@' :: (b ++ '.' :: c) ∧
        emailPart a = true ∧ emailPart b = true ∧ emailPart c = true) ∧
    (∀ t : String, jsToString largeText (.str t) = .ok t) := by
  refine ⟨?_, ?_, ?_, ?_, ?_, emailRegexTest_iff, ?_⟩
  · intro h
    have hcond : (!truthy (lookupField "username" fs) || !truthy (lookupField "email" fs) ||
        !truthy (lookupField "password" fs)) = true := by
      rcases h with h | h | h <;> simp [h]
    simp only [registerRoute, getProp, fieldOf, hcond, if_true, and_self]
  · intro hu he hp text htext hshape
    have hre : emailRegexTest text.data = false := by
      cases hr : emailRegexTest text.data
      · rfl
      · exact absurd ((emailRegexTest_iff _).mp hr) hshape
    simp [registerRoute, getProp, fieldOf, hu, he, hp, htext, hre]
  · intro hu he hp e herr
    simp [registerRoute, getProp, fieldOf, hu, he, hp, herr, registrationError]
  · intro hu he hp text htext hre byName s1 hfind
    refine ⟨?_, ?_⟩
    · intro hb
      simp [registerRoute, getProp, fieldOf, hu, he, hp, htext, hre, hfind, hb]
    · intro hb byEmail s2 hfind2
      refine ⟨?_, ?_⟩
      · intro hb2
        simp [registerRoute, getProp, fieldOf, hu, he, hp, htext, hre, hfind, hb, hfind2, hb2]
      · intro hb2 hashed s3 s4 hhash hsave
        simp [registerRoute, getProp, fieldOf, hu, he, hp, htext, hre, hfind, hb, hfind2, hb2,
          hhash, hsave]
  · simp only [registerRoute, getProp, fieldOf]
    repeat' split
    all_goals simp [registrationError]
  · intro t
    simp only [jsToString]

/-- Witness for C24 (amended): a first registration against an empty user store. -/
theorem registerRoute_first_failing_check_witness :
    (registerRoute (fun _ => "") false listFindOne markHash listSave
        (.obj [("username", .str "al"), ("email", .str "al@mail.org"),
          ("password", .str "pw")]) []).response =
      { status := 201, msg := "User registered successfully" } ∧
    (registerRoute (fun _ => "") false listFindOne markHash listSave
        (.obj [("username", .str "al"), ("email", .str "al@mail.org"),
          ("password", .str "pw")]) []).saved =
      [.obj [("username", .str "al"), ("email", .str "al@mail.org"),
        ("password", .str "hashed:pw")]] :=
  have h := ((((registerRoute_first_failing_check (fun _ => "") false listFindOne markHash
    listSave
    [("username", .str "al"), ("email", .str "al@mail.org"), ("password", .str "pw")]
    []).2.2.2.1 rfl rfl rfl "al@mail.org" rfl (by decide) .null [] rfl).2 rfl .null [] rfl).2
    rfl (.str "hashed:pw") [] _ rfl rfl)
  ⟨h.1, h.2.1⟩

/-! ## Claims about `login` of the frontend -/

/-- C30 (the code at the failing input): when the backend answers the login of `alice` with
a body `{token, user}`, `login` of `api.js` returns that body, and `login` of `AuthProvider`
reads the field `data` of it, which the body does not have: it returns `undefined`, sets
the current user to `undefined` and stores the text `undefined`, whatever the token and the
user record of the answer are. -/
theorem AuthContext_login_loses_user (largeText : Int → String) (stringify : JsVal → String)
    (serverMsg : Thrown → JsVal) (token user : JsVal) (auth : AuthState) :
    api.login largeText serverMsg (constPost (.obj [("token", token), ("user", user)]))
        (.str "alice") (.str "secret") 0 =
      (.ok (.obj [("token", token), ("user", user)]), 1) ∧
    AuthContext.login largeText stringify serverMsg
        (constPost (.obj [("token", token), ("user", user)]))
        (.str "alice") (.str "secret") auth 0 =
      (.ok .undefined, { user := .undefined, storedUser := some "undefined" }, 1) ∧
    fieldOf (AuthContext.login largeText stringify serverMsg
        (constPost (.obj [("token", .str "t"),
          ("user", .obj [("id", .str "1"), ("username", .str "alice"),
            ("email", .str "alice@mail.org")])]))
        (.str "alice") (.str "secret") auth 0).2.1.user "username" = .undefined := by
  refine ⟨rfl, rfl, rfl⟩

end BookPulse
